import Mathlib

/-!
# RenderExamples: scene update, camera and prop collision avoidance

A shallow embedding of the update code of the rendering lessons
(`Lesson4_RasterizationStage/Sources/main.cpp` and
`Lesson3_GeometryStage/Sources/main.cpp`).

Conventions of the embedding
* `float` values are read as elements of an arbitrary linearly ordered field `K`
  with a floor function (exact arithmetic); every definition is computable and
  can be evaluated at `K = ℚ`, every theorem also holds at `K = ℝ`.
* A field holds no infinity and no NaN, and `1 / 0 = 0` in it. The constructors and the
  wall bounces reach a division by zero in `glm::normalize` of the zero vector, where the
  code computes `0 * (1 / sqrt( 0 )) = 0 * inf`, a NaN. The part `Ieee` repeats the code that
  constructs and moves props and lights over floats with infinities and NaN (`Ieee.Fl`); it
  agrees with the model over `K` on states that hold numbers, and the statements on
  positions that a NaN velocity breaks (C1, C17) are made there.
* The C math library functions reached through GLM (`sqrt`, `cos`, `sin`, `tan`)
  are collected in a record `Libm K` that the code receives as an argument.
* `uint32_t` counters are natural numbers; the update code only compares them, and
  `mFrame++` in the main loop wraps modulo `2 ^ 32`.
* The part of the program state outside `GameState` (calls of `rand()` made so far, the
  close flag of the window) is kept in a record `Machine`.
* An object of the scene is identified by its index in `mObjects`
  (the pointer comparison `prop != this` is a comparison of indices).
* `rand()` is a stream `rand : ℕ → ℕ` together with the number of calls made so far.
* Statements about what a call or a pass does on the way (`PropUpdate.scan`,
  `PropUpdate.partner`, `PropUpdate.tested`, `updatePrefix`, `beforeCall`) are phrased with
  definitions that read the same local variables and run the same loops as the code.
-/

set_option autoImplicit false

namespace RenderExamples

/-! ## GLM vectors and matrices -/

/-- The C math library functions used by GLM. -/
structure Libm (K : Type) where
  /-- Square root, `std::sqrt`. -/
  sqrt : K → K
  /-- Cosine, `std::cos`. -/
  cos : K → K
  /-- Sine, `std::sin`. -/
  sin : K → K
  /-- Tangent, `std::tan`. -/
  tan : K → K
  /-- The literal `0.01745329251994329576923690768489` of `glm::radians`. -/
  radPerDeg : K

/-- The type `glm::vec2`. -/
@[ext]
structure Vec2 (K : Type) where
  x : K
  y : K
deriving DecidableEq, Repr

/-- The type `glm::vec3`. -/
@[ext]
structure Vec3 (K : Type) where
  x : K
  y : K
  z : K
deriving DecidableEq, Repr

/-- The type `glm::vec4`. -/
@[ext]
structure Vec4 (K : Type) where
  x : K
  y : K
  z : K
  w : K
deriving DecidableEq, Repr

/-- The type `glm::mat4`, stored by columns: `c0 = m[0]`, ..., `c3 = m[3]`. -/
@[ext]
structure Mat4 (K : Type) where
  c0 : Vec4 K
  c1 : Vec4 K
  c2 : Vec4 K
  c3 : Vec4 K
deriving DecidableEq, Repr

section Glm

variable {K : Type} [LinearOrderedField K] [FloorRing K]

namespace Vec2

/-- Componentwise `a + b`. -/
def add (a b : Vec2 K) : Vec2 K := ⟨a.x + b.x, a.y + b.y⟩

/-- Componentwise `a - b`. -/
def sub (a b : Vec2 K) : Vec2 K := ⟨a.x - b.x, a.y - b.y⟩

/-- Componentwise `a * b`. -/
def mul (a b : Vec2 K) : Vec2 K := ⟨a.x * b.x, a.y * b.y⟩

/-- Componentwise `a / b`. -/
def div (a b : Vec2 K) : Vec2 K := ⟨a.x / b.x, a.y / b.y⟩

/-- Vector times scalar, `v * s`. -/
def smul (v : Vec2 K) (s : K) : Vec2 K := ⟨v.x * s, v.y * s⟩

/-- Unary minus, `-v`. -/
def neg (v : Vec2 K) : Vec2 K := ⟨-v.x, -v.y⟩

/-- The function `glm::dot`. -/
def dot (a b : Vec2 K) : K := a.x * b.x + a.y * b.y

end Vec2

namespace Vec3

/-- Componentwise `a + b`. -/
def add (a b : Vec3 K) : Vec3 K := ⟨a.x + b.x, a.y + b.y, a.z + b.z⟩

/-- Componentwise `a - b`. -/
def sub (a b : Vec3 K) : Vec3 K := ⟨a.x - b.x, a.y - b.y, a.z - b.z⟩

/-- Vector times scalar, `v * s`. -/
def smul (v : Vec3 K) (s : K) : Vec3 K := ⟨v.x * s, v.y * s, v.z * s⟩

/-- Unary minus, `-v`. -/
def neg (v : Vec3 K) : Vec3 K := ⟨-v.x, -v.y, -v.z⟩

/-- The function `glm::dot`. -/
def dot (a b : Vec3 K) : K := a.x * b.x + a.y * b.y + a.z * b.z

/-- The function `glm::cross`. -/
def cross (a b : Vec3 K) : Vec3 K :=
  ⟨a.y * b.z - b.y * a.z, a.z * b.x - b.z * a.x, a.x * b.y - b.x * a.y⟩

end Vec3

namespace Vec4

/-- Componentwise `a + b`. -/
def add (a b : Vec4 K) : Vec4 K := ⟨a.x + b.x, a.y + b.y, a.z + b.z, a.w + b.w⟩

/-- Componentwise `a - b`. -/
def sub (a b : Vec4 K) : Vec4 K := ⟨a.x - b.x, a.y - b.y, a.z - b.z, a.w - b.w⟩

/-- Componentwise `a * b`. -/
def mul (a b : Vec4 K) : Vec4 K := ⟨a.x * b.x, a.y * b.y, a.z * b.z, a.w * b.w⟩

/-- Vector times scalar, `v * s`. -/
def smul (v : Vec4 K) (s : K) : Vec4 K := ⟨v.x * s, v.y * s, v.z * s, v.w * s⟩

/-- The conversion `glm::vec3( v )` dropping the last component. -/
def xyz (v : Vec4 K) : Vec3 K := ⟨v.x, v.y, v.z⟩

/-- The constructor `glm::vec4( v, w )`. -/
def ofVec3 (v : Vec3 K) (w : K) : Vec4 K := ⟨v.x, v.y, v.z, w⟩

end Vec4

/-- The function `glm::max`: `(a < b) ? b : a`. -/
def glmMax (a b : K) : K := if a < b then b else a

/-- The function `glm::min`: `(b < a) ? b : a`. -/
def glmMin (a b : K) : K := if b < a then b else a

/-- The function `glm::clamp( x, lo, hi )`: `min( max( x, lo ), hi )`. -/
def glmClamp (x lo hi : K) : K := glmMin (glmMax x lo) hi

/-- The function `glm::clamp` on a `vec2` with scalar limits. -/
def glmClamp2 (v : Vec2 K) (lo hi : K) : Vec2 K := ⟨glmClamp v.x lo hi, glmClamp v.y lo hi⟩

/-- The function `glm::mod( x, y )`: `x - y * floor( x / y )`. -/
def glmMod (x y : K) : K := x - y * (⌊x / y⌋ : ℤ)

/-- The function `glm::inversesqrt`: `1 / sqrt( x )`. Where `sqrt( x )` is zero the code
gets an infinity; the value here is `1 / 0 = 0` (see `Ieee.inversesqrt`). -/
def inversesqrt (L : Libm K) (x : K) : K := 1 / L.sqrt x

/-- The function `glm::length` on a `vec2`: `sqrt( dot( v, v ) )`. -/
def length2 (L : Libm K) (v : Vec2 K) : K := L.sqrt (Vec2.dot v v)

/-- The function `glm::length` on a `vec3`. -/
def length3 (L : Libm K) (v : Vec3 K) : K := L.sqrt (Vec3.dot v v)

/-- The function `glm::normalize` on a `vec2`: `v * inversesqrt( dot( v, v ) )`. At the zero
vector the code computes `0 * inf`, a NaN in both components, which `K` cannot hold; the
value here is the zero vector. `Ieee.normalize2` is the same function over floats with
infinities and NaN: it is a NaN at the zero vector (`ieee_normalize2_zero`) and has the
components of this function everywhere else (`ieee_normalize2_numVec`). -/
def normalize2 (L : Libm K) (v : Vec2 K) : Vec2 K := v.smul (inversesqrt L (Vec2.dot v v))

/-- The function `glm::normalize` on a `vec3`. -/
def normalize3 (L : Libm K) (v : Vec3 K) : Vec3 K := v.smul (inversesqrt L (Vec3.dot v v))

/-- The function `glm::radians`. -/
def radians (L : Libm K) (degrees : K) : K := degrees * L.radPerDeg

namespace Mat4

/-- The constructor `glm::mat4( s )`: `s` on the diagonal. -/
def diag (s : K) : Mat4 K :=
  ⟨⟨s, 0, 0, 0⟩, ⟨0, s, 0, 0⟩, ⟨0, 0, s, 0⟩, ⟨0, 0, 0, s⟩⟩

/-- The product of a matrix and a column vector, `m * v`. -/
def mulVec (m : Mat4 K) (v : Vec4 K) : Vec4 K :=
  (((m.c0.smul v.x).add (m.c1.smul v.y)).add (m.c2.smul v.z)).add (m.c3.smul v.w)

/-- The matrix product `m1 * m2` (column `i` of the result is `m1 * m2[i]`). -/
def mul (m1 m2 : Mat4 K) : Mat4 K :=
  ⟨m1.mulVec m2.c0, m1.mulVec m2.c1, m1.mulVec m2.c2, m1.mulVec m2.c3⟩

/-- Matrix times scalar. -/
def smul (m : Mat4 K) (s : K) : Mat4 K := ⟨m.c0.smul s, m.c1.smul s, m.c2.smul s, m.c3.smul s⟩

end Mat4

/-- The function `glm::translate( m, v )`:
`Result[3] = m[0] * v[0] + m[1] * v[1] + m[2] * v[2] + m[3]`. -/
def translate (m : Mat4 K) (v : Vec3 K) : Mat4 K :=
  { m with c3 := (((m.c0.smul v.x).add (m.c1.smul v.y)).add (m.c2.smul v.z)).add m.c3 }

/-- The function `glm::scale( m, v )`. -/
def scale (m : Mat4 K) (v : Vec3 K) : Mat4 K :=
  ⟨m.c0.smul v.x, m.c1.smul v.y, m.c2.smul v.z, m.c3⟩

/-- The function `glm::lookAt` (right handed). Row 0 of the rotation part is `s`,
row 1 is `u`, row 2 is `-f`. -/
def lookAt (L : Libm K) (eye center up : Vec3 K) : Mat4 K :=
  let f := normalize3 L (center.sub eye)
  let s := normalize3 L (f.cross up)
  let u := s.cross f
  ⟨⟨s.x, u.x, -f.x, 0⟩,
   ⟨s.y, u.y, -f.y, 0⟩,
   ⟨s.z, u.z, -f.z, 0⟩,
   ⟨-(s.dot eye), -(u.dot eye), f.dot eye, 1⟩⟩

/-- The function `glm::inverse` on a `mat4` (cofactor expansion, as in GLM's
`compute_inverse`). In `m.ci.r`, `i` is the column and `r` the row: `m[i][r]`. -/
def inverse (m : Mat4 K) : Mat4 K :=
  let coef00 := m.c2.z * m.c3.w - m.c3.z * m.c2.w
  let coef02 := m.c1.z * m.c3.w - m.c3.z * m.c1.w
  let coef03 := m.c1.z * m.c2.w - m.c2.z * m.c1.w
  let coef04 := m.c2.y * m.c3.w - m.c3.y * m.c2.w
  let coef06 := m.c1.y * m.c3.w - m.c3.y * m.c1.w
  let coef07 := m.c1.y * m.c2.w - m.c2.y * m.c1.w
  let coef08 := m.c2.y * m.c3.z - m.c3.y * m.c2.z
  let coef10 := m.c1.y * m.c3.z - m.c3.y * m.c1.z
  let coef11 := m.c1.y * m.c2.z - m.c2.y * m.c1.z
  let coef12 := m.c2.x * m.c3.w - m.c3.x * m.c2.w
  let coef14 := m.c1.x * m.c3.w - m.c3.x * m.c1.w
  let coef15 := m.c1.x * m.c2.w - m.c2.x * m.c1.w
  let coef16 := m.c2.x * m.c3.z - m.c3.x * m.c2.z
  let coef18 := m.c1.x * m.c3.z - m.c3.x * m.c1.z
  let coef19 := m.c1.x * m.c2.z - m.c2.x * m.c1.z
  let coef20 := m.c2.x * m.c3.y - m.c3.x * m.c2.y
  let coef22 := m.c1.x * m.c3.y - m.c3.x * m.c1.y
  let coef23 := m.c1.x * m.c2.y - m.c2.x * m.c1.y
  let fac0 : Vec4 K := ⟨coef00, coef00, coef02, coef03⟩
  let fac1 : Vec4 K := ⟨coef04, coef04, coef06, coef07⟩
  let fac2 : Vec4 K := ⟨coef08, coef08, coef10, coef11⟩
  let fac3 : Vec4 K := ⟨coef12, coef12, coef14, coef15⟩
  let fac4 : Vec4 K := ⟨coef16, coef16, coef18, coef19⟩
  let fac5 : Vec4 K := ⟨coef20, coef20, coef22, coef23⟩
  let vec0 : Vec4 K := ⟨m.c1.x, m.c0.x, m.c0.x, m.c0.x⟩
  let vec1 : Vec4 K := ⟨m.c1.y, m.c0.y, m.c0.y, m.c0.y⟩
  let vec2 : Vec4 K := ⟨m.c1.z, m.c0.z, m.c0.z, m.c0.z⟩
  let vec3 : Vec4 K := ⟨m.c1.w, m.c0.w, m.c0.w, m.c0.w⟩
  let inv0 := ((vec1.mul fac0).sub (vec2.mul fac1)).add (vec3.mul fac2)
  let inv1 := ((vec0.mul fac0).sub (vec2.mul fac3)).add (vec3.mul fac4)
  let inv2 := ((vec0.mul fac1).sub (vec1.mul fac3)).add (vec3.mul fac5)
  let inv3 := ((vec0.mul fac2).sub (vec1.mul fac4)).add (vec2.mul fac5)
  let signA : Vec4 K := ⟨1, -1, 1, -1⟩
  let signB : Vec4 K := ⟨-1, 1, -1, 1⟩
  let inv : Mat4 K := ⟨inv0.mul signA, inv1.mul signB, inv2.mul signA, inv3.mul signB⟩
  let row0 : Vec4 K := ⟨inv.c0.x, inv.c1.x, inv.c2.x, inv.c3.x⟩
  let dot0 := m.c0.mul row0
  let dot1 := (dot0.x + dot0.y) + (dot0.z + dot0.w)
  let oneOverDeterminant := 1 / dot1
  inv.smul oneOverDeterminant

/-- The function `glm::rotate( m, angle, v )`. -/
def rotate (L : Libm K) (m : Mat4 K) (angle : K) (v : Vec3 K) : Mat4 K :=
  let a := angle
  let c := L.cos a
  let s := L.sin a
  let axis := normalize3 L v
  let temp := axis.smul (1 - c)
  let r00 := c + temp.x * axis.x
  let r01 := temp.x * axis.y + s * axis.z
  let r02 := temp.x * axis.z - s * axis.y
  let r10 := temp.y * axis.x - s * axis.z
  let r11 := c + temp.y * axis.y
  let r12 := temp.y * axis.z + s * axis.x
  let r20 := temp.z * axis.x + s * axis.y
  let r21 := temp.z * axis.y - s * axis.x
  let r22 := c + temp.z * axis.z
  ⟨((m.c0.smul r00).add (m.c1.smul r01)).add (m.c2.smul r02),
   ((m.c0.smul r10).add (m.c1.smul r11)).add (m.c2.smul r12),
   ((m.c0.smul r20).add (m.c1.smul r21)).add (m.c2.smul r22),
   m.c3⟩

/-- The function `glm::perspective( fovy, aspect, zNear, zFar )`
(right handed, depth range `[-1, 1]`). -/
def perspective (L : Libm K) (fovy aspect zNear zFar : K) : Mat4 K :=
  let tanHalfFovy := L.tan (fovy / 2)
  ⟨⟨1 / (aspect * tanHalfFovy), 0, 0, 0⟩,
   ⟨0, 1 / tanHalfFovy, 0, 0⟩,
   ⟨0, 0, -(zFar + zNear) / (zFar - zNear), -1⟩,
   ⟨0, 0, -(2 * zFar * zNear) / (zFar - zNear), 0⟩⟩

namespace Vec3

/-- Scalar times vector, `s * v`. -/
def lsmul (s : K) (v : Vec3 K) : Vec3 K := ⟨s * v.x, s * v.y, s * v.z⟩

end Vec3

/-! ## Vocabulary for `glm::inverse` -/

/-- The matrix `Inverse` of `glm::inverse` before it is multiplied by
`OneOverDeterminant`: the transposed matrix of cofactors. -/
def inverseCofactors (m : Mat4 K) : Mat4 K :=
  let coef00 := m.c2.z * m.c3.w - m.c3.z * m.c2.w
  let coef02 := m.c1.z * m.c3.w - m.c3.z * m.c1.w
  let coef03 := m.c1.z * m.c2.w - m.c2.z * m.c1.w
  let coef04 := m.c2.y * m.c3.w - m.c3.y * m.c2.w
  let coef06 := m.c1.y * m.c3.w - m.c3.y * m.c1.w
  let coef07 := m.c1.y * m.c2.w - m.c2.y * m.c1.w
  let coef08 := m.c2.y * m.c3.z - m.c3.y * m.c2.z
  let coef10 := m.c1.y * m.c3.z - m.c3.y * m.c1.z
  let coef11 := m.c1.y * m.c2.z - m.c2.y * m.c1.z
  let coef12 := m.c2.x * m.c3.w - m.c3.x * m.c2.w
  let coef14 := m.c1.x * m.c3.w - m.c3.x * m.c1.w
  let coef15 := m.c1.x * m.c2.w - m.c2.x * m.c1.w
  let coef16 := m.c2.x * m.c3.z - m.c3.x * m.c2.z
  let coef18 := m.c1.x * m.c3.z - m.c3.x * m.c1.z
  let coef19 := m.c1.x * m.c2.z - m.c2.x * m.c1.z
  let coef20 := m.c2.x * m.c3.y - m.c3.x * m.c2.y
  let coef22 := m.c1.x * m.c3.y - m.c3.x * m.c1.y
  let coef23 := m.c1.x * m.c2.y - m.c2.x * m.c1.y
  let fac0 : Vec4 K := ⟨coef00, coef00, coef02, coef03⟩
  let fac1 : Vec4 K := ⟨coef04, coef04, coef06, coef07⟩
  let fac2 : Vec4 K := ⟨coef08, coef08, coef10, coef11⟩
  let fac3 : Vec4 K := ⟨coef12, coef12, coef14, coef15⟩
  let fac4 : Vec4 K := ⟨coef16, coef16, coef18, coef19⟩
  let fac5 : Vec4 K := ⟨coef20, coef20, coef22, coef23⟩
  let vec0 : Vec4 K := ⟨m.c1.x, m.c0.x, m.c0.x, m.c0.x⟩
  let vec1 : Vec4 K := ⟨m.c1.y, m.c0.y, m.c0.y, m.c0.y⟩
  let vec2 : Vec4 K := ⟨m.c1.z, m.c0.z, m.c0.z, m.c0.z⟩
  let vec3 : Vec4 K := ⟨m.c1.w, m.c0.w, m.c0.w, m.c0.w⟩
  let inv0 := ((vec1.mul fac0).sub (vec2.mul fac1)).add (vec3.mul fac2)
  let inv1 := ((vec0.mul fac0).sub (vec2.mul fac3)).add (vec3.mul fac4)
  let inv2 := ((vec0.mul fac1).sub (vec1.mul fac3)).add (vec3.mul fac5)
  let inv3 := ((vec0.mul fac2).sub (vec1.mul fac4)).add (vec2.mul fac5)
  let signA : Vec4 K := ⟨1, -1, 1, -1⟩
  let signB : Vec4 K := ⟨-1, 1, -1, 1⟩
  ⟨inv0.mul signA, inv1.mul signB, inv2.mul signA, inv3.mul signB⟩

/-- The determinant `Dot1` that `glm::inverse` divides by. -/
def inverseDeterminant (m : Mat4 K) : K :=
  let inv := inverseCofactors m
  let row0 : Vec4 K := ⟨inv.c0.x, inv.c1.x, inv.c2.x, inv.c3.x⟩
  let dot0 := m.c0.mul row0
  (dot0.x + dot0.y) + (dot0.z + dot0.w)

end Glm

/-! ## Lesson4_RasterizationStage: data model -/

namespace Lesson4

section Scene

variable {K : Type} [LinearOrderedField K] [FloorRing K]

/-- The constant `FLOOR_SIZE = 50.0f`. -/
def FLOOR_SIZE (K : Type) [LinearOrderedField K] : K := 50

/-- The constant `FLOOR_HALF_SIZE = FLOOR_SIZE * 0.5f`. -/
def FLOOR_HALF_SIZE (K : Type) [LinearOrderedField K] : K := FLOOR_SIZE K * (1 / 2)

/-- The fields of `struct Prop` that the update code reads or writes
(`mModel` and `mShader` are rendering handles and are left out). -/
structure PropObject (K : Type) where
  mTransform : Mat4 K
  mPosXZ : Vec2 K
  mVelocityXZ : Vec2 K
  mScale : K
  mOverrideDist : K
  mUpdateFrame : ℕ
deriving DecidableEq, Repr

/-- The fields of `struct Floor` (without the rendering handles). -/
structure Floor (K : Type) where
  mTransform : Mat4 K
deriving DecidableEq, Repr

/-- The fields of `struct Camera`. -/
structure Camera (K : Type) where
  mPosition : Vec3 K
  mPitchYaw : Vec2 K
deriving DecidableEq, Repr

/-- The fields of `struct Light`. -/
structure Light (K : Type) where
  mPosXZ : Vec2 K
  mVelocityXZ : Vec2 K
  mColor : Vec3 K
  mRadius : K
deriving DecidableEq, Repr

/-- The dynamic type of an element of `mObjects`. -/
inductive Object (K : Type) where
  | camera (c : Camera K)
  | floor (f : Floor K)
  | prop (p : PropObject K)
  | light (l : Light K)
deriving DecidableEq, Repr

/-- The fields of `struct GameState` (without the window handle). `mLights` holds the
indices in `mObjects` of the lights it shares with `mObjects`. -/
structure GameState (K : Type) where
  mViewMatrix : Mat4 K
  mCameraMatrix : Mat4 K
  mProjectionMatrix : Mat4 K
  mObjects : List (Object K)
  mLights : List ℕ
  mButtonMask : ℕ
  mPrevMousePos : Vec2 K
  mCurMousePos : Vec2 K
  mFrame : ℕ
  mPauseKey : Bool
  mPaused : Bool
deriving DecidableEq, Repr

/-- The enumerator `GameState::BUTTON_UP = 1 << 0`. -/
def BUTTON_UP : ℕ := 1 <<< 0

/-- The enumerator `GameState::BUTTON_LEFT = 1 << 1`. -/
def BUTTON_LEFT : ℕ := 1 <<< 1

/-- The enumerator `GameState::BUTTON_DOWN = 1 << 2`. -/
def BUTTON_DOWN : ℕ := 1 <<< 2

/-- The enumerator `GameState::BUTTON_RIGHT = 1 << 3`. -/
def BUTTON_RIGHT : ℕ := 1 <<< 3

/-- Apply `f` to the element at position `i` of a list, in place. -/
def modifyAt {α : Type} (f : α → α) : List α → ℕ → List α
  | [], _ => []
  | a :: as, 0 => f a :: as
  | a :: as, i + 1 => a :: modifyAt f as i

/-- The result of `dynamic_cast<Prop*>( obj.get() )`: the prop, or `none` for `nullptr`. -/
def Object.asProp : Object K → Option (PropObject K)
  | .prop p => some p
  | _ => none

/-- Apply a write to an object if it is a `Prop`. -/
def Object.mapProp (f : PropObject K → PropObject K) : Object K → Object K
  | .prop p => .prop (f p)
  | o => o

/-- The prop stored at index `i` of `mObjects`, if that object is a `Prop`. -/
def propAt (objs : List (Object K)) (i : ℕ) : Option (PropObject K) :=
  objs[i]?.bind Object.asProp

/-- A write through a `Prop*` pointing at the object with index `i`. -/
def GameState.modifyProp (gs : GameState K) (i : ℕ) (f : PropObject K → PropObject K) :
    GameState K :=
  { gs with mObjects := modifyAt (Object.mapProp f) gs.mObjects i }

/-! ## Lesson4_RasterizationStage: `Prop` -/

/-- The constructor `Prop::Prop( model, shader, scale )`. `r0 .. r3` are the values returned
by its four calls of `rand()`, in order; `t0` is the not yet initialised `mTransform`. -/
def PropObject.new (L : Libm K) (scale : K) (r0 r1 r2 r3 : ℕ) (t0 : Mat4 K) : PropObject K :=
  let posX := -FLOOR_HALF_SIZE K + (((r0 % 101 : ℕ) : K) / 100 * FLOOR_SIZE K)
  let posY := -FLOOR_HALF_SIZE K + (((r1 % 101 : ℕ) : K) / 100 * FLOOR_SIZE K)
  let velX := -1 + (((r2 % 101 : ℕ) : K) / 100 * 2)
  let velY := -1 + (((r3 % 101 : ℕ) : K) / 100 * 2)
  { mTransform := t0
    mPosXZ := ⟨posX, posY⟩
    mVelocityXZ := normalize2 L ⟨velX, velY⟩
    mScale := scale
    mOverrideDist := 0
    mUpdateFrame := 0 }

/-- The local variables of the peer scan of `Prop::Update` when the loop is left:
the flag `collision`, the pointer `prop` (the index of the object it points to, `none`
for `nullptr`) and whether the loop was left through `break` (where `mOverrideDist = 0.5f`
is executed). -/
structure ScanLocals where
  collision : Bool
  prop : Option ℕ
  hit : Bool
deriving DecidableEq, Repr

/-- The loop `for (const auto& obj : gGameState->mObjects)` of `Prop::Update`, run on
the objects from index `j` on. `collision` and `prop` are the current values of the
local variables. -/
def scanPeers (L : Libm K) (frame self : ℕ) (newPos : Vec2 K) :
    List (Object K) → ℕ → Bool → Option ℕ → ScanLocals
  | [], _, collision, prop => ⟨collision, prop, false⟩
  | obj :: rest, j, collision, _ =>
    match obj.asProp with
    | some p =>
      if j ≠ self ∧ p.mUpdateFrame ≠ frame then
        if length2 L (newPos.sub p.mPosXZ) < 1 / 2 then
          ⟨true, some j, true⟩
        else
          scanPeers L frame self newPos rest (j + 1) false (some j)
      else
        scanPeers L frame self newPos rest (j + 1) collision (some j)
    | none => scanPeers L frame self newPos rest (j + 1) collision none

/-- The wall test of `Prop::Update`. -/
def hitsWall (newPos : Vec2 K) : Bool :=
  decide (newPos.x < -FLOOR_HALF_SIZE K ∨ newPos.x > FLOOR_HALF_SIZE K ∨
          newPos.y < -FLOOR_HALF_SIZE K ∨ newPos.y > FLOOR_HALF_SIZE K)

/-- The body of `if (mUpdateFrame != gGameState->mFrame)` in `Prop::Update`, for the
prop with index `self`; `me` is the value of `*this` on entry. -/
def PropUpdate.move (L : Libm K) (deltaTime : K) (self : ℕ) (me : PropObject K)
    (gs : GameState K) : GameState K :=
  let speed : K := 5 / 2
  let dist := deltaTime * speed
  let newPos := me.mPosXZ.add (me.mVelocityXZ.smul dist)
  let overrideDist := glmMax (me.mOverrideDist - dist) 0
  let gs1 := gs.modifyProp self (fun p => { p with mOverrideDist := overrideDist })
  let wall := hitsWall newPos
  let scan : ScanLocals :=
    if !wall ∧ overrideDist = 0 then
      scanPeers L gs.mFrame self newPos gs1.mObjects 0 wall none
    else ⟨wall, none, false⟩
  let gs2 := if scan.hit then gs1.modifyProp self (fun p => { p with mOverrideDist := 1 / 2 })
    else gs1
  let gs3 :=
    if scan.collision then
      let gs21 := gs2.modifyProp self (fun p => { p with mVelocityXZ := p.mVelocityXZ.neg })
      match scan.prop with
      | some j =>
        let gs22 := gs21.modifyProp j (fun q => { q with mVelocityXZ := q.mVelocityXZ.neg })
        gs22.modifyProp self (fun p => { p with mOverrideDist := 1 / 2, mUpdateFrame := gs.mFrame })
      | none => gs21
    else
      gs2.modifyProp self (fun p => { p with mPosXZ := newPos })
  gs3.modifyProp self (fun p => { p with mUpdateFrame := gs.mFrame })

/-- The local variable `rot` of `Prop::Update` for the velocity `v`:
`glm::lookAt` from the origin towards `(-v.x, 0, -v.y)` with up `(0, 1, 0)`, inverted. -/
def PropUpdate.rot (L : Libm K) (v : Vec2 K) : Mat4 K :=
  let rot := lookAt L ⟨0, 0, 0⟩ ⟨-v.x, 0, -v.y⟩ ⟨0, 1, 0⟩
  inverse rot

/-- The matrix that the last lines of `Prop::Update` store in `mTransform`. -/
def PropObject.worldTransform (L : Libm K) (p : PropObject K) : Mat4 K :=
  let rot := PropUpdate.rot L p.mVelocityXZ
  let t := Mat4.diag 1
  let t := translate t ⟨p.mPosXZ.x, 0, p.mPosXZ.y⟩
  let t := t.mul rot
  scale t ⟨p.mScale, p.mScale, p.mScale⟩

/-- The method `Prop::Update( deltaTime )` called on the object with index `self`
(which is a `Prop`, otherwise the call is not this method and the state is returned). -/
def PropUpdate (L : Libm K) (deltaTime : K) (self : ℕ) (gs : GameState K) : GameState K :=
  match propAt gs.mObjects self with
  | none => gs
  | some me =>
    if gs.mPaused then gs
    else
      let gs1 := if me.mUpdateFrame ≠ gs.mFrame then PropUpdate.move L deltaTime self me gs else gs
      gs1.modifyProp self (fun p => { p with mTransform := p.worldTransform L })

/-! ## Lesson4_RasterizationStage: `Camera`, `Light` and the update pass -/

/-- The constructor `Camera::Camera()`. -/
def Camera.new (K : Type) [LinearOrderedField K] : Camera K :=
  { mPosition := ⟨0, 13, 23⟩, mPitchYaw := ⟨0, -28⟩ }

/-- What `Camera::Update` writes: the camera's own fields and three matrices of the
game state. -/
structure CameraOutput (K : Type) where
  camera : Camera K
  mCameraMatrix : Mat4 K
  mViewMatrix : Mat4 K
  mProjectionMatrix : Mat4 K
deriving DecidableEq, Repr

/-- The method `Camera::Update( deltaTime )`. `wd` and `ht` are the values returned by
`glfwGetWindowSize`; `buttonMask`, `prevMousePos` and `curMousePos` are the fields of the
game state it reads. -/
def Camera.Update (L : Libm K) (wd ht : ℤ) (buttonMask : ℕ) (prevMousePos curMousePos : Vec2 K)
    (deltaTime : K) (c : Camera K) : CameraOutput K :=
  let windowSize : Vec2 K := ⟨(wd : K), (ht : K)⟩
  let aspectRatio := windowSize.x / windowSize.y
  let rateOfRotation : Vec2 K := ⟨90 * aspectRatio, 90⟩
  let normalizedMouseDelta := (curMousePos.sub prevMousePos).div windowSize
  let rotationDelta := normalizedMouseDelta.neg.mul rateOfRotation
  let pitchYaw := c.mPitchYaw.add rotationDelta
  let pitchYaw : Vec2 K := ⟨glmMod pitchYaw.x 360, pitchYaw.y⟩
  let pitchYaw : Vec2 K := ⟨pitchYaw.x, glmClamp pitchYaw.y (-90) 90⟩
  let transform : Mat4 K := Mat4.diag 1
  let transform := rotate L transform (radians L pitchYaw.x) ⟨0, 1, 0⟩
  let transform := rotate L transform (radians L pitchYaw.y) ⟨1, 0, 0⟩
  let speed : K := 5
  let zero : Vec3 K := ⟨0, 0, 0⟩
  let pos := c.mPosition
  let pos := pos.add (if buttonMask &&& BUTTON_UP ≠ 0
    then (Vec3.lsmul (speed * deltaTime) transform.c2.xyz).neg else zero)
  let pos := pos.add (if buttonMask &&& BUTTON_DOWN ≠ 0
    then Vec3.lsmul (speed * deltaTime) transform.c2.xyz else zero)
  let pos := pos.add (if buttonMask &&& BUTTON_LEFT ≠ 0
    then (Vec3.lsmul (speed * deltaTime) transform.c0.xyz).neg else zero)
  let pos := pos.add (if buttonMask &&& BUTTON_RIGHT ≠ 0
    then Vec3.lsmul (speed * deltaTime) transform.c0.xyz else zero)
  let transform : Mat4 K := { transform with c3 := Vec4.ofVec3 pos 1 }
  { camera := { mPosition := pos, mPitchYaw := pitchYaw }
    mCameraMatrix := transform
    mViewMatrix := inverse transform
    mProjectionMatrix :=
      perspective L (radians L 45) (windowSize.x / windowSize.y) (1 / 10) 100 }

/-- The constructor `Light::Light( color )`; `r0 .. r3` are the results of its four
calls of `rand()`. -/
def Light.new (L : Libm K) (color : Vec3 K) (r0 r1 r2 r3 : ℕ) : Light K :=
  let posX := -FLOOR_HALF_SIZE K + (((r0 % 101 : ℕ) : K) / 100 * FLOOR_SIZE K)
  let posY := -FLOOR_HALF_SIZE K + (((r1 % 101 : ℕ) : K) / 100 * FLOOR_SIZE K)
  let velX := -1 + (((r2 % 101 : ℕ) : K) / 100 * 2)
  let velY := -1 + (((r3 % 101 : ℕ) : K) / 100 * 2)
  { mPosXZ := ⟨posX, posY⟩
    mVelocityXZ := normalize2 L ⟨velX, velY⟩
    mColor := color
    mRadius := 10 }

/-- The method `Light::Update( deltaTime )`. `rand` is the stream of results of `rand()`
and `n` the number of calls made so far; the new count is returned with the light. -/
def Light.Update (L : Libm K) (rand : ℕ → ℕ) (paused : Bool) (deltaTime : K)
    (l : Light K) (n : ℕ) : Light K × ℕ :=
  if paused then (l, n)
  else
    let speed : K := 5
    let pos := l.mPosXZ.add ((l.mVelocityXZ.smul deltaTime).smul speed)
    if pos.x < -FLOOR_HALF_SIZE K ∨ pos.x > FLOOR_HALF_SIZE K ∨
       pos.y < -FLOOR_HALF_SIZE K ∨ pos.y > FLOOR_HALF_SIZE K then
      let velX := -1 + (((rand n % 101 : ℕ) : K) / 100 * 2)
      let velY := -1 + (((rand (n + 1) % 101 : ℕ) : K) / 100 * 2)
      ({ l with mVelocityXZ := normalize2 L ⟨velX, velY⟩,
                mPosXZ := glmClamp2 pos (-FLOOR_HALF_SIZE K) (FLOOR_HALF_SIZE K) }, n + 2)
    else ({ l with mPosXZ := pos }, n)

/-- The virtual call `obj->Update( deltaTime )` on the object with index `i`.
The second component of the state counts the calls of `rand()`. `Floor` inherits the
empty `Object::Update`. -/
def ObjectUpdate (L : Libm K) (rand : ℕ → ℕ) (wd ht : ℤ) (deltaTime : K) (i : ℕ)
    (w : GameState K × ℕ) : GameState K × ℕ :=
  match w.1.mObjects[i]? with
  | none => w
  | some (.floor _) => w
  | some (.prop _) => (PropUpdate L deltaTime i w.1, w.2)
  | some (.light l) =>
    let r := Light.Update L rand w.1.mPaused deltaTime l w.2
    ({ w.1 with mObjects := modifyAt (fun _ => Object.light r.1) w.1.mObjects i }, r.2)
  | some (.camera c) =>
    let out := Camera.Update L wd ht w.1.mButtonMask w.1.mPrevMousePos w.1.mCurMousePos deltaTime c
    ({ w.1 with
        mObjects := modifyAt (fun _ => Object.camera out.camera) w.1.mObjects i
        mCameraMatrix := out.mCameraMatrix
        mViewMatrix := out.mViewMatrix
        mProjectionMatrix := out.mProjectionMatrix }, w.2)

/-- The loop `for (const auto& obj : gGameState->mObjects) obj->Update( deltaTime )`
of `Update`: the objects are updated in container order. -/
def updateObjects (L : Libm K) (rand : ℕ → ℕ) (wd ht : ℤ) (deltaTime : K)
    (w : GameState K × ℕ) : GameState K × ℕ :=
  (List.range w.1.mObjects.length).foldl (fun st i => ObjectUpdate L rand wd ht deltaTime i st) w

/-! ## Vocabulary of the statements -/

/-- Object `k` of `objs` is a prop other than `self`, not yet updated in frame `frame`,
at distance less than `0.5` from `newPos`: it passes the tests of the peer scan. -/
def IsPeer (L : Libm K) (frame self : ℕ) (newPos : Vec2 K) (objs : List (Object K)) (k : ℕ) :
    Prop :=
  ∃ B, propAt objs k = some B ∧ k ≠ self ∧ B.mUpdateFrame ≠ frame ∧
    length2 L (newPos.sub B.mPosXZ) < 1 / 2

/-- The candidate position `newPos` of `Prop::Update`: position plus velocity times
`deltaTime * 2.5`. -/
def PropObject.candidate (p : PropObject K) (deltaTime : K) : Vec2 K :=
  p.mPosXZ.add (p.mVelocityXZ.smul (deltaTime * (5 / 2)))

/-- The cooldown after the decrement of `Prop::Update`: `max( mOverrideDist - dist, 0 )`. -/
def PropObject.cooled (p : PropObject K) (deltaTime : K) : K :=
  glmMax (p.mOverrideDist - deltaTime * (5 / 2)) 0

/-- Both components of a ground position lie in `[-25, 25]`. -/
def InFloor (v : Vec2 K) : Prop := -25 ≤ v.x ∧ v.x ≤ 25 ∧ -25 ≤ v.y ∧ v.y ≤ 25

/-- One call of `Prop::Update`: the values of `gGameState->mFrame` and
`gGameState->mPaused` at the time of the call, the argument `deltaTime` and the index of
the object the method is called on. -/
structure UpdateCall (K : Type) where
  frame : ℕ
  paused : Bool
  deltaTime : K
  self : ℕ

/-- Run a sequence of `Prop::Update` calls, each under its own frame value and pause flag. -/
def runCalls (L : Libm K) : List (UpdateCall K) → GameState K → GameState K
  | [], gs => gs
  | c :: cs, gs =>
    runCalls L cs (PropUpdate L c.deltaTime c.self { gs with mFrame := c.frame, mPaused := c.paused })

/-- The yaw `mPitchYaw.x` lies in `[0, 360)` and the pitch `mPitchYaw.y` in `[-90, 90]`. -/
def AnglesInRange (c : Camera K) : Prop :=
  0 ≤ c.mPitchYaw.x ∧ c.mPitchYaw.x < 360 ∧ -90 ≤ c.mPitchYaw.y ∧ c.mPitchYaw.y ≤ 90

/-- The inputs of one call of `Camera::Update`: window size, button mask, previous and
current mouse position and `deltaTime`. -/
structure CameraCall (K : Type) where
  wd : ℤ
  ht : ℤ
  buttonMask : ℕ
  prevMousePos : Vec2 K
  curMousePos : Vec2 K
  deltaTime : K

/-- Run a sequence of `Camera::Update` calls on a camera. -/
def runCameraCalls (L : Libm K) : List (CameraCall K) → Camera K → Camera K
  | [], c => c
  | i :: is, c =>
    runCameraCalls L is
      (Camera.Update L i.wd i.ht i.buttonMask i.prevMousePos i.curMousePos i.deltaTime c).camera

/-- Every prop of the scene satisfies `P`. -/
def AllProps (P : PropObject K → Prop) (objs : List (Object K)) : Prop :=
  ∀ k p, propAt objs k = some p → P p

/-- The position of `Light::Update` after `mPosXZ += mVelocityXZ * deltaTime * speed`. -/
def Light.advanced (l : Light K) (deltaTime : K) : Vec2 K :=
  l.mPosXZ.add ((l.mVelocityXZ.smul deltaTime).smul 5)

/-- The value `1` if the button bit `b` is set in `mask` and `0` otherwise. -/
def buttonHeld (K : Type) [LinearOrderedField K] (mask b : ℕ) : K :=
  if mask &&& b ≠ 0 then 1 else 0

/-- The orientation that `Camera::Update` builds from the updated angles `pitchYaw`:
`rotate( rotate( mat4( 1 ), radians( pitchYaw.x ), Y ), radians( pitchYaw.y ), X )`. -/
def cameraOrientation (L : Libm K) (pitchYaw : Vec2 K) : Mat4 K :=
  rotate L (rotate L (Mat4.diag 1) (radians L pitchYaw.x) ⟨0, 1, 0⟩) (radians L pitchYaw.y)
    ⟨1, 0, 0⟩

/-! ## Lesson4_RasterizationStage: input, `Update`, `Render` and the main loop -/

/-- One sample of the keyboard and of the cursor, as `ProcessInput` reads it through
`glfwGetKey` (`true` for `GLFW_PRESS`) and `glfwGetCursorPos`. -/
structure InputSample (K : Type) where
  keyEscape : Bool
  keyUp : Bool
  keyW : Bool
  keyLeft : Bool
  keyA : Bool
  keyDown : Bool
  keyS : Bool
  keyRight : Bool
  keyD : Bool
  keyP : Bool
  xpos : K
  ypos : K

/-- The state of the program: `*gGameState`, the number of calls of `rand()` made so far
and the close flag of the window (`glfwWindowShouldClose`). -/
structure Machine (K : Type) where
  gs : GameState K
  randCalls : ℕ
  windowShouldClose : Bool

/-- What one iteration of the main loop receives from outside: the measured `deltaTime`,
the window size, the input sample, and whether `glfwPollEvents` delivers a close request. -/
structure FrameEnv (K : Type) where
  deltaTime : K
  wd : ℤ
  ht : ℤ
  input : InputSample K
  closeRequested : Bool

/-- The part of `Init` that writes the game state: the cursor position, the pause flags
and `mFrame = 1` (`g` is the freshly allocated `GameState`). -/
def Init (xpos ypos : K) (g : GameState K) : GameState K :=
  { g with mCurMousePos := ⟨xpos, ypos⟩, mPauseKey := false, mPaused := false, mFrame := 1 }

/-- The function `ProcessInput`. -/
def ProcessInput (inp : InputSample K) (m : Machine K) : Machine K :=
  let close := if inp.keyEscape then true else m.windowShouldClose
  let mask : ℕ := 0
  let mask := mask ||| (if inp.keyUp || inp.keyW then BUTTON_UP else 0)
  let mask := mask ||| (if inp.keyLeft || inp.keyA then BUTTON_LEFT else 0)
  let mask := mask ||| (if inp.keyDown || inp.keyS then BUTTON_DOWN else 0)
  let mask := mask ||| (if inp.keyRight || inp.keyD then BUTTON_RIGHT else 0)
  let pauseKey := inp.keyP
  let paused := if !pauseKey && m.gs.mPauseKey then !m.gs.mPaused else m.gs.mPaused
  { m with
    gs := { m.gs with
      mButtonMask := mask
      mPrevMousePos := m.gs.mCurMousePos
      mCurMousePos := ⟨inp.xpos, inp.ypos⟩
      mPaused := paused
      mPauseKey := pauseKey }
    windowShouldClose := close }

/-- The function `Update( deltaTime )`: `glfwPollEvents`, `ProcessInput`, then the update
of every object in container order. -/
def Update (L : Libm K) (rand : ℕ → ℕ) (env : FrameEnv K) (m : Machine K) : Machine K :=
  let m1 : Machine K := { m with windowShouldClose := m.windowShouldClose || env.closeRequested }
  let m2 := ProcessInput env.input m1
  let r := updateObjects L rand env.wd env.ht env.deltaTime (m2.gs, m2.randCalls)
  { m2 with gs := r.1, randCalls := r.2 }

/-- The function `Render`: it reads the game state and the objects and writes to the
OpenGL context only, so the program state is returned as it is. -/
def Render (m : Machine K) : Machine K := m

/-- One iteration of the loop of `main`: `Update`, `Render`, `gGameState->mFrame++`
(a `uint32_t`, so the increment wraps modulo `2 ^ 32`). -/
def mainIteration (L : Libm K) (rand : ℕ → ℕ) (env : FrameEnv K) (m : Machine K) : Machine K :=
  let m1 := Update L rand env m
  let m2 := Render m1
  { m2 with gs := { m2.gs with mFrame := (m2.gs.mFrame + 1) % 2 ^ 32 } }

/-- The iterations of the loop of `main` for the given environments, one after the other. -/
def runIterations (L : Libm K) (rand : ℕ → ℕ) : List (FrameEnv K) → Machine K → Machine K
  | [], m => m
  | env :: envs, m => runIterations L rand envs (mainIteration L rand env m)

/-- The loop `while (!glfwWindowShouldClose( window ))` of `main`, for at most as many
iterations as environments are given. -/
def mainLoop (L : Libm K) (rand : ℕ → ℕ) : List (FrameEnv K) → Machine K → Machine K
  | [], m => m
  | env :: envs, m =>
    if m.windowShouldClose then m else mainLoop L rand envs (mainIteration L rand env m)

/-- The statements of `Camera::Update` that follow the update of the angles (from
`glm::mat4 transform( 1.0f )` on), for the angles `pitchYaw` that the first statements
have stored in `mPitchYaw`. -/
def Camera.Update.compose (L : Libm K) (wd ht : ℤ) (buttonMask : ℕ) (deltaTime : K)
    (c : Camera K) (pitchYaw : Vec2 K) : CameraOutput K :=
  let windowSize : Vec2 K := ⟨(wd : K), (ht : K)⟩
  let transform : Mat4 K := Mat4.diag 1
  let transform := rotate L transform (radians L pitchYaw.x) ⟨0, 1, 0⟩
  let transform := rotate L transform (radians L pitchYaw.y) ⟨1, 0, 0⟩
  let speed : K := 5
  let zero : Vec3 K := ⟨0, 0, 0⟩
  let pos := c.mPosition
  let pos := pos.add (if buttonMask &&& BUTTON_UP ≠ 0
    then (Vec3.lsmul (speed * deltaTime) transform.c2.xyz).neg else zero)
  let pos := pos.add (if buttonMask &&& BUTTON_DOWN ≠ 0
    then Vec3.lsmul (speed * deltaTime) transform.c2.xyz else zero)
  let pos := pos.add (if buttonMask &&& BUTTON_LEFT ≠ 0
    then (Vec3.lsmul (speed * deltaTime) transform.c0.xyz).neg else zero)
  let pos := pos.add (if buttonMask &&& BUTTON_RIGHT ≠ 0
    then Vec3.lsmul (speed * deltaTime) transform.c0.xyz else zero)
  let transform : Mat4 K := { transform with c3 := Vec4.ofVec3 pos 1 }
  { camera := { mPosition := pos, mPitchYaw := pitchYaw }
    mCameraMatrix := transform
    mViewMatrix := inverse transform
    mProjectionMatrix :=
      perspective L (radians L 45) (windowSize.x / windowSize.y) (1 / 10) 100 }

/-- The yaw `mPitchYaw.x` after `mPitchYaw += rotationDelta` in `Camera::Update`, before
`glm::mod` wraps it. -/
def Camera.accumulatedYaw (wd ht : ℤ) (prevMousePos curMousePos : Vec2 K) (c : Camera K) : K :=
  (c.mPitchYaw.add (((curMousePos.sub prevMousePos).div ⟨(wd : K), (ht : K)⟩).neg.mul
    ⟨90 * ((wd : K) / (ht : K)), 90⟩)).x

/-- The pitch `mPitchYaw.y` after `mPitchYaw += rotationDelta` in `Camera::Update`, before
`glm::clamp` limits it. -/
def Camera.accumulatedPitch (wd ht : ℤ) (prevMousePos curMousePos : Vec2 K) (c : Camera K) : K :=
  (c.mPitchYaw.add (((curMousePos.sub prevMousePos).div ⟨(wd : K), (ht : K)⟩).neg.mul
    ⟨90 * ((wd : K) / (ht : K)), 90⟩)).y

/-- Calls of `ProcessInput`, one for each input sample of the list, in order. -/
def processInputs : List (InputSample K) → Machine K → Machine K
  | [], m => m
  | s :: ss, m => processInputs ss (ProcessInput s m)

/-- The number of calls of `ProcessInput` in the run `processInputs` that change
`mPaused`. -/
def pauseToggles : List (InputSample K) → Machine K → ℕ
  | [], _ => 0
  | s :: ss, m =>
    (if (ProcessInput s m).gs.mPaused ≠ m.gs.mPaused then 1 else 0)
      + pauseToggles ss (ProcessInput s m)

/-- The number of pressed-to-released transitions in a sequence of samples of a key, where
`prev` is the sample before the first of the sequence. -/
def releases : Bool → List Bool → ℕ
  | _, [] => 0
  | prev, k :: ks => (if prev && !k then 1 else 0) + releases k ks

/-! ## Vocabulary for the peer scan and the update pass -/

/-- The local variables `collision` and `prop` of `Prop::Update` on the prop `self` when
the line `if (collision)` is reached: the locals of the peer scan when it runs, and the
result of the wall test with `prop = nullptr` when it does not. -/
def PropUpdate.scan (L : Libm K) (deltaTime : K) (self : ℕ) (me : PropObject K)
    (gs : GameState K) : ScanLocals :=
  let speed : K := 5 / 2
  let dist := deltaTime * speed
  let newPos := me.mPosXZ.add (me.mVelocityXZ.smul dist)
  let overrideDist := glmMax (me.mOverrideDist - dist) 0
  let gs1 := gs.modifyProp self (fun p => { p with mOverrideDist := overrideDist })
  let wall := hitsWall newPos
  if !wall ∧ overrideDist = 0 then
    scanPeers L gs.mFrame self newPos gs1.mObjects 0 wall none
  else ⟨wall, none, false⟩

/-- The collision partner of a call of `Prop::Update` on the object `self`: the index of the
object `prop` points to when `prop->mVelocityXZ = -prop->mVelocityXZ` is executed, and
`none` when the call does not reach that line. -/
def PropUpdate.partner (L : Libm K) (deltaTime : K) (self : ℕ) (gs : GameState K) : Option ℕ :=
  match propAt gs.mObjects self with
  | none => none
  | some me =>
    if gs.mPaused then none
    else if me.mUpdateFrame ≠ gs.mFrame then
      let scan := PropUpdate.scan L deltaTime self me gs
      if scan.collision then scan.prop else none
    else none

/-- The indices of the objects for which the loop of the peer scan, run on the objects from
index `j` on, evaluates the distance test `length( newPos - prop->mPosXZ ) < 0.5f`, in the
order of the evaluations. -/
def scanTested (L : Libm K) (frame self : ℕ) (newPos : Vec2 K) : List (Object K) → ℕ → List ℕ
  | [], _ => []
  | obj :: rest, j =>
    match obj.asProp with
    | some p =>
      if j ≠ self ∧ p.mUpdateFrame ≠ frame then
        if length2 L (newPos.sub p.mPosXZ) < 1 / 2 then [j]
        else j :: scanTested L frame self newPos rest (j + 1)
      else scanTested L frame self newPos rest (j + 1)
    | none => scanTested L frame self newPos rest (j + 1)

/-- The indices of the props against which a call of `Prop::Update` on the object `self`
evaluates the distance test, in the order of the evaluations. -/
def PropUpdate.tested (L : Libm K) (deltaTime : K) (self : ℕ) (gs : GameState K) : List ℕ :=
  match propAt gs.mObjects self with
  | none => []
  | some me =>
    if gs.mPaused then []
    else if me.mUpdateFrame ≠ gs.mFrame then
      let speed : K := 5 / 2
      let dist := deltaTime * speed
      let newPos := me.mPosXZ.add (me.mVelocityXZ.smul dist)
      let overrideDist := glmMax (me.mOverrideDist - dist) 0
      let gs1 := gs.modifyProp self (fun p => { p with mOverrideDist := overrideDist })
      let wall := hitsWall newPos
      if !wall ∧ overrideDist = 0 then scanTested L gs.mFrame self newPos gs1.mObjects 0
      else []
    else []

/-- The state of the loop `for (const auto& obj : gGameState->mObjects)` of `Update` when
`obj->Update( deltaTime )` is about to be called on the object with index `n`: the objects
with the indices `0 .. n - 1` have been updated, in this order. -/
def updatePrefix (L : Libm K) (rand : ℕ → ℕ) (wd ht : ℤ) (deltaTime : K) (n : ℕ)
    (w : GameState K × ℕ) : GameState K × ℕ :=
  (List.range n).foldl (fun st i => ObjectUpdate L rand wd ht deltaTime i st) w

/-- The state on which the object loop of `Update` starts in the iteration of the main loop
that begins in state `m`: the game state and the count of `rand()` calls after
`glfwPollEvents` and `ProcessInput`. -/
def passStart (env : FrameEnv K) (m : Machine K) : GameState K × ℕ :=
  let m1 : Machine K := { m with windowShouldClose := m.windowShouldClose || env.closeRequested }
  let m2 := ProcessInput env.input m1
  (m2.gs, m2.randCalls)

/-- The game state at the moment when, in the iteration of the main loop that begins in
state `m`, `obj->Update( deltaTime )` is about to be called on the object with index `i`. -/
def beforeCall (L : Libm K) (rand : ℕ → ℕ) (env : FrameEnv K) (m : Machine K) (i : ℕ) :
    GameState K :=
  (updatePrefix L rand env.wd env.ht env.deltaTime i (passStart env m)).1

/-- The collision partner that the call of `Prop::Update` on the object with index `i`
selects in the iteration of the main loop that begins in state `m` (`none` when it selects
none). -/
def iterationPartner (L : Libm K) (rand : ℕ → ℕ) (env : FrameEnv K) (m : Machine K) (i : ℕ) :
    Option ℕ :=
  PropUpdate.partner L env.deltaTime i (beforeCall L rand env m i)

/-- The distance a prop travels in the given iterations of the main loop: the sum of
`2.5 * deltaTime`. -/
def travelled (envs : List (FrameEnv K)) : K :=
  (envs.map (fun e => 5 / 2 * e.deltaTime)).sum

end Scene

end Lesson4

/-! ## Lesson3_GeometryStage: the prop that bounces off the walls only -/

namespace Lesson3

section Scene

variable {K : Type} [LinearOrderedField K] [FloorRing K]

/-- The fields of `struct Prop` of this lesson (without the mesh handle). -/
structure PropObject (K : Type) where
  mTransform : Mat4 K
  mColor : Vec3 K
  mPosXZ : Vec2 K
  mVelocityXZ : Vec2 K
deriving DecidableEq, Repr

/-- The local variable `rot` of `Prop::Update` of this lesson for the velocity `v`:
`glm::lookAt` from the origin towards `(v.x, 0, v.y)` with up `(0, 1, 0)`, inverted. -/
def PropUpdate.rot (L : Libm K) (v : Vec2 K) : Mat4 K :=
  let rot := lookAt L ⟨0, 0, 0⟩ ⟨v.x, 0, v.y⟩ ⟨0, 1, 0⟩
  inverse rot

/-- The method `Prop::Update( deltaTime )` of this lesson. `paused` is
`gGameState->mPaused`; `r0` and `r1` are the results of the next two calls of `rand()`
(made only when a wall is hit). -/
def PropUpdate (L : Libm K) (paused : Bool) (r0 r1 : ℕ) (deltaTime : K) (p : PropObject K) :
    PropObject K :=
  if paused then p
  else
    let speed : K := 5 / 2
    let pos := p.mPosXZ.add ((p.mVelocityXZ.smul deltaTime).smul speed)
    let moved : PropObject K :=
      if pos.x < -10 ∨ pos.x > 10 ∨ pos.y < -10 ∨ pos.y > 10 then
        let velX := -1 + (((r0 % 101 : ℕ) : K) / 100 * 2)
        let velY := -1 + (((r1 % 101 : ℕ) : K) / 100 * 2)
        { p with mVelocityXZ := normalize2 L ⟨velX, velY⟩, mPosXZ := glmClamp2 pos (-10) 10 }
      else { p with mPosXZ := pos }
    let rot := PropUpdate.rot L moved.mVelocityXZ
    let t := Mat4.diag 1
    let t := translate t ⟨moved.mPosXZ.x, 1 / 2, moved.mPosXZ.y⟩
    let t := t.mul rot
    { moved with mTransform := scale t ⟨1 / 100, 1 / 100, 1 / 100⟩ }

/-! ### Vocabulary of the statements -/

/-- The position of `Prop::Update` after `mPosXZ += mVelocityXZ * deltaTime * speed`. -/
def PropObject.advanced (p : PropObject K) (deltaTime : K) : Vec2 K :=
  p.mPosXZ.add ((p.mVelocityXZ.smul deltaTime).smul (5 / 2))

/-- Both components of a ground position lie in `[-10, 10]`. -/
def InFloor (v : Vec2 K) : Prop := -10 ≤ v.x ∧ v.x ≤ 10 ∧ -10 ≤ v.y ∧ v.y ≤ 10

/-- The direction drawn by two calls of `rand()` with results `r0` and `r1`,
before it is normalized. -/
def drawnDirection (K : Type) [LinearOrderedField K] (r0 r1 : ℕ) : Vec2 K :=
  ⟨-1 + (((r0 % 101 : ℕ) : K) / 100 * 2), -1 + (((r1 % 101 : ℕ) : K) / 100 * 2)⟩

/-- The last statements of `ProcessInput` of this lesson, which have the same text as in
Lesson4_RasterizationStage: the new values of `mPaused` and `mPauseKey` for the sampled
`pauseKey`. -/
def ProcessInput.pauseFlags (pauseKey mPauseKey mPaused : Bool) : Bool × Bool :=
  let paused := if !pauseKey && mPauseKey then !mPaused else mPaused
  (paused, pauseKey)

end Scene

end Lesson3

/-! ## Floats with infinities and NaN

The constructors and the wall bounces hand a freshly drawn direction to `glm::normalize`,
which at the zero vector computes `0 * (1 / sqrt( 0 ))`: in IEEE 754 arithmetic this is
`0 * inf = NaN`, while in a field `1 / 0 = 0` makes it the zero vector. The definitions of
this part repeat the code that constructs and moves props and lights over floats with the
special values, so that the states holding a NaN are part of the model. On states holding
numbers they agree with the definitions over `K` (the lemmas `ieee_PropUpdate_ofScene`,
`ieee_LightUpdate_ofLight`, `ieee_new_ofProp`, ...). -/

namespace Ieee

/-- A `float` with the special values of IEEE 754: a number, an infinity with its sign, or
a NaN. Numbers are read exactly, as everywhere in this development, and the two zeros are
not told apart: a division by zero is read as a division by `+0` (the one division by zero
of the code modelled here is `1 / sqrt( 0 )`, where `sqrt( 0 ) = +0`). -/
inductive Fl (K : Type) where
  | num (x : K)
  | inf (negative : Bool)
  | nan
deriving DecidableEq, Repr

section Values

variable {K : Type} [LinearOrderedField K] [FloorRing K]

namespace Fl

/-- Unary minus. -/
def neg : Fl K → Fl K
  | num a => num (-a)
  | inf s => inf (!s)
  | nan => nan

/-- The sum `a + b`: `inf + (-inf)` is a NaN. -/
def add : Fl K → Fl K → Fl K
  | num a, num b => num (a + b)
  | num _, inf s => inf s
  | inf s, num _ => inf s
  | inf s, inf t => if s = t then inf s else nan
  | _, _ => nan

/-- The difference `a - b`. -/
def sub (a b : Fl K) : Fl K := a.add b.neg

/-- The product `a * b`: `0 * inf` is a NaN. -/
def mul : Fl K → Fl K → Fl K
  | num a, num b => num (a * b)
  | num a, inf s => if a = 0 then nan else inf (s ^^ decide (a < 0))
  | inf s, num b => if b = 0 then nan else inf (s ^^ decide (b < 0))
  | inf s, inf t => inf (s ^^ t)
  | _, _ => nan

/-- The quotient `a / b`: `0 / 0` and `inf / inf` are NaNs, `a / 0` is an infinity. -/
def div : Fl K → Fl K → Fl K
  | num a, num b =>
    if b = 0 then (if a = 0 then nan else inf (decide (a < 0))) else num (a / b)
  | num _, inf _ => num 0
  | inf s, num b => inf (s ^^ decide (b < 0))
  | _, _ => nan

/-- The comparison `a < b`, false when an operand is a NaN. -/
def lt : Fl K → Fl K → Bool
  | num a, num b => decide (a < b)
  | num _, inf s => !s
  | inf s, num _ => s
  | inf s, inf t => s && !t
  | _, _ => false

/-- The comparison `a == b`, false when an operand is a NaN. -/
def eq : Fl K → Fl K → Bool
  | num a, num b => decide (a = b)
  | inf s, inf t => decide (s = t)
  | _, _ => false

/-- The function `std::sqrt`: a NaN below zero. -/
def sqrt (L : Libm K) : Fl K → Fl K
  | num a => if a < 0 then nan else num (L.sqrt a)
  | inf s => if s then nan else inf false
  | nan => nan

/-- The float lies in the interval `[lo, hi]`: it is a number, and that number does. -/
def within (lo hi : K) : Fl K → Prop
  | num a => lo ≤ a ∧ a ≤ hi
  | _ => False

end Fl

/-- The vector whose components are the numbers of `v`. -/
def numVec (v : Vec2 K) : Vec2 (Fl K) := ⟨.num v.x, .num v.y⟩

/-- Componentwise `a + b` on `vec2`. -/
def add2 (a b : Vec2 (Fl K)) : Vec2 (Fl K) := ⟨a.x.add b.x, a.y.add b.y⟩

/-- Componentwise `a - b` on `vec2`. -/
def sub2 (a b : Vec2 (Fl K)) : Vec2 (Fl K) := ⟨a.x.sub b.x, a.y.sub b.y⟩

/-- Vector times scalar, `v * s`. -/
def smul2 (v : Vec2 (Fl K)) (s : Fl K) : Vec2 (Fl K) := ⟨v.x.mul s, v.y.mul s⟩

/-- Unary minus, `-v`. -/
def neg2 (v : Vec2 (Fl K)) : Vec2 (Fl K) := ⟨v.x.neg, v.y.neg⟩

/-- The function `glm::dot` on `vec2`. -/
def dot2 (a b : Vec2 (Fl K)) : Fl K := (a.x.mul b.x).add (a.y.mul b.y)

/-- The function `glm::max`: `(a < b) ? b : a`. -/
def glmMax (a b : Fl K) : Fl K := if a.lt b then b else a

/-- The function `glm::min`: `(b < a) ? b : a`. -/
def glmMin (a b : Fl K) : Fl K := if b.lt a then b else a

/-- The function `glm::clamp( x, lo, hi )`: `min( max( x, lo ), hi )`. -/
def glmClamp (x lo hi : Fl K) : Fl K := glmMin (glmMax x lo) hi

/-- The function `glm::clamp` on a `vec2` with scalar limits. -/
def glmClamp2 (v : Vec2 (Fl K)) (lo hi : Fl K) : Vec2 (Fl K) :=
  ⟨glmClamp v.x lo hi, glmClamp v.y lo hi⟩

/-- The function `glm::inversesqrt`: `1 / sqrt( x )`. -/
def inversesqrt (L : Libm K) (x : Fl K) : Fl K := (Fl.num 1).div (Fl.sqrt L x)

/-- The function `glm::length` on a `vec2`: `sqrt( dot( v, v ) )`. -/
def length2 (L : Libm K) (v : Vec2 (Fl K)) : Fl K := Fl.sqrt L (dot2 v v)

/-- The function `glm::normalize` on a `vec2`: `v * inversesqrt( dot( v, v ) )`. -/
def normalize2 (L : Libm K) (v : Vec2 (Fl K)) : Vec2 (Fl K) :=
  smul2 v (inversesqrt L (dot2 v v))

/-- Both components of the position lie in `[-h, h]`. -/
def InSquare (h : K) (v : Vec2 (Fl K)) : Prop := v.x.within (-h) h ∧ v.y.within (-h) h

/-- The direction `-1.0f + ((float)(rand() % 101) / 100.0f * 2.0f)` drawn for each
component of a velocity, before it is normalized; `r0` and `r1` are the two results of
`rand()`. -/
def drawnDirection (r0 r1 : ℕ) : Vec2 (Fl K) :=
  ⟨(Fl.num (-1)).add (((Fl.num ((r0 % 101 : ℕ) : K)).div (.num 100)).mul (.num 2)),
   (Fl.num (-1)).add (((Fl.num ((r1 % 101 : ℕ) : K)).div (.num 100)).mul (.num 2))⟩

/-- The position `-h + ((float)(rand() % 101) / 100.0f * size)` drawn by the constructors. -/
def drawnPosition (h size : K) (r0 r1 : ℕ) : Vec2 (Fl K) :=
  ⟨(Fl.num (-h)).add (((Fl.num ((r0 % 101 : ℕ) : K)).div (.num 100)).mul (.num size)),
   (Fl.num (-h)).add (((Fl.num ((r1 % 101 : ℕ) : K)).div (.num 100)).mul (.num size))⟩

/-! ### Lesson4_RasterizationStage: `Prop` -/

/-- The fields of `struct Prop` that `Prop::Update` reads before it builds the transform.
The last statements of `Prop::Update` (from `glm::mat4 rot` on) read `mVelocityXZ`,
`mPosXZ` and `mScale` and write only `mTransform`, which the update code never reads;
these statements and the two fields are left out here. -/
structure PropObject (K : Type) where
  mPosXZ : Vec2 (Fl K)
  mVelocityXZ : Vec2 (Fl K)
  mOverrideDist : Fl K
  mUpdateFrame : ℕ
deriving DecidableEq, Repr

/-- The dynamic type of an element of `mObjects`: a `Prop`, or an object of another
class. -/
inductive Object (K : Type) where
  | prop (p : PropObject K)
  | other
deriving DecidableEq, Repr

/-- The fields of `struct GameState` that `Prop::Update` reads. -/
structure Scene (K : Type) where
  mObjects : List (Object K)
  mFrame : ℕ
  mPaused : Bool
deriving DecidableEq, Repr

/-- The result of `dynamic_cast<Prop*>( obj.get() )`: the prop, or `none` for `nullptr`. -/
def Object.asProp : Object K → Option (PropObject K)
  | .prop p => some p
  | .other => none

/-- Apply a write to an object if it is a `Prop`. -/
def Object.mapProp (f : PropObject K → PropObject K) : Object K → Object K
  | .prop p => .prop (f p)
  | .other => .other

/-- The prop stored at index `i` of `mObjects`, if that object is a `Prop`. -/
def propAt (objs : List (Object K)) (i : ℕ) : Option (PropObject K) :=
  objs[i]?.bind Object.asProp

/-- A write through a `Prop*` pointing at the object with index `i`. -/
def Scene.modifyProp (gs : Scene K) (i : ℕ) (f : PropObject K → PropObject K) : Scene K :=
  { gs with mObjects := Lesson4.modifyAt (Object.mapProp f) gs.mObjects i }

/-- The constructor `Prop::Prop( model, shader, scale )`; `r0 .. r3` are the values
returned by its four calls of `rand()`, in order. -/
def PropObject.new (L : Libm K) (r0 r1 r2 r3 : ℕ) : PropObject K :=
  { mPosXZ := drawnPosition (Lesson4.FLOOR_HALF_SIZE K) (Lesson4.FLOOR_SIZE K) r0 r1
    mVelocityXZ := normalize2 L (drawnDirection r2 r3)
    mOverrideDist := .num 0
    mUpdateFrame := 0 }

/-- The loop `for (const auto& obj : gGameState->mObjects)` of `Prop::Update`, run on the
objects from index `j` on; `collision` and `prop` are the current values of the local
variables. -/
def scanPeers (L : Libm K) (frame self : ℕ) (newPos : Vec2 (Fl K)) :
    List (Object K) → ℕ → Bool → Option ℕ → Lesson4.ScanLocals
  | [], _, collision, prop => ⟨collision, prop, false⟩
  | obj :: rest, j, collision, _ =>
    match obj.asProp with
    | some p =>
      if j ≠ self ∧ p.mUpdateFrame ≠ frame then
        if (length2 L (sub2 newPos p.mPosXZ)).lt (.num (1 / 2)) then
          ⟨true, some j, true⟩
        else
          scanPeers L frame self newPos rest (j + 1) false (some j)
      else
        scanPeers L frame self newPos rest (j + 1) collision (some j)
    | none => scanPeers L frame self newPos rest (j + 1) collision none

/-- The wall test of `Prop::Update`, `Light::Update` and `Prop::Update` of
Lesson3_GeometryStage for the half size `h`:
`pos.x < -h || pos.x > h || pos.y < -h || pos.y > h`. Each comparison with a NaN is false. -/
def hitsWall (h : K) (newPos : Vec2 (Fl K)) : Bool :=
  newPos.x.lt (.num (-h)) || (Fl.num h).lt newPos.x ||
  newPos.y.lt (.num (-h)) || (Fl.num h).lt newPos.y

/-- The body of `if (mUpdateFrame != gGameState->mFrame)` in `Prop::Update`, for the
prop with index `self`; `me` is the value of `*this` on entry. -/
def PropUpdate.move (L : Libm K) (deltaTime : Fl K) (self : ℕ) (me : PropObject K)
    (gs : Scene K) : Scene K :=
  let speed : Fl K := .num (5 / 2)
  let dist := deltaTime.mul speed
  let newPos := add2 me.mPosXZ (smul2 me.mVelocityXZ dist)
  let overrideDist := glmMax (me.mOverrideDist.sub dist) (.num 0)
  let gs1 := gs.modifyProp self (fun p => { p with mOverrideDist := overrideDist })
  let wall := hitsWall (Lesson4.FLOOR_HALF_SIZE K) newPos
  let scan : Lesson4.ScanLocals :=
    if !wall ∧ overrideDist.eq (.num 0) then
      scanPeers L gs.mFrame self newPos gs1.mObjects 0 wall none
    else ⟨wall, none, false⟩
  let gs2 :=
    if scan.hit then gs1.modifyProp self (fun p => { p with mOverrideDist := .num (1 / 2) })
    else gs1
  let gs3 :=
    if scan.collision then
      let gs21 := gs2.modifyProp self (fun p => { p with mVelocityXZ := neg2 p.mVelocityXZ })
      match scan.prop with
      | some j =>
        let gs22 := gs21.modifyProp j (fun q => { q with mVelocityXZ := neg2 q.mVelocityXZ })
        gs22.modifyProp self
          (fun p => { p with mOverrideDist := .num (1 / 2), mUpdateFrame := gs.mFrame })
      | none => gs21
    else
      gs2.modifyProp self (fun p => { p with mPosXZ := newPos })
  gs3.modifyProp self (fun p => { p with mUpdateFrame := gs.mFrame })

/-- The method `Prop::Update( deltaTime )` called on the object with index `self`, up to
the statements that build `mTransform`. -/
def PropUpdate (L : Libm K) (deltaTime : Fl K) (self : ℕ) (gs : Scene K) : Scene K :=
  match propAt gs.mObjects self with
  | none => gs
  | some me =>
    if gs.mPaused then gs
    else if me.mUpdateFrame ≠ gs.mFrame then PropUpdate.move L deltaTime self me gs
    else gs

/-- A sequence of calls of `Prop::Update`; between two calls the frame counter and the
pause flag are set to the values of the call. -/
def runCalls (L : Libm K) : List (Lesson4.UpdateCall K) → Scene K → Scene K
  | [], gs => gs
  | c :: cs, gs =>
    runCalls L cs
      (PropUpdate L (.num c.deltaTime) c.self { gs with mFrame := c.frame, mPaused := c.paused })

/-- The prop over `K` as a prop over floats: every field is a number. -/
def ofProp (p : Lesson4.PropObject K) : PropObject K :=
  { mPosXZ := numVec p.mPosXZ
    mVelocityXZ := numVec p.mVelocityXZ
    mOverrideDist := .num p.mOverrideDist
    mUpdateFrame := p.mUpdateFrame }

/-- The fields of `struct Light` that `Light::Update` reads or writes. -/
structure Light (K : Type) where
  mPosXZ : Vec2 (Fl K)
  mVelocityXZ : Vec2 (Fl K)
deriving DecidableEq, Repr

/-- The constructor `Light::Light( color )`; `r0 .. r3` are the results of its four
calls of `rand()`. -/
def Light.new (L : Libm K) (r0 r1 r2 r3 : ℕ) : Light K :=
  { mPosXZ := drawnPosition (Lesson4.FLOOR_HALF_SIZE K) (Lesson4.FLOOR_SIZE K) r0 r1
    mVelocityXZ := normalize2 L (drawnDirection r2 r3) }

/-- The method `Light::Update( deltaTime )`. `rand` is the stream of results of `rand()`
and `n` the number of calls made so far; the new count is returned with the light. -/
def Light.Update (L : Libm K) (rand : ℕ → ℕ) (paused : Bool) (deltaTime : Fl K)
    (l : Light K) (n : ℕ) : Light K × ℕ :=
  if paused then (l, n)
  else
    let speed : Fl K := .num 5
    let pos := add2 l.mPosXZ (smul2 (smul2 l.mVelocityXZ deltaTime) speed)
    if hitsWall (Lesson4.FLOOR_HALF_SIZE K) pos then
      ({ mVelocityXZ := normalize2 L (drawnDirection (rand n) (rand (n + 1)))
         mPosXZ := glmClamp2 pos (.num (-Lesson4.FLOOR_HALF_SIZE K))
           (.num (Lesson4.FLOOR_HALF_SIZE K)) }, n + 2)
    else ({ l with mPosXZ := pos }, n)

/-- The light over `K` as a light over floats. -/
def ofLight (l : Lesson4.Light K) : Light K :=
  { mPosXZ := numVec l.mPosXZ, mVelocityXZ := numVec l.mVelocityXZ }

/-- The position of `Light::Update` after `mPosXZ += mVelocityXZ * deltaTime * speed`. -/
def Light.advanced (l : Light K) (deltaTime : Fl K) : Vec2 (Fl K) :=
  add2 l.mPosXZ (smul2 (smul2 l.mVelocityXZ deltaTime) (.num 5))

/-! ### Lesson3_GeometryStage: `Prop` -/

namespace Lesson3

/-- The fields of `struct Prop` of Lesson3_GeometryStage that `Prop::Update` reads before
it builds the transform. -/
structure PropObject (K : Type) where
  mPosXZ : Vec2 (Fl K)
  mVelocityXZ : Vec2 (Fl K)
deriving DecidableEq, Repr

/-- The method `Prop::Update( deltaTime )` of Lesson3_GeometryStage, up to the statements
that build `mTransform`. `r0` and `r1` are the results of the next two calls of `rand()`
(made only when a wall is hit). -/
def PropUpdate (L : Libm K) (paused : Bool) (r0 r1 : ℕ) (deltaTime : Fl K)
    (p : PropObject K) : PropObject K :=
  if paused then p
  else
    let speed : Fl K := .num (5 / 2)
    let pos := add2 p.mPosXZ (smul2 (smul2 p.mVelocityXZ deltaTime) speed)
    if hitsWall 10 pos then
      { mVelocityXZ := normalize2 L (drawnDirection r0 r1)
        mPosXZ := glmClamp2 pos (.num (-10)) (.num 10) }
    else { p with mPosXZ := pos }

/-- The prop of Lesson3_GeometryStage over `K` as a prop over floats. -/
def ofProp (p : RenderExamples.Lesson3.PropObject K) : PropObject K :=
  { mPosXZ := numVec p.mPosXZ, mVelocityXZ := numVec p.mVelocityXZ }

/-- The position of `Prop::Update` after `mPosXZ += mVelocityXZ * deltaTime * speed`. -/
def PropObject.advanced (p : PropObject K) (deltaTime : Fl K) : Vec2 (Fl K) :=
  add2 p.mPosXZ (smul2 (smul2 p.mVelocityXZ deltaTime) (.num (5 / 2)))

end Lesson3

end Values

end Ieee

/-! ## Concrete scenes over the rationals -/

section Scenes

open Lesson4

/-- The math library over `ℚ` used to evaluate concrete scenes: `Rat.sqrt` is the exact
square root on squares of rationals; the trigonometric functions are replaced by their
first Taylor terms (no scene evaluated below contains a camera, so they are never called). -/
def ratLibm : Libm ℚ :=
  { sqrt := Rat.sqrt
    cos := fun a => 1 - a * a / 2
    sin := fun a => a
    tan := fun a => a
    radPerDeg := 355 / (113 * 180) }

/-- A prop with identity transform and scale `1`. -/
def mkProp (pos vel : Vec2 ℚ) (overrideDist : ℚ) (updateFrame : ℕ) : PropObject ℚ :=
  ⟨Mat4.diag 1, pos, vel, 1, overrideDist, updateFrame⟩

/-- A game state in frame `1`, not paused, holding the given objects. -/
def mkScene (objs : List (Object ℚ)) : GameState ℚ :=
  { mViewMatrix := Mat4.diag 1
    mCameraMatrix := Mat4.diag 1
    mProjectionMatrix := Mat4.diag 1
    mObjects := objs
    mLights := []
    mButtonMask := 0
    mPrevMousePos := ⟨0, 0⟩
    mCurMousePos := ⟨0, 0⟩
    mFrame := 1
    mPauseKey := false
    mPaused := false }

/-- Prop `A` of the scenario of the specification: at `(0, 0)` heading `(1, 0)`, not on
cooldown, last updated in frame `0`. -/
def propA : PropObject ℚ := mkProp ⟨0, 0⟩ ⟨1, 0⟩ 0 0

/-- Prop `B` of the scenario of the specification: at `(0.3, 0)` heading `(-1, 0)`, not on
cooldown, last updated in frame `0`. -/
def propB : PropObject ℚ := mkProp ⟨3 / 10, 0⟩ ⟨-1, 0⟩ 0 0

/-- The scenario of the specification in frame `1`: the two props `A` and `B` on a
collision course. -/
def sceneAB : GameState ℚ := mkScene [.prop propA, .prop propB]

/-- Prop `A` of the scenario with a cooldown of `0.0625 = 1 / 16` left. -/
def propACool : PropObject ℚ := mkProp ⟨0, 0⟩ ⟨1, 0⟩ (1 / 16) 0

/-- A prop at `(0.25, 0)` heading `(-1, 0)`, not on cooldown, last updated in frame `0`. -/
def propBNear : PropObject ℚ := mkProp ⟨1 / 4, 0⟩ ⟨-1, 0⟩ 0 0

/-- Prop `A` on a cooldown of `1 / 16` and the prop `propBNear` on a collision course, in
frame `1`. Every number of this scene, and every intermediate value of `Prop::Update` on `A`
with `deltaTime = 1 / 32`, is a binary fraction that a `float` holds exactly. -/
def sceneCool : GameState ℚ := mkScene [.prop propACool, .prop propBNear]

/-- Prop `A` of the scenario with a cooldown of `0.5` left. -/
def propALong : PropObject ℚ := mkProp ⟨0, 0⟩ ⟨1, 0⟩ (1 / 2) 0

/-- The scenario of the specification with `A` on a cooldown of `0.5`. -/
def sceneLong : GameState ℚ := mkScene [.prop propALong, .prop propB]

/-- The scenario of the specification for a wall hit: a prop of Lesson3_GeometryStage at
`(9.96, 0)` heading `(1, 0)`. -/
def propWall3 : Lesson3.PropObject ℚ :=
  { mTransform := Mat4.diag 1, mColor := ⟨1, 1, 1⟩, mPosXZ := ⟨249 / 25, 0⟩, mVelocityXZ := ⟨1, 0⟩ }

/-- A prop of Lesson4_RasterizationStage at `(24.9, 0)` heading `(1, 0)`. -/
def propNearWall : PropObject ℚ := mkProp ⟨249 / 10, 0⟩ ⟨1, 0⟩ 0 0

/-- A scene of Lesson4_RasterizationStage with one prop next to the wall `x = 25`. -/
def sceneWall : GameState ℚ := mkScene [.prop propNearWall]

/-- The scene `sceneWall` while the game is paused. -/
def sceneWallPaused : GameState ℚ := { sceneWall with mPaused := true }

/-- A third prop `C` at `(0.1, 0.3)`, also within `0.5` of the candidate of `A`. -/
def propC : PropObject ℚ := mkProp ⟨1 / 10, 3 / 10⟩ ⟨0, 1⟩ 0 0

/-- The scenario of the specification with the third prop `C` behind `B` in the container. -/
def sceneABC : GameState ℚ := mkScene [.prop propA, .prop propB, .prop propC]

/-- A prop at `(5, 7)` heading `(3/5, 4/5)` with scale `1/8`. -/
def propFacing : PropObject ℚ :=
  { mTransform := Mat4.diag 1, mPosXZ := ⟨5, 7⟩, mVelocityXZ := ⟨3 / 5, 4 / 5⟩, mScale := 1 / 8,
    mOverrideDist := 0, mUpdateFrame := 0 }

/-- A scene holding the prop `propFacing` only. -/
def sceneFacing : GameState ℚ := mkScene [.prop propFacing]

/-- A light at `(24.9, 0)` heading `(1, 0)`. -/
def lightNearWall : Light ℚ :=
  { mPosXZ := ⟨249 / 10, 0⟩, mVelocityXZ := ⟨1, 0⟩, mColor := ⟨10, 10, 10⟩, mRadius := 10 }

/-- A stream of `rand()` results starting `100, 50` and continuing with `50`. -/
def randHundredFifty : ℕ → ℕ := fun i => if i = 0 then 100 else 50

/-- An input sample with no key pressed and the cursor at the origin. -/
def noInput : InputSample ℚ :=
  { keyEscape := false, keyUp := false, keyW := false, keyLeft := false, keyA := false,
    keyDown := false, keyS := false, keyRight := false, keyD := false, keyP := false,
    xpos := 0, ypos := 0 }

/-- A frame of `0.04` seconds in an `800 x 600` window without input. -/
def quietFrame : FrameEnv ℚ :=
  { deltaTime := 1 / 25, wd := 800, ht := 600, input := noInput, closeRequested := false }

/-- The program state at the start of the main loop with the scenario of the
specification as scene. -/
def machineAB : Machine ℚ := { gs := sceneAB, randCalls := 0, windowShouldClose := false }

/-- A stream of `rand()` results that are all `50`. -/
def randFifty : ℕ → ℕ := fun _ => 50

/-- A light at `(24.5, 0)` heading `(1, 0)`. -/
def lightAtWall : Light ℚ :=
  { mPosXZ := ⟨49 / 2, 0⟩, mVelocityXZ := ⟨1, 0⟩, mColor := ⟨10, 10, 10⟩, mRadius := 10 }

/-- The light `lightAtWall` after a call of `Light::Update` with `deltaTime = 0.125` that
draws `50` twice at the wall. -/
def lightBounced : Ieee.Light ℚ :=
  (Ieee.Light.Update ratLibm randFifty false (.num (1 / 8)) (Ieee.ofLight lightAtWall) 0).1

/-- A prop of Lesson3_GeometryStage at `(9.5, 0)` heading `(1, 0)`. -/
def propAtWall3 : Lesson3.PropObject ℚ :=
  { mTransform := Mat4.diag 1, mColor := ⟨1, 1, 1⟩, mPosXZ := ⟨19 / 2, 0⟩, mVelocityXZ := ⟨1, 0⟩ }

/-- The prop `propAtWall3` after a call of `Prop::Update` with `deltaTime = 0.25` that draws
`50` twice at the wall. -/
def propBounced3 : Ieee.Lesson3.PropObject ℚ :=
  Ieee.Lesson3.PropUpdate ratLibm false 50 50 (.num (1 / 4)) (Ieee.Lesson3.ofProp propAtWall3)

end Scenes

/-! ## Lemmas on in-place writes and on the peer scan -/

set_option linter.unusedSectionVars false

namespace Lesson4

section Lemmas

variable {K : Type} [LinearOrderedField K] [FloorRing K]

theorem getElem?_modifyAt {α : Type} (f : α → α) (l : List α) (i j : ℕ) :
    (modifyAt f l i)[j]? = if i = j then l[j]?.map f else l[j]? := by
  induction l generalizing i j with
  | nil => cases i <;> simp [modifyAt]
  | cons a as ih =>
    cases i with
    | zero =>
      cases j with
      | zero => simp [modifyAt]
      | succ j => simp [modifyAt]
    | succ i =>
      cases j with
      | zero => simp [modifyAt]
      | succ j => simp [modifyAt, ih]

theorem modifyAt_modifyAt_same {α : Type} (f g : α → α) (l : List α) (i : ℕ) :
    modifyAt g (modifyAt f l i) i = modifyAt (fun a => g (f a)) l i := by
  induction l generalizing i with
  | nil => cases i <;> simp [modifyAt]
  | cons a as ih => cases i <;> simp [modifyAt, ih]

theorem modifyAt_comm {α : Type} (f g : α → α) (l : List α) (i j : ℕ) (h : i ≠ j) :
    modifyAt g (modifyAt f l i) j = modifyAt f (modifyAt g l j) i := by
  induction l generalizing i j with
  | nil => cases i <;> cases j <;> simp [modifyAt]
  | cons a as ih =>
    cases i with
    | zero =>
      cases j with
      | zero => exact absurd rfl h
      | succ j => simp [modifyAt]
    | succ i =>
      cases j with
      | zero => simp [modifyAt]
      | succ j => simp [modifyAt, ih i j (fun e => h (by rw [e]))]

theorem asProp_mapProp (f : PropObject K → PropObject K) (o : Object K) :
    (o.mapProp f).asProp = o.asProp.map f := by
  cases o <;> rfl

theorem mapProp_mapProp (f g : PropObject K → PropObject K) (o : Object K) :
    (o.mapProp f).mapProp g = o.mapProp (fun p => g (f p)) := by
  cases o <;> rfl

theorem propAt_modifyProp (gs : GameState K) (i j : ℕ) (f : PropObject K → PropObject K) :
    propAt (gs.modifyProp i f).mObjects j
      = if i = j then (propAt gs.mObjects j).map f else propAt gs.mObjects j := by
  unfold propAt GameState.modifyProp
  simp only [getElem?_modifyAt]
  split_ifs with h
  · cases hget : gs.mObjects[j]? with
    | none => simp
    | some o => simp [asProp_mapProp]
  · rfl

theorem modifyProp_modifyProp (gs : GameState K) (i : ℕ) (f g : PropObject K → PropObject K) :
    (gs.modifyProp i f).modifyProp i g = gs.modifyProp i (fun p => g (f p)) := by
  unfold GameState.modifyProp
  simp only [modifyAt_modifyAt_same, mapProp_mapProp]

theorem modifyProp_comm (gs : GameState K) (i j : ℕ) (h : i ≠ j)
    (f g : PropObject K → PropObject K) :
    (gs.modifyProp i f).modifyProp j g = (gs.modifyProp j g).modifyProp i f := by
  unfold GameState.modifyProp
  simp only [modifyAt_comm _ _ _ i j h]

theorem propAt_cons_succ (o : Object K) (rest : List (Object K)) (i : ℕ) :
    propAt (o :: rest) (i + 1) = propAt rest i := by
  simp [propAt]

theorem propAt_cons_zero (o : Object K) (rest : List (Object K)) :
    propAt (o :: rest) 0 = o.asProp := by
  simp [propAt]

/-- The peer scan started with `collision = false`: either it leaves through `break` at the
first object passing the tests, or nothing passes and it ends with `collision = false`. -/
theorem scanPeers_spec (L : Libm K) (frame self : ℕ) (newPos : Vec2 K)
    (rest : List (Object K)) (j : ℕ) (p : Option ℕ) :
    (∃ i B, scanPeers L frame self newPos rest j false p = ⟨true, some (j + i), true⟩ ∧
        propAt rest i = some B ∧ j + i ≠ self ∧ B.mUpdateFrame ≠ frame ∧
        length2 L (newPos.sub B.mPosXZ) < 1 / 2 ∧
        ∀ i', i' < i → ∀ B', propAt rest i' = some B' → j + i' ≠ self →
          B'.mUpdateFrame ≠ frame → ¬ length2 L (newPos.sub B'.mPosXZ) < 1 / 2) ∨
    ((scanPeers L frame self newPos rest j false p).collision = false ∧
      (scanPeers L frame self newPos rest j false p).hit = false ∧
      ∀ i B, propAt rest i = some B → j + i ≠ self → B.mUpdateFrame ≠ frame →
        ¬ length2 L (newPos.sub B.mPosXZ) < 1 / 2) := by
  induction rest generalizing j p with
  | nil =>
    right
    refine ⟨rfl, rfl, ?_⟩
    intro i B h
    simp [propAt] at h
  | cons o rest ih =>
    unfold scanPeers
    cases ho : o.asProp with
    | none =>
      simp only []
      rcases ih (j + 1) none with ⟨i, B, h1, h2, h3, h4, h5, h6⟩ | ⟨h1, h2, h3⟩
      · left
        refine ⟨i + 1, B, ?_, ?_, ?_, h4, h5, ?_⟩
        · rw [h1]; congr 2; omega
        · rw [propAt_cons_succ]; exact h2
        · intro e; apply h3; omega
        · intro i' hi' B' hB'
          cases i' with
          | zero => rw [propAt_cons_zero, ho] at hB'; cases hB'
          | succ i' =>
            rw [propAt_cons_succ] at hB'
            intro hs
            exact h6 i' (by omega) B' hB' (fun e => hs (by omega))
      · right
        refine ⟨h1, h2, ?_⟩
        intro i B hB
        cases i with
        | zero => rw [propAt_cons_zero, ho] at hB; cases hB
        | succ i =>
          rw [propAt_cons_succ] at hB
          intro hs
          exact h3 i B hB (fun e => hs (by omega))
    | some q =>
      simp only []
      by_cases hq : j ≠ self ∧ q.mUpdateFrame ≠ frame
      · by_cases hd : length2 L (newPos.sub q.mPosXZ) < 1 / 2
        · left
          refine ⟨0, q, ?_, ?_, hq.1, hq.2, hd, ?_⟩
          · rw [if_pos hq, if_pos hd, Nat.add_zero]
          · rw [propAt_cons_zero, ho]
          · intro i' hi'; omega
        · rw [if_pos hq, if_neg hd]
          rcases ih (j + 1) (some j) with ⟨i, B, h1, h2, h3, h4, h5, h6⟩ | ⟨h1, h2, h3⟩
          · left
            refine ⟨i + 1, B, ?_, ?_, ?_, h4, h5, ?_⟩
            · rw [h1]; congr 2; omega
            · rw [propAt_cons_succ]; exact h2
            · intro e; apply h3; omega
            · intro i' hi' B' hB'
              cases i' with
              | zero =>
                rw [propAt_cons_zero, ho] at hB'
                cases hB'
                intro _ _
                exact hd
              | succ i' =>
                rw [propAt_cons_succ] at hB'
                intro hs
                exact h6 i' (by omega) B' hB' (fun e => hs (by omega))
          · right
            refine ⟨h1, h2, ?_⟩
            intro i B hB
            cases i with
            | zero =>
              rw [propAt_cons_zero, ho] at hB
              cases hB
              intro _ _
              exact hd
            | succ i =>
              rw [propAt_cons_succ] at hB
              intro hs
              exact h3 i B hB (fun e => hs (by omega))
      · rw [if_neg hq]
        rcases ih (j + 1) (some j) with ⟨i, B, h1, h2, h3, h4, h5, h6⟩ | ⟨h1, h2, h3⟩
        · left
          refine ⟨i + 1, B, ?_, ?_, ?_, h4, h5, ?_⟩
          · rw [h1]; congr 2; omega
          · rw [propAt_cons_succ]; exact h2
          · intro e; apply h3; omega
          · intro i' hi' B' hB'
            cases i' with
            | zero =>
              rw [propAt_cons_zero, ho] at hB'
              cases hB'
              intro hs hf
              exact absurd ⟨hs, hf⟩ hq
            | succ i' =>
              rw [propAt_cons_succ] at hB'
              intro hs
              exact h6 i' (by omega) B' hB' (fun e => hs (by omega))
        · right
          refine ⟨h1, h2, ?_⟩
          intro i B hB
          cases i with
          | zero =>
            rw [propAt_cons_zero, ho] at hB
            cases hB
            intro hs hf
            exact absurd ⟨hs, hf⟩ hq
          | succ i =>
            rw [propAt_cons_succ] at hB
            intro hs
            exact h3 i B hB (fun e => hs (by omega))

theorem isPeer_modifyProp_self (L : Libm K) (gs : GameState K) (self : ℕ)
    (f : PropObject K → PropObject K) (frame : ℕ) (newPos : Vec2 K) (k : ℕ) :
    IsPeer L frame self newPos (gs.modifyProp self f).mObjects k ↔
      IsPeer L frame self newPos gs.mObjects k := by
  unfold IsPeer
  constructor
  · rintro ⟨B, h1, h2, h3⟩
    rw [propAt_modifyProp, if_neg (fun e => h2 e.symm)] at h1
    exact ⟨B, h1, h2, h3⟩
  · rintro ⟨B, h1, h2, h3⟩
    refine ⟨B, ?_, h2, h3⟩
    rw [propAt_modifyProp, if_neg (fun e => h2 e.symm)]
    exact h1

/-- The scan started at index `0` with `collision = false`, in terms of `IsPeer`. -/
theorem scanPeers_zero (L : Libm K) (frame self : ℕ) (newPos : Vec2 K)
    (objs : List (Object K)) :
    (∃ j, scanPeers L frame self newPos objs 0 false none = ⟨true, some j, true⟩ ∧
        IsPeer L frame self newPos objs j ∧ ∀ k, k < j → ¬ IsPeer L frame self newPos objs k) ∨
    (scanPeers L frame self newPos objs 0 false none = ⟨false,
        (scanPeers L frame self newPos objs 0 false none).prop, false⟩ ∧
      ∀ k, ¬ IsPeer L frame self newPos objs k) := by
  rcases scanPeers_spec L frame self newPos objs 0 none with
    ⟨i, B, h1, h2, h3, h4, h5, h6⟩ | ⟨h1, h2, h3⟩
  · left
    simp only [Nat.zero_add] at h1 h3 h6
    refine ⟨i, h1, ⟨B, h2, h3, h4, h5⟩, ?_⟩
    rintro k hk ⟨B', g1, g2, g3, g4⟩
    exact h6 k hk B' g1 (by simpa using g2) g3 g4
  · right
    constructor
    · cases hs : scanPeers L frame self newPos objs 0 false none with
      | mk c p h =>
        rw [hs] at h1 h2
        simp only at h1 h2
        rw [h1, h2]
    · rintro k ⟨B', g1, g2, g3, g4⟩
      exact h3 k B' g1 (by simpa using g2) g3 g4

/-- A wall hit: the prop turns round, stays where it is and is marked; its cooldown has
been decremented. -/
theorem move_wall (L : Libm K) (deltaTime : K) (self : ℕ) (me : PropObject K) (gs : GameState K)
    (hwall : hitsWall (me.mPosXZ.add (me.mVelocityXZ.smul (deltaTime * (5 / 2)))) = true) :
    PropUpdate.move L deltaTime self me gs = gs.modifyProp self (fun p =>
      { p with mOverrideDist := glmMax (me.mOverrideDist - deltaTime * (5 / 2)) 0
               mVelocityXZ := p.mVelocityXZ.neg
               mUpdateFrame := gs.mFrame }) := by
  unfold PropUpdate.move
  simp only [hwall, Bool.not_true, Bool.false_eq_true, false_and, if_false, if_true,
    modifyProp_modifyProp]

/-- No wall and either a cooldown left or no peer in reach: the candidate is committed. -/
theorem move_free (L : Libm K) (deltaTime : K) (self : ℕ) (me : PropObject K) (gs : GameState K)
    (hwall : hitsWall (me.mPosXZ.add (me.mVelocityXZ.smul (deltaTime * (5 / 2)))) = false)
    (hfree : glmMax (me.mOverrideDist - deltaTime * (5 / 2)) 0 ≠ 0 ∨
      ∀ k, ¬ IsPeer L gs.mFrame self
        (me.mPosXZ.add (me.mVelocityXZ.smul (deltaTime * (5 / 2)))) gs.mObjects k) :
    PropUpdate.move L deltaTime self me gs = gs.modifyProp self (fun p =>
      { p with mOverrideDist := glmMax (me.mOverrideDist - deltaTime * (5 / 2)) 0
               mPosXZ := me.mPosXZ.add (me.mVelocityXZ.smul (deltaTime * (5 / 2)))
               mUpdateFrame := gs.mFrame }) := by
  unfold PropUpdate.move
  by_cases hod : glmMax (me.mOverrideDist - deltaTime * (5 / 2)) 0 = 0
  · have hno : ∀ k, ¬ IsPeer L gs.mFrame self
        (me.mPosXZ.add (me.mVelocityXZ.smul (deltaTime * (5 / 2)))) gs.mObjects k := by
      rcases hfree with h | h
      · exact absurd hod h
      · exact h
    rcases scanPeers_zero L gs.mFrame self
        (me.mPosXZ.add (me.mVelocityXZ.smul (deltaTime * (5 / 2))))
        (gs.modifyProp self (fun p =>
          { p with mOverrideDist := glmMax (me.mOverrideDist - deltaTime * (5 / 2)) 0 })).mObjects
      with ⟨j, _, h2, _⟩ | ⟨h1, _⟩
    · exact absurd ((isPeer_modifyProp_self L gs self _ _ _ j).1 h2) (hno j)
    · rw [hod] at h1
      simp only [hwall, hod, Bool.not_false, true_and, if_true]
      rw [h1]
      simp only [Bool.false_eq_true, if_false, modifyProp_modifyProp]
  · simp only [hwall, hod, and_false, if_false, Bool.false_eq_true, modifyProp_modifyProp]

/-- No wall, no cooldown left and a peer in reach: the prop and the first such peer turn
round, nobody moves, and only the prop itself gets the cooldown and the frame mark. -/
theorem move_peer (L : Libm K) (deltaTime : K) (self : ℕ) (me : PropObject K) (gs : GameState K)
    (hwall : hitsWall (me.mPosXZ.add (me.mVelocityXZ.smul (deltaTime * (5 / 2)))) = false)
    (hod : glmMax (me.mOverrideDist - deltaTime * (5 / 2)) 0 = 0) (j : ℕ)
    (hj : IsPeer L gs.mFrame self
      (me.mPosXZ.add (me.mVelocityXZ.smul (deltaTime * (5 / 2)))) gs.mObjects j)
    (hfirst : ∀ k, k < j → ¬ IsPeer L gs.mFrame self
      (me.mPosXZ.add (me.mVelocityXZ.smul (deltaTime * (5 / 2)))) gs.mObjects k) :
    PropUpdate.move L deltaTime self me gs =
      (gs.modifyProp self (fun p =>
        { p with mOverrideDist := 1 / 2
                 mVelocityXZ := p.mVelocityXZ.neg
                 mUpdateFrame := gs.mFrame })).modifyProp j (fun q =>
        { q with mVelocityXZ := q.mVelocityXZ.neg }) := by
  have hjs : j ≠ self := by
    obtain ⟨B, _, h, _⟩ := hj
    exact h
  unfold PropUpdate.move
  rcases scanPeers_zero L gs.mFrame self
      (me.mPosXZ.add (me.mVelocityXZ.smul (deltaTime * (5 / 2))))
      (gs.modifyProp self (fun p =>
        { p with mOverrideDist := glmMax (me.mOverrideDist - deltaTime * (5 / 2)) 0 })).mObjects
    with ⟨j', h1, h2, h3⟩ | ⟨_, h2⟩
  · have h2' := (isPeer_modifyProp_self L gs self _ _ _ j').1 h2
    have hjj : j' = j := by
      rcases Nat.lt_trichotomy j' j with h | h | h
      · exact absurd h2' (hfirst j' h)
      · exact h
      · exact absurd ((isPeer_modifyProp_self L gs self _ _ _ j).2 hj) (h3 j h)
    subst hjj
    rw [hod] at h1
    simp only [hwall, hod, Bool.not_false, true_and, if_true]
    rw [h1]
    simp only [if_true, modifyProp_modifyProp]
    rw [modifyProp_comm _ j' self hjs, modifyProp_modifyProp]
  · exact absurd ((isPeer_modifyProp_self L gs self _ _ _ j).2 hj) (h2 j)

theorem FLOOR_HALF_SIZE_eq : FLOOR_HALF_SIZE K = 25 := by
  unfold FLOOR_HALF_SIZE FLOOR_SIZE
  norm_num

theorem hitsWall_eq_false_iff (v : Vec2 K) : hitsWall v = false ↔ InFloor v := by
  unfold hitsWall InFloor
  rw [FLOOR_HALF_SIZE_eq]
  simp only [decide_eq_false_iff_not, not_or, not_lt, gt_iff_lt]

theorem hitsWall_eq_true_iff (v : Vec2 K) : hitsWall v = true ↔ ¬ InFloor v := by
  rw [← hitsWall_eq_false_iff]
  simp

/-- The three outcomes of the move step of `Prop::Update`. -/
theorem move_cases (L : Libm K) (deltaTime : K) (self : ℕ) (me : PropObject K)
    (gs : GameState K) :
    (hitsWall (me.candidate deltaTime) = true ∧
      PropUpdate.move L deltaTime self me gs = gs.modifyProp self (fun p =>
        { p with mOverrideDist := me.cooled deltaTime
                 mVelocityXZ := p.mVelocityXZ.neg
                 mUpdateFrame := gs.mFrame })) ∨
    (hitsWall (me.candidate deltaTime) = false ∧
      (me.cooled deltaTime ≠ 0 ∨
        ∀ k, ¬ IsPeer L gs.mFrame self (me.candidate deltaTime) gs.mObjects k) ∧
      PropUpdate.move L deltaTime self me gs = gs.modifyProp self (fun p =>
        { p with mOverrideDist := me.cooled deltaTime
                 mPosXZ := me.candidate deltaTime
                 mUpdateFrame := gs.mFrame })) ∨
    (hitsWall (me.candidate deltaTime) = false ∧ me.cooled deltaTime = 0 ∧
      ∃ j, IsPeer L gs.mFrame self (me.candidate deltaTime) gs.mObjects j ∧
        (∀ k, k < j → ¬ IsPeer L gs.mFrame self (me.candidate deltaTime) gs.mObjects k) ∧
        PropUpdate.move L deltaTime self me gs =
          (gs.modifyProp self (fun p =>
            { p with mOverrideDist := 1 / 2
                     mVelocityXZ := p.mVelocityXZ.neg
                     mUpdateFrame := gs.mFrame })).modifyProp j (fun q =>
            { q with mVelocityXZ := q.mVelocityXZ.neg })) := by
  classical
  unfold PropObject.candidate PropObject.cooled
  cases hwall : hitsWall (me.mPosXZ.add (me.mVelocityXZ.smul (deltaTime * (5 / 2))))
  · right
    by_cases hfree : glmMax (me.mOverrideDist - deltaTime * (5 / 2)) 0 ≠ 0 ∨
        ∀ k, ¬ IsPeer L gs.mFrame self
          (me.mPosXZ.add (me.mVelocityXZ.smul (deltaTime * (5 / 2)))) gs.mObjects k
    · left
      exact ⟨rfl, hfree, move_free L deltaTime self me gs hwall hfree⟩
    · right
      rw [not_or, not_not, not_forall] at hfree
      obtain ⟨hod, hex⟩ := hfree
      simp only [not_not] at hex
      refine ⟨rfl, hod, Nat.find hex, Nat.find_spec hex, ?_, ?_⟩
      · intro k hk
        exact Nat.find_min hex hk
      · exact move_peer L deltaTime self me gs hwall hod (Nat.find hex) (Nat.find_spec hex)
          (fun k hk => Nat.find_min hex hk)
  · left
    exact ⟨rfl, move_wall L deltaTime self me gs hwall⟩

/-- An unpaused call on a prop not yet updated in this frame runs the move step and then
stores the world transform. -/
theorem PropUpdate_fresh (L : Libm K) (deltaTime : K) (self : ℕ) (gs : GameState K)
    (me : PropObject K) (hme : propAt gs.mObjects self = some me) (hp : gs.mPaused = false)
    (hf : me.mUpdateFrame ≠ gs.mFrame) :
    PropUpdate L deltaTime self gs = (PropUpdate.move L deltaTime self me gs).modifyProp self
      (fun p => { p with mTransform := p.worldTransform L }) := by
  unfold PropUpdate
  rw [hme]
  simp only [hp, Bool.false_eq_true, if_false, hf, ne_eq, not_false_eq_true, if_true]

/-- The whole effect of `Prop::Update` when the candidate leaves the floor. -/
theorem PropUpdate_wall (L : Libm K) (deltaTime : K) (self : ℕ) (gs : GameState K)
    (me : PropObject K) (hme : propAt gs.mObjects self = some me) (hp : gs.mPaused = false)
    (hf : me.mUpdateFrame ≠ gs.mFrame) (hwall : ¬ InFloor (me.candidate deltaTime)) :
    PropUpdate L deltaTime self gs = gs.modifyProp self (fun p =>
      { p with mOverrideDist := me.cooled deltaTime
               mVelocityXZ := p.mVelocityXZ.neg
               mUpdateFrame := gs.mFrame
               mTransform := PropObject.worldTransform L
                 { p with mOverrideDist := me.cooled deltaTime
                          mVelocityXZ := p.mVelocityXZ.neg
                          mUpdateFrame := gs.mFrame } }) := by
  rw [PropUpdate_fresh L deltaTime self gs me hme hp hf]
  rcases move_cases L deltaTime self me gs with ⟨_, e⟩ | ⟨hw, _, _⟩ | ⟨hw, _, _⟩
  · rw [e, modifyProp_modifyProp]
  · exact absurd ((hitsWall_eq_false_iff _).1 hw) hwall
  · exact absurd ((hitsWall_eq_false_iff _).1 hw) hwall

/-- The whole effect of `Prop::Update` when the candidate is on the floor and either a
cooldown is left or no peer is in reach. -/
theorem PropUpdate_free (L : Libm K) (deltaTime : K) (self : ℕ) (gs : GameState K)
    (me : PropObject K) (hme : propAt gs.mObjects self = some me) (hp : gs.mPaused = false)
    (hf : me.mUpdateFrame ≠ gs.mFrame) (hin : InFloor (me.candidate deltaTime))
    (hfree : me.cooled deltaTime ≠ 0 ∨
      ∀ k, ¬ IsPeer L gs.mFrame self (me.candidate deltaTime) gs.mObjects k) :
    PropUpdate L deltaTime self gs = gs.modifyProp self (fun p =>
      { p with mOverrideDist := me.cooled deltaTime
               mPosXZ := me.candidate deltaTime
               mUpdateFrame := gs.mFrame
               mTransform := PropObject.worldTransform L
                 { p with mOverrideDist := me.cooled deltaTime
                          mPosXZ := me.candidate deltaTime
                          mUpdateFrame := gs.mFrame } }) := by
  rw [PropUpdate_fresh L deltaTime self gs me hme hp hf]
  rcases move_cases L deltaTime self me gs with ⟨hw, _⟩ | ⟨_, _, e⟩ | ⟨_, hod, j, hj, _, _⟩
  · exact absurd hin ((hitsWall_eq_true_iff _).1 hw)
  · rw [e, modifyProp_modifyProp]
  · rcases hfree with h | h
    · exact absurd hod h
    · exact absurd hj (h j)

/-- The whole effect of `Prop::Update` when the candidate is on the floor, no cooldown is
left and `j` is the first peer in reach: both velocities are negated; the cooldown and
the frame mark are written to the updated prop only. -/
theorem PropUpdate_peer (L : Libm K) (deltaTime : K) (self : ℕ) (gs : GameState K)
    (me : PropObject K) (hme : propAt gs.mObjects self = some me) (hp : gs.mPaused = false)
    (hf : me.mUpdateFrame ≠ gs.mFrame) (hin : InFloor (me.candidate deltaTime))
    (hod : me.cooled deltaTime = 0) (j : ℕ)
    (hj : IsPeer L gs.mFrame self (me.candidate deltaTime) gs.mObjects j)
    (hfirst : ∀ k, k < j → ¬ IsPeer L gs.mFrame self (me.candidate deltaTime) gs.mObjects k) :
    PropUpdate L deltaTime self gs =
      (gs.modifyProp self (fun p =>
        { p with mOverrideDist := 1 / 2
                 mVelocityXZ := p.mVelocityXZ.neg
                 mUpdateFrame := gs.mFrame
                 mTransform := PropObject.worldTransform L
                   { p with mOverrideDist := 1 / 2
                            mVelocityXZ := p.mVelocityXZ.neg
                            mUpdateFrame := gs.mFrame } })).modifyProp j (fun q =>
        { q with mVelocityXZ := q.mVelocityXZ.neg }) := by
  have hjs : j ≠ self := by
    obtain ⟨B, _, h, _⟩ := hj
    exact h
  rw [PropUpdate_fresh L deltaTime self gs me hme hp hf]
  have e := move_peer L deltaTime self me gs ((hitsWall_eq_false_iff _).2 hin) hod j hj hfirst
  rw [e, modifyProp_comm _ j self hjs, modifyProp_modifyProp]

/-- A peer in reach exists exactly when there is a first one. -/
theorem exists_first_peer (L : Libm K) (frame self : ℕ) (newPos : Vec2 K)
    (objs : List (Object K)) (h : ∃ k, IsPeer L frame self newPos objs k) :
    ∃ j, IsPeer L frame self newPos objs j ∧ ∀ k, k < j → ¬ IsPeer L frame self newPos objs k := by
  classical
  exact ⟨Nat.find h, Nat.find_spec h, fun k hk => Nat.find_min h hk⟩

theorem getElem?_modifyProp_ne (gs : GameState K) (i k : ℕ) (f : PropObject K → PropObject K)
    (h : k ≠ i) : (gs.modifyProp i f).mObjects[k]? = gs.mObjects[k]? := by
  unfold GameState.modifyProp
  simp only [getElem?_modifyAt]
  rw [if_neg (fun e => h e.symm)]

/-- The virtual call on an object that is a `Prop` is `Prop::Update`. -/
theorem ObjectUpdate_prop (L : Libm K) (rand : ℕ → ℕ) (wd ht : ℤ) (deltaTime : K) (i : ℕ)
    (w : GameState K × ℕ) (p : PropObject K) (h : propAt w.1.mObjects i = some p) :
    ObjectUpdate L rand wd ht deltaTime i w = (PropUpdate L deltaTime i w.1, w.2) := by
  unfold ObjectUpdate
  unfold propAt at h
  cases ho : w.1.mObjects[i]? with
  | none => rw [ho] at h; cases h
  | some o =>
    rw [ho] at h
    cases o with
    | prop q => rfl
    | camera c => cases h
    | floor f => cases h
    | light l => cases h

theorem ratLibm_sqrt_sq (q : ℚ) (hq : 0 ≤ q) : ratLibm.sqrt (q * q) = q := by
  show Rat.sqrt (q * q) = q
  rw [Rat.sqrt_eq, abs_of_nonneg hq]

theorem propA_candidate : propA.candidate (1 / 25) = ⟨1 / 10, 0⟩ := by
  simp only [PropObject.candidate, propA, mkProp, Vec2.add, Vec2.smul]
  norm_num

theorem propA_cooled : propA.cooled (1 / 25) = 0 := by
  simp only [PropObject.cooled, propA, mkProp, glmMax]
  norm_num

theorem propA_candidate_inFloor : InFloor (propA.candidate (1 / 25)) := by
  rw [propA_candidate]
  unfold InFloor
  norm_num

theorem sceneAB_peer : IsPeer ratLibm sceneAB.mFrame 0 (propA.candidate (1 / 25))
    sceneAB.mObjects 1 := by
  refine ⟨propB, rfl, by decide, by decide, ?_⟩
  rw [propA_candidate]
  have h : Vec2.dot (Vec2.sub (⟨1 / 10, 0⟩ : Vec2 ℚ) propB.mPosXZ)
      (Vec2.sub (⟨1 / 10, 0⟩ : Vec2 ℚ) propB.mPosXZ) = (1 / 5) * (1 / 5) := by
    simp only [Vec2.dot, Vec2.sub, propB, mkProp]
    norm_num
  unfold length2
  rw [h, ratLibm_sqrt_sq _ (by norm_num)]
  norm_num

theorem sceneAB_first : ∀ k, k < 1 →
    ¬ IsPeer ratLibm sceneAB.mFrame 0 (propA.candidate (1 / 25)) sceneAB.mObjects k := by
  rintro k hk ⟨B, _, h, _⟩
  omega

/-- The state of the scenario after `Prop::Update` on `A` with `deltaTime = 0.04`. -/
theorem sceneAB_after_A : PropUpdate ratLibm (1 / 25) 0 sceneAB =
    (sceneAB.modifyProp 0 (fun p =>
        { p with mOverrideDist := 1 / 2
                 mVelocityXZ := p.mVelocityXZ.neg
                 mUpdateFrame := 1
                 mTransform := PropObject.worldTransform ratLibm
                   { p with mOverrideDist := 1 / 2
                            mVelocityXZ := p.mVelocityXZ.neg
                            mUpdateFrame := 1 } })).modifyProp 1 (fun q =>
        { q with mVelocityXZ := q.mVelocityXZ.neg }) :=
  PropUpdate_peer ratLibm (1 / 25) 0 sceneAB propA rfl rfl (by decide) propA_candidate_inFloor
    propA_cooled 1 sceneAB_peer sceneAB_first

/-- Prop `B` of the scenario after `A` has turned it round. -/
theorem sceneAB_after_A_propB :
    propAt (PropUpdate ratLibm (1 / 25) 0 sceneAB).mObjects 1
      = some { propB with mVelocityXZ := ⟨1, 0⟩ } := by
  rw [sceneAB_after_A, propAt_modifyProp, if_pos rfl, propAt_modifyProp, if_neg (by decide)]
  simp [sceneAB, mkScene, propAt, Object.asProp, propB, mkProp, Vec2.neg]

theorem sceneAB_after_A_no_peer (k : ℕ) :
    ¬ IsPeer ratLibm 1 1 (⟨2 / 5, 0⟩ : Vec2 ℚ) (PropUpdate ratLibm (1 / 25) 0 sceneAB).mObjects k := by
  rintro ⟨B, h1, h2, h3, _⟩
  rw [sceneAB_after_A, propAt_modifyProp, propAt_modifyProp] at h1
  rcases k with _ | _ | k
  · rw [if_neg (by decide), if_pos rfl] at h1
    have h0 : propAt sceneAB.mObjects 0 = some propA := rfl
    rw [h0] at h1
    simp only [Option.map_some', Option.some.injEq] at h1
    rw [← h1] at h3
    exact h3 rfl
  · exact h2 rfl
  · rw [if_neg (by omega), if_neg (by omega)] at h1
    simp [sceneAB, mkScene, propAt] at h1

/-- The pass over the scenario: `A` is updated first, then `B`. -/
theorem sceneAB_pass (rand : ℕ → ℕ) (wd ht : ℤ) :
    updateObjects ratLibm rand wd ht (1 / 25) (sceneAB, 0)
      = (PropUpdate ratLibm (1 / 25) 1 (PropUpdate ratLibm (1 / 25) 0 sceneAB), 0) := by
  have e : updateObjects ratLibm rand wd ht (1 / 25) (sceneAB, 0)
      = ObjectUpdate ratLibm rand wd ht (1 / 25) 1
          (ObjectUpdate ratLibm rand wd ht (1 / 25) 0 (sceneAB, 0)) := rfl
  rw [e, ObjectUpdate_prop ratLibm rand wd ht (1 / 25) 0 (sceneAB, 0) propA rfl,
    ObjectUpdate_prop ratLibm rand wd ht (1 / 25) 1 _ _ sceneAB_after_A_propB]

/-- While the game is paused `Prop::Update` returns at once. -/
theorem PropUpdate_paused (L : Libm K) (deltaTime : K) (self : ℕ) (gs : GameState K)
    (hp : gs.mPaused = true) : PropUpdate L deltaTime self gs = gs := by
  unfold PropUpdate
  cases propAt gs.mObjects self with
  | none => rfl
  | some me => simp only [hp, if_true]

/-- On a prop already marked with the current frame only the transform is rebuilt. -/
theorem PropUpdate_stale (L : Libm K) (deltaTime : K) (self : ℕ) (gs : GameState K)
    (me : PropObject K) (hme : propAt gs.mObjects self = some me) (hp : gs.mPaused = false)
    (hf : me.mUpdateFrame = gs.mFrame) :
    PropUpdate L deltaTime self gs = gs.modifyProp self
      (fun p => { p with mTransform := p.worldTransform L }) := by
  unfold PropUpdate
  rw [hme]
  simp only [hp, Bool.false_eq_true, if_false, hf, ne_eq, not_true_eq_false]

theorem cooled_pos (A : PropObject K) (deltaTime : K)
    (h : deltaTime * (5 / 2) < A.mOverrideDist) : A.cooled deltaTime ≠ 0 := by
  unfold PropObject.cooled glmMax
  have h' : ¬ (A.mOverrideDist - deltaTime * (5 / 2) < 0) := by
    rw [not_lt]
    linarith
  rw [if_neg h']
  intro e
  linarith

theorem propACool_candidate : propACool.candidate (1 / 32) = ⟨5 / 64, 0⟩ := by
  simp only [PropObject.candidate, propACool, mkProp, Vec2.add, Vec2.smul]
  norm_num

theorem propACool_cooled : propACool.cooled (1 / 32) = 0 := by
  simp only [PropObject.cooled, propACool, mkProp, glmMax]
  norm_num

theorem sceneCool_distance :
    length2 ratLibm ((propACool.candidate (1 / 32)).sub propBNear.mPosXZ) = 11 / 64 := by
  rw [propACool_candidate]
  have h : Vec2.dot (Vec2.sub (⟨5 / 64, 0⟩ : Vec2 ℚ) propBNear.mPosXZ)
      (Vec2.sub (⟨5 / 64, 0⟩ : Vec2 ℚ) propBNear.mPosXZ) = (11 / 64) * (11 / 64) := by
    simp only [Vec2.dot, Vec2.sub, propBNear, mkProp]
    norm_num
  unfold length2
  rw [h, ratLibm_sqrt_sq _ (by norm_num)]

theorem sceneCool_peer : IsPeer ratLibm sceneCool.mFrame 0 (propACool.candidate (1 / 32))
    sceneCool.mObjects 1 := by
  refine ⟨propBNear, rfl, by decide, by decide, ?_⟩
  rw [sceneCool_distance]
  norm_num

theorem sceneCool_first : ∀ k, k < 1 →
    ¬ IsPeer ratLibm sceneCool.mFrame 0 (propACool.candidate (1 / 32)) sceneCool.mObjects k := by
  rintro k hk ⟨B, _, h, _⟩
  omega

/-- A wall hit in Lesson3_GeometryStage: the velocity is the normalized freshly drawn
direction and the position is the advanced position clamped into `[-10, 10]`. -/
theorem Lesson3_PropUpdate_wall (L : Libm K) (r0 r1 : ℕ) (deltaTime : K)
    (p : Lesson3.PropObject K) (hout : ¬ Lesson3.InFloor (p.advanced deltaTime)) :
    (Lesson3.PropUpdate L false r0 r1 deltaTime p).mVelocityXZ
        = normalize2 L (Lesson3.drawnDirection K r0 r1) ∧
    (Lesson3.PropUpdate L false r0 r1 deltaTime p).mPosXZ
        = glmClamp2 (p.advanced deltaTime) (-10) 10 := by
  have h : (p.advanced deltaTime).x < -10 ∨ (p.advanced deltaTime).x > 10 ∨
      (p.advanced deltaTime).y < -10 ∨ (p.advanced deltaTime).y > 10 := by
    unfold Lesson3.InFloor at hout
    by_contra hc
    simp only [not_or, not_lt, gt_iff_lt] at hc
    exact hout ⟨hc.1, hc.2.1, hc.2.2.1, hc.2.2.2⟩
  unfold Lesson3.PropObject.advanced at h
  unfold Lesson3.PropUpdate Lesson3.PropObject.advanced Lesson3.drawnDirection
  simp only [Bool.false_eq_true, if_false, h, if_true, and_self]

theorem propNearWall_candidate : propNearWall.candidate (1 / 10) = ⟨503 / 20, 0⟩ := by
  simp only [PropObject.candidate, propNearWall, mkProp, Vec2.add, Vec2.smul]
  norm_num

theorem propNearWall_out : ¬ InFloor (propNearWall.candidate (1 / 10)) := by
  rw [propNearWall_candidate]
  unfold InFloor
  norm_num

theorem propWall3_advanced : propWall3.advanced (1 / 10) = ⟨1021 / 100, 0⟩ := by
  simp only [Lesson3.PropObject.advanced, propWall3, Vec2.add, Vec2.smul]
  norm_num

theorem propWall3_out : ¬ Lesson3.InFloor (propWall3.advanced (1 / 10)) := by
  rw [propWall3_advanced]
  unfold Lesson3.InFloor
  norm_num

theorem glmMod_range (x : K) : 0 ≤ glmMod x 360 ∧ glmMod x 360 < 360 := by
  unfold glmMod
  have h1 : ((⌊x / 360⌋ : ℤ) : K) ≤ x / 360 := Int.floor_le _
  have h2 : x / 360 < ((⌊x / 360⌋ : ℤ) : K) + 1 := Int.lt_floor_add_one _
  have h3 : x = 360 * (x / 360) := by field_simp
  constructor
  · nlinarith
  · nlinarith

theorem glmClamp_range (y lo hi : K) (h : lo ≤ hi) :
    lo ≤ glmClamp y lo hi ∧ glmClamp y lo hi ≤ hi := by
  unfold glmClamp glmMin glmMax
  split_ifs <;> constructor <;> linarith

theorem Camera_Update_pitchYaw (L : Libm K) (wd ht : ℤ) (buttonMask : ℕ)
    (prevMousePos curMousePos : Vec2 K) (deltaTime : K) (c : Camera K) :
    (Camera.Update L wd ht buttonMask prevMousePos curMousePos deltaTime c).camera.mPitchYaw
      = ⟨glmMod (c.mPitchYaw.add (((curMousePos.sub prevMousePos).div
            ⟨(wd : K), (ht : K)⟩).neg.mul ⟨90 * ((wd : K) / (ht : K)), 90⟩)).x 360,
         glmClamp (c.mPitchYaw.add (((curMousePos.sub prevMousePos).div
            ⟨(wd : K), (ht : K)⟩).neg.mul ⟨90 * ((wd : K) / (ht : K)), 90⟩)).y (-90) 90⟩ := rfl

theorem Camera_Update_anglesInRange (L : Libm K) (wd ht : ℤ) (buttonMask : ℕ)
    (prevMousePos curMousePos : Vec2 K) (deltaTime : K) (c : Camera K) :
    AnglesInRange
      (Camera.Update L wd ht buttonMask prevMousePos curMousePos deltaTime c).camera := by
  unfold AnglesInRange
  rw [Camera_Update_pitchYaw]
  exact ⟨(glmMod_range _).1, (glmMod_range _).2,
    (glmClamp_range _ _ _ (by norm_num)).1, (glmClamp_range _ _ _ (by norm_num)).2⟩

theorem lookAt_towards_unit (L : Libm K) (a b : K) (hsqrt : L.sqrt 1 = 1)
    (hab : a * a + b * b = 1) :
    lookAt L ⟨0, 0, 0⟩ ⟨a, 0, b⟩ ⟨0, 1, 0⟩
      = ⟨⟨-b, 0, -a, 0⟩, ⟨0, 1, 0, 0⟩, ⟨a, 0, -b, 0⟩, ⟨0, 0, 0, 1⟩⟩ := by
  have h1 : Vec3.dot (Vec3.sub (⟨a, 0, b⟩ : Vec3 K) ⟨0, 0, 0⟩) (Vec3.sub ⟨a, 0, b⟩ ⟨0, 0, 0⟩) = 1 := by
    simp only [Vec3.dot, Vec3.sub]
    linear_combination hab
  have hf : normalize3 L (Vec3.sub (⟨a, 0, b⟩ : Vec3 K) ⟨0, 0, 0⟩) = ⟨a, 0, b⟩ := by
    unfold normalize3 inversesqrt
    rw [h1, hsqrt]
    simp [Vec3.smul, Vec3.sub]
  have h2 : Vec3.dot (Vec3.cross (⟨a, 0, b⟩ : Vec3 K) ⟨0, 1, 0⟩) (Vec3.cross ⟨a, 0, b⟩ ⟨0, 1, 0⟩) = 1 := by
    simp only [Vec3.dot, Vec3.cross]
    linear_combination hab
  have hs : normalize3 L (Vec3.cross (⟨a, 0, b⟩ : Vec3 K) ⟨0, 1, 0⟩) = ⟨-b, 0, a⟩ := by
    unfold normalize3 inversesqrt
    rw [h2, hsqrt]
    simp [Vec3.smul, Vec3.cross]
  unfold lookAt
  simp only [hf, hs]
  simp only [Vec3.cross, Vec3.dot]
  ext
  all_goals simp
  all_goals linear_combination hab


theorem inverse_lookAt_towards_unit (a b : K) (hab : a * a + b * b = 1) :
    inverse (⟨⟨-b, 0, -a, 0⟩, ⟨0, 1, 0, 0⟩, ⟨a, 0, -b, 0⟩, ⟨0, 0, 0, 1⟩⟩ : Mat4 K)
      = ⟨⟨-b, 0, a, 0⟩, ⟨0, 1, 0, 0⟩, ⟨-a, 0, -b, 0⟩, ⟨0, 0, 0, 1⟩⟩ := by
  unfold inverse
  simp only [Vec4.mul, Vec4.add, Vec4.sub, Vec4.smul, Mat4.smul]
  ring_nf
  have h2 : b ^ 2 + a ^ 2 = 1 := by linear_combination hab
  simp only [h2]
  ext
  all_goals simp
  all_goals exact h2

theorem allProps_modifyProp (P : PropObject K → Prop) (gs : GameState K) (i : ℕ)
    (f : PropObject K → PropObject K) (h : AllProps P gs.mObjects) (hf : ∀ p, P p → P (f p)) :
    AllProps P (gs.modifyProp i f).mObjects := by
  intro k p hk
  rw [propAt_modifyProp] at hk
  split_ifs at hk with hik
  · cases hq : propAt gs.mObjects k with
    | none => rw [hq] at hk; cases hk
    | some q =>
      rw [hq] at hk
      simp only [Option.map_some', Option.some.injEq] at hk
      rw [← hk]
      exact hf q (h k q hq)
  · exact h k p hk

/-- A property of props that survives each single write of `Prop::Update` (a new cooldown,
a negated velocity, the current frame as mark, a new transform, a position on the floor)
holds for every prop after the call if it held for every prop before. -/
theorem allProps_PropUpdate (P : PropObject K → Prop) (L : Libm K) (deltaTime : K) (self : ℕ)
    (gs : GameState K) (h : AllProps P gs.mObjects)
    (hod : ∀ p x, P p → P { p with mOverrideDist := x })
    (hvel : ∀ p, P p → P { p with mVelocityXZ := p.mVelocityXZ.neg })
    (hfr : ∀ p, P p → P { p with mUpdateFrame := gs.mFrame })
    (htr : ∀ p t, P p → P { p with mTransform := t })
    (hpos : ∀ p v, InFloor v → P p → P { p with mPosXZ := v }) :
    AllProps P (PropUpdate L deltaTime self gs).mObjects := by
  unfold PropUpdate
  cases hme : propAt gs.mObjects self with
  | none => exact h
  | some me =>
    simp only []
    split_ifs with hp hf
    · exact h
    · refine allProps_modifyProp P _ self _ ?_ (fun p hp => htr p _ hp)
      rcases move_cases L deltaTime self me gs with ⟨_, e⟩ | ⟨hw, _, e⟩ | ⟨_, _, j, _, _, e⟩
      · rw [e]
        exact allProps_modifyProp P gs self _ h
          (fun p hp => hfr _ (hvel _ (hod p (me.cooled deltaTime) hp)))
      · rw [e]
        exact allProps_modifyProp P gs self _ h
          (fun p hp => hfr _ (hpos _ (me.candidate deltaTime) ((hitsWall_eq_false_iff _).1 hw)
            (hod p (me.cooled deltaTime) hp)))
      · rw [e]
        exact allProps_modifyProp P _ j _
          (allProps_modifyProp P gs self _ h (fun p hp => hfr _ (hvel _ (hod p (1 / 2) hp))))
          (fun p hp => hvel p hp)
    · exact allProps_modifyProp P _ self _ h (fun p hp => htr p _ hp)

theorem length2_neg (L : Libm K) (v : Vec2 K) : length2 L v.neg = length2 L v := by
  unfold length2 Vec2.dot Vec2.neg
  congr 1
  ring

/-- The first peer in reach is unique. -/
theorem first_peer_unique (L : Libm K) (frame self : ℕ) (newPos : Vec2 K)
    (objs : List (Object K)) (j j' : ℕ)
    (hj : IsPeer L frame self newPos objs j)
    (hfirst : ∀ k, k < j → ¬ IsPeer L frame self newPos objs k)
    (hj' : IsPeer L frame self newPos objs j')
    (hfirst' : ∀ k, k < j' → ¬ IsPeer L frame self newPos objs k) : j' = j := by
  rcases Nat.lt_trichotomy j' j with h | h | h
  · exact absurd hj' (hfirst j' h)
  · exact h
  · exact absurd hj (hfirst' j h)

/-- The value of the pointer `prop` when the scan of `Prop::Update` is left: the first
peer in reach. -/
theorem scanPeers_first (L : Libm K) (deltaTime : K) (self : ℕ) (gs : GameState K)
    (A : PropObject K) (x : K) (j : ℕ)
    (hj : IsPeer L gs.mFrame self (A.candidate deltaTime) gs.mObjects j)
    (hfirst : ∀ k, k < j → ¬ IsPeer L gs.mFrame self (A.candidate deltaTime) gs.mObjects k) :
    scanPeers L gs.mFrame self (A.candidate deltaTime)
      (gs.modifyProp self (fun p => { p with mOverrideDist := x })).mObjects 0 false none
      = ⟨true, some j, true⟩ := by
  rcases scanPeers_zero L gs.mFrame self (A.candidate deltaTime)
      (gs.modifyProp self (fun p => { p with mOverrideDist := x })).mObjects
    with ⟨j', h1, h2, h3⟩ | ⟨_, h2⟩
  · have e : j' = j := first_peer_unique L gs.mFrame self _ gs.mObjects j j' hj hfirst
      ((isPeer_modifyProp_self L gs self _ _ _ j').1 h2)
      (fun k hk hk' => h3 k hk ((isPeer_modifyProp_self L gs self _ _ _ k).2 hk'))
    rw [h1, e]
  · exact absurd ((isPeer_modifyProp_self L gs self _ _ _ j).2 hj) (h2 j)

theorem sceneABC_peer : IsPeer ratLibm sceneABC.mFrame 0 (propA.candidate (1 / 25))
    sceneABC.mObjects 1 := by
  refine ⟨propB, rfl, by decide, by decide, ?_⟩
  rw [propA_candidate]
  have h : Vec2.dot (Vec2.sub (⟨1 / 10, 0⟩ : Vec2 ℚ) propB.mPosXZ)
      (Vec2.sub (⟨1 / 10, 0⟩ : Vec2 ℚ) propB.mPosXZ) = (1 / 5) * (1 / 5) := by
    simp only [Vec2.dot, Vec2.sub, propB, mkProp]
    norm_num
  unfold length2
  rw [h, ratLibm_sqrt_sq _ (by norm_num)]
  norm_num

theorem sceneABC_peer_C : IsPeer ratLibm sceneABC.mFrame 0 (propA.candidate (1 / 25))
    sceneABC.mObjects 2 := by
  refine ⟨propC, rfl, by decide, by decide, ?_⟩
  rw [propA_candidate]
  have h : Vec2.dot (Vec2.sub (⟨1 / 10, 0⟩ : Vec2 ℚ) propC.mPosXZ)
      (Vec2.sub (⟨1 / 10, 0⟩ : Vec2 ℚ) propC.mPosXZ) = (3 / 10) * (3 / 10) := by
    simp only [Vec2.dot, Vec2.sub, propC, mkProp]
    norm_num
  unfold length2
  rw [h, ratLibm_sqrt_sq _ (by norm_num)]
  norm_num

theorem sceneABC_first : ∀ k, k < 1 →
    ¬ IsPeer ratLibm sceneABC.mFrame 0 (propA.candidate (1 / 25)) sceneABC.mObjects k := by
  rintro k hk ⟨B, _, h, _⟩
  omega

theorem ratLibm_sqrt_one : ratLibm.sqrt 1 = 1 := by
  have h := ratLibm_sqrt_sq 1 (by norm_num)
  rwa [mul_one] at h

theorem sceneAB_unit :
    AllProps (fun p => length2 ratLibm p.mVelocityXZ = 1) sceneAB.mObjects := by
  intro k p hk
  rcases k with _ | _ | k
  · have h0 : propAt sceneAB.mObjects 0 = some propA := rfl
    rw [h0] at hk
    cases hk
    have hd : Vec2.dot propA.mVelocityXZ propA.mVelocityXZ = 1 := by
      simp only [Vec2.dot, propA, mkProp]
      norm_num
    show ratLibm.sqrt (Vec2.dot propA.mVelocityXZ propA.mVelocityXZ) = 1
    rw [hd, ratLibm_sqrt_one]
  · have h1 : propAt sceneAB.mObjects 1 = some propB := rfl
    rw [h1] at hk
    cases hk
    have hd : Vec2.dot propB.mVelocityXZ propB.mVelocityXZ = 1 := by
      simp only [Vec2.dot, propB, mkProp]
      norm_num
    show ratLibm.sqrt (Vec2.dot propB.mVelocityXZ propB.mVelocityXZ) = 1
    rw [hd, ratLibm_sqrt_one]
  · simp [sceneAB, mkScene, propAt] at hk

/-- The orientation `rot` of `Prop::Update` for a unit velocity. -/
theorem rot_unit (L : Libm K) (d : Vec2 K) (hsqrt : L.sqrt 1 = 1) (hd : Vec2.dot d d = 1) :
    PropUpdate.rot L d = ⟨⟨d.y, 0, -d.x, 0⟩, ⟨0, 1, 0, 0⟩, ⟨d.x, 0, d.y, 0⟩, ⟨0, 0, 0, 1⟩⟩ := by
  unfold Vec2.dot at hd
  unfold PropUpdate.rot
  have h : -d.x * -d.x + -d.y * -d.y = 1 := by linear_combination hd
  simp only []
  rw [lookAt_towards_unit L (-d.x) (-d.y) hsqrt h, inverse_lookAt_towards_unit _ _ h]
  simp

/-- The function `glm::scale( m, v )` is the product of `m` and the scaling matrix. -/
theorem scale_eq_mul (m : Mat4 K) (v : Vec3 K) : scale m v = m.mul (scale (Mat4.diag 1) v) := by
  simp only [scale, Mat4.mul, Mat4.mulVec, Mat4.diag, Vec4.smul, Vec4.add]
  ext <;> simp

/-- The transform is written last: after an unpaused `Prop::Update` the stored transform
is the one built from the stored position, velocity and scale. -/
theorem PropUpdate_stores_worldTransform (L : Libm K) (deltaTime : K) (self : ℕ)
    (gs : GameState K) (A : PropObject K) (hA : propAt gs.mObjects self = some A)
    (hp : gs.mPaused = false) (A' : PropObject K)
    (hA' : propAt (PropUpdate L deltaTime self gs).mObjects self = some A') :
    A'.mTransform = A'.worldTransform L := by
  unfold PropUpdate at hA'
  rw [hA] at hA'
  simp only [hp, Bool.false_eq_true, if_false] at hA'
  rw [propAt_modifyProp, if_pos rfl] at hA'
  cases hq : propAt (if A.mUpdateFrame ≠ gs.mFrame then PropUpdate.move L deltaTime self A gs
      else gs).mObjects self with
  | none => rw [hq] at hA'; cases hA'
  | some q =>
    rw [hq] at hA'
    simp only [Option.map_some', Option.some.injEq] at hA'
    rw [← hA']
    rfl

/-- A wall hit of a light: new random direction, clamped position, two calls of `rand()`. -/
theorem Light_Update_wall (L : Libm K) (rand : ℕ → ℕ) (deltaTime : K) (l : Light K) (n : ℕ)
    (hout : ¬ InFloor (l.advanced deltaTime)) :
    Light.Update L rand false deltaTime l n =
      ({ l with mVelocityXZ := normalize2 L (Lesson3.drawnDirection K (rand n) (rand (n + 1)))
                mPosXZ := glmClamp2 (l.advanced deltaTime) (-25) 25 }, n + 2) := by
  have h : (l.advanced deltaTime).x < -25 ∨ (l.advanced deltaTime).x > 25 ∨
      (l.advanced deltaTime).y < -25 ∨ (l.advanced deltaTime).y > 25 := by
    unfold InFloor at hout
    by_contra hc
    simp only [not_or, not_lt, gt_iff_lt] at hc
    exact hout ⟨hc.1, hc.2.1, hc.2.2.1, hc.2.2.2⟩
  unfold Light.advanced at h
  unfold Light.Update Light.advanced Lesson3.drawnDirection
  simp only [Bool.false_eq_true, if_false, FLOOR_HALF_SIZE_eq, h, if_true]

/-- No wall hit of a light: the advanced position is stored. -/
theorem Light_Update_free (L : Libm K) (rand : ℕ → ℕ) (deltaTime : K) (l : Light K) (n : ℕ)
    (hin : InFloor (l.advanced deltaTime)) :
    Light.Update L rand false deltaTime l n = ({ l with mPosXZ := l.advanced deltaTime }, n) := by
  have h : ¬ ((l.advanced deltaTime).x < -25 ∨ (l.advanced deltaTime).x > 25 ∨
      (l.advanced deltaTime).y < -25 ∨ (l.advanced deltaTime).y > 25) := by
    unfold InFloor at hin
    simp only [not_or, not_lt, gt_iff_lt]
    exact ⟨hin.1, hin.2.1, hin.2.2.1, hin.2.2.2⟩
  unfold Light.advanced at h
  unfold Light.Update Light.advanced
  simp only [Bool.false_eq_true, if_false, FLOOR_HALF_SIZE_eq, h]

/-- No wall hit of the prop of Lesson3_GeometryStage: the advanced position is stored and
the velocity is kept. -/
theorem Lesson3_PropUpdate_free (L : Libm K) (r0 r1 : ℕ) (deltaTime : K)
    (p : Lesson3.PropObject K) (hin : Lesson3.InFloor (p.advanced deltaTime)) :
    (Lesson3.PropUpdate L false r0 r1 deltaTime p).mVelocityXZ = p.mVelocityXZ ∧
    (Lesson3.PropUpdate L false r0 r1 deltaTime p).mPosXZ = p.advanced deltaTime := by
  have h : ¬ ((p.advanced deltaTime).x < -10 ∨ (p.advanced deltaTime).x > 10 ∨
      (p.advanced deltaTime).y < -10 ∨ (p.advanced deltaTime).y > 10) := by
    unfold Lesson3.InFloor at hin
    simp only [not_or, not_lt, gt_iff_lt]
    exact ⟨hin.1, hin.2.1, hin.2.2.1, hin.2.2.2⟩
  unfold Lesson3.PropObject.advanced at h
  unfold Lesson3.PropUpdate Lesson3.PropObject.advanced
  simp only [Bool.false_eq_true, if_false, h, and_self]

theorem glmClamp2_inFloor (v : Vec2 K) : InFloor (glmClamp2 v (-25) 25) := by
  unfold InFloor glmClamp2
  exact ⟨(glmClamp_range _ _ _ (by norm_num)).1, (glmClamp_range _ _ _ (by norm_num)).2,
    (glmClamp_range _ _ _ (by norm_num)).1, (glmClamp_range _ _ _ (by norm_num)).2⟩

theorem glmClamp2_inFloor10 (v : Vec2 K) : Lesson3.InFloor (glmClamp2 v (-10) 10) := by
  unfold Lesson3.InFloor glmClamp2
  exact ⟨(glmClamp_range _ _ _ (by norm_num)).1, (glmClamp_range _ _ _ (by norm_num)).2,
    (glmClamp_range _ _ _ (by norm_num)).1, (glmClamp_range _ _ _ (by norm_num)).2⟩

theorem lightNearWall_advanced : lightNearWall.advanced (1 / 10) = ⟨127 / 5, 0⟩ := by
  simp only [Light.advanced, lightNearWall, Vec2.add, Vec2.smul]
  norm_num

theorem lightNearWall_out : ¬ InFloor (lightNearWall.advanced (1 / 10)) := by
  rw [lightNearWall_advanced]
  unfold InFloor
  norm_num

theorem normalize2_ratLibm_unit (v : Vec2 ℚ) (h : Vec2.dot v v = 1) :
    normalize2 ratLibm v = v := by
  unfold normalize2 inversesqrt
  rw [h, ratLibm_sqrt_one]
  simp [Vec2.smul]

theorem inverse_eq (m : Mat4 K) :
    inverse m = (inverseCofactors m).smul (1 / inverseDeterminant m) := rfl

theorem inverseCofactors_mul (m : Mat4 K) :
    (inverseCofactors m).mul m = Mat4.diag (inverseDeterminant m) := by
  obtain ⟨⟨a0, a1, a2, a3⟩, ⟨b0, b1, b2, b3⟩, ⟨c0, c1, c2, c3⟩, ⟨d0, d1, d2, d3⟩⟩ := m
  simp only [inverseDeterminant, inverseCofactors, Mat4.mul, Mat4.mulVec, Mat4.diag, Vec4.smul,
    Vec4.add, Vec4.mul, Vec4.sub]
  ext <;> (simp only []; ring)

theorem mul_inverseCofactors (m : Mat4 K) :
    m.mul (inverseCofactors m) = Mat4.diag (inverseDeterminant m) := by
  obtain ⟨⟨a0, a1, a2, a3⟩, ⟨b0, b1, b2, b3⟩, ⟨c0, c1, c2, c3⟩, ⟨d0, d1, d2, d3⟩⟩ := m
  simp only [inverseDeterminant, inverseCofactors, Mat4.mul, Mat4.mulVec, Mat4.diag, Vec4.smul,
    Vec4.add, Vec4.mul, Vec4.sub]
  ext <;> (simp only []; ring)

theorem smul_mul (a b : Mat4 K) (s : K) : (a.smul s).mul b = (a.mul b).smul s := by
  simp only [Mat4.mul, Mat4.mulVec, Mat4.smul, Vec4.smul, Vec4.add]
  ext <;> (simp only []; ring)

theorem mul_smul (a b : Mat4 K) (s : K) : a.mul (b.smul s) = (a.mul b).smul s := by
  simp only [Mat4.mul, Mat4.mulVec, Mat4.smul, Vec4.smul, Vec4.add]
  ext <;> (simp only []; ring)

theorem diag_smul_inv (d : K) (h : d ≠ 0) : (Mat4.diag d).smul (1 / d) = Mat4.diag 1 := by
  simp only [Mat4.diag, Mat4.smul, Vec4.smul]
  ext <;> simp [h]

/-- The function `glm::inverse` returns a left inverse when the determinant is not zero. -/
theorem inverse_mul_self (m : Mat4 K) (h : inverseDeterminant m ≠ 0) :
    (inverse m).mul m = Mat4.diag 1 := by
  rw [inverse_eq, smul_mul, inverseCofactors_mul, diag_smul_inv _ h]

/-- The function `glm::inverse` returns a right inverse when the determinant is not zero. -/
theorem mul_inverse_self (m : Mat4 K) (h : inverseDeterminant m ≠ 0) :
    m.mul (inverse m) = Mat4.diag 1 := by
  rw [inverse_eq, mul_smul, mul_inverseCofactors, diag_smul_inv _ h]

theorem normalize3_unit (L : Libm K) (hsqrt : L.sqrt 1 = 1) (v : Vec3 K)
    (h : Vec3.dot v v = 1) : normalize3 L v = v := by
  unfold normalize3 inversesqrt
  rw [h, hsqrt]
  simp [Vec3.smul]

/-- The function `glm::rotate( m, angle, v )` is the product of `m` and the rotation
matrix `glm::rotate( mat4( 1 ), angle, v )`. -/
theorem rotate_eq_mul (L : Libm K) (m : Mat4 K) (angle : K) (v : Vec3 K) :
    rotate L m angle v = m.mul (rotate L (Mat4.diag 1) angle v) := by
  simp only [rotate, Mat4.mul, Mat4.mulVec, Mat4.diag, Vec4.smul, Vec4.add]
  ext <;> (simp only []; ring)

/-- The orientation of `Camera::Update`: the rotation by `ay` about the Y axis followed by
the rotation by `ax` about the X axis. -/
theorem camera_rotation (L : Libm K) (hsqrt : L.sqrt 1 = 1) (ay ax : K) :
    rotate L (rotate L (Mat4.diag 1) ay ⟨0, 1, 0⟩) ax ⟨1, 0, 0⟩ =
      ⟨⟨L.cos ay, 0, -L.sin ay, 0⟩,
       ⟨L.sin ay * L.sin ax, L.cos ax, L.cos ay * L.sin ax, 0⟩,
       ⟨L.sin ay * L.cos ax, -L.sin ax, L.cos ay * L.cos ax, 0⟩,
       ⟨0, 0, 0, 1⟩⟩ := by
  have hy : normalize3 L (⟨0, 1, 0⟩ : Vec3 K) = ⟨0, 1, 0⟩ :=
    normalize3_unit L hsqrt _ (by simp [Vec3.dot])
  have hx : normalize3 L (⟨1, 0, 0⟩ : Vec3 K) = ⟨1, 0, 0⟩ :=
    normalize3_unit L hsqrt _ (by simp [Vec3.dot])
  unfold rotate
  simp only [hy, hx, Mat4.diag, Vec4.smul, Vec4.add, Vec3.smul]
  ext <;> (simp only []; first | done | ring)

theorem Camera_Update_matrices (L : Libm K) (wd ht : ℤ) (buttonMask : ℕ)
    (prevMousePos curMousePos : Vec2 K) (deltaTime : K) (c : Camera K) :
    (Camera.Update L wd ht buttonMask prevMousePos curMousePos deltaTime c).mCameraMatrix =
      { rotate L (rotate L (Mat4.diag 1)
          (radians L (Camera.Update L wd ht buttonMask prevMousePos curMousePos deltaTime
            c).camera.mPitchYaw.x) ⟨0, 1, 0⟩)
          (radians L (Camera.Update L wd ht buttonMask prevMousePos curMousePos deltaTime
            c).camera.mPitchYaw.y) ⟨1, 0, 0⟩ with
        c3 := Vec4.ofVec3 (Camera.Update L wd ht buttonMask prevMousePos curMousePos deltaTime
          c).camera.mPosition 1 } ∧
    (Camera.Update L wd ht buttonMask prevMousePos curMousePos deltaTime c).mViewMatrix =
      inverse (Camera.Update L wd ht buttonMask prevMousePos curMousePos deltaTime
        c).mCameraMatrix := ⟨rfl, rfl⟩

/-- The determinant of the camera matrix is `1`. -/
theorem camera_matrix_det (cy sy cx sx px py pz : K) (hy : cy * cy + sy * sy = 1)
    (hx : cx * cx + sx * sx = 1) :
    inverseDeterminant (⟨⟨cy, 0, -sy, 0⟩, ⟨sy * sx, cx, cy * sx, 0⟩, ⟨sy * cx, -sx, cy * cx, 0⟩,
      ⟨px, py, pz, 1⟩⟩ : Mat4 K) = 1 := by
  simp only [inverseDeterminant, inverseCofactors, Vec4.mul, Vec4.add, Vec4.sub]
  linear_combination (cx * cx + sx * sx) * hy + hx

theorem translation_sum_aux (p F R : Vec3 K) (s : K) (u d l r : Prop) [Decidable u]
    [Decidable d] [Decidable l] [Decidable r] :
    (((p.add (if u then (Vec3.lsmul s F).neg else ⟨0, 0, 0⟩)).add
        (if d then Vec3.lsmul s F else ⟨0, 0, 0⟩)).add
        (if l then (Vec3.lsmul s R).neg else ⟨0, 0, 0⟩)).add
        (if r then Vec3.lsmul s R else ⟨0, 0, 0⟩) =
      p.add (Vec3.lsmul s
        ((Vec3.lsmul ((if d then (1 : K) else 0) - (if u then 1 else 0)) F).add
         (Vec3.lsmul ((if r then (1 : K) else 0) - (if l then 1 else 0)) R))) := by
  by_cases hu : u <;> by_cases hd : d <;> by_cases hl : l <;> by_cases hr : r <;>
    simp only [hu, hd, hl, hr, if_true, if_false, Vec3.add, Vec3.lsmul, Vec3.neg] <;>
    (ext <;> (simp only []; ring))

/-- The four conditional steps of `Camera::Update` on the position add up to one step
along `F` and `R` weighted by the held buttons. -/
theorem translation_sum (p F R : Vec3 K) (s : K) (buttonMask : ℕ) :
    (((p.add (if buttonMask &&& BUTTON_UP ≠ 0 then (Vec3.lsmul s F).neg else ⟨0, 0, 0⟩)).add
        (if buttonMask &&& BUTTON_DOWN ≠ 0 then Vec3.lsmul s F else ⟨0, 0, 0⟩)).add
        (if buttonMask &&& BUTTON_LEFT ≠ 0 then (Vec3.lsmul s R).neg else ⟨0, 0, 0⟩)).add
        (if buttonMask &&& BUTTON_RIGHT ≠ 0 then Vec3.lsmul s R else ⟨0, 0, 0⟩) =
      p.add (Vec3.lsmul s
        ((Vec3.lsmul (buttonHeld K buttonMask BUTTON_DOWN - buttonHeld K buttonMask BUTTON_UP)
          F).add
         (Vec3.lsmul (buttonHeld K buttonMask BUTTON_RIGHT - buttonHeld K buttonMask BUTTON_LEFT)
          R))) :=
  translation_sum_aux p F R s _ _ _ _

theorem Camera_Update_position (L : Libm K) (wd ht : ℤ) (buttonMask : ℕ)
    (prevMousePos curMousePos : Vec2 K) (deltaTime : K) (c : Camera K) :
    (Camera.Update L wd ht buttonMask prevMousePos curMousePos deltaTime c).camera.mPosition =
      c.mPosition.add (Vec3.lsmul (5 * deltaTime)
        ((Vec3.lsmul (buttonHeld K buttonMask BUTTON_DOWN - buttonHeld K buttonMask BUTTON_UP)
          (cameraOrientation L (Camera.Update L wd ht buttonMask prevMousePos curMousePos
            deltaTime c).camera.mPitchYaw).c2.xyz).add
         (Vec3.lsmul (buttonHeld K buttonMask BUTTON_RIGHT - buttonHeld K buttonMask BUTTON_LEFT)
          (cameraOrientation L (Camera.Update L wd ht buttonMask prevMousePos curMousePos
            deltaTime c).camera.mPitchYaw).c0.xyz))) := by
  rw [← translation_sum]
  rfl

theorem land_fifteen (mask : ℕ) :
    (mask &&& 15) &&& BUTTON_UP = mask &&& BUTTON_UP ∧
    (mask &&& 15) &&& BUTTON_DOWN = mask &&& BUTTON_DOWN ∧
    (mask &&& 15) &&& BUTTON_LEFT = mask &&& BUTTON_LEFT ∧
    (mask &&& 15) &&& BUTTON_RIGHT = mask &&& BUTTON_RIGHT := by
  refine ⟨?_, ?_, ?_, ?_⟩ <;> rw [Nat.land_assoc] <;> rfl

/-- A square root that is non-negative and squares back is determined by its square. -/
theorem sqrt_eq_of_mul_self (L : Libm K)
    (hsqrt : ∀ x, 0 ≤ x → 0 ≤ L.sqrt x ∧ L.sqrt x * L.sqrt x = x) (x y : K) (hy : 0 ≤ y)
    (hxy : y * y = x) : L.sqrt x = y := by
  have hx : 0 ≤ x := by rw [← hxy]; exact mul_self_nonneg y
  obtain ⟨h0, h1⟩ := hsqrt x hx
  exact (mul_self_inj h0 hy).1 (by rw [h1, hxy])

theorem sqrt_one_of_spec (L : Libm K)
    (hsqrt : ∀ x, 0 ≤ x → 0 ≤ L.sqrt x ∧ L.sqrt x * L.sqrt x = x) : L.sqrt 1 = 1 :=
  sqrt_eq_of_mul_self L hsqrt 1 1 zero_le_one (one_mul 1)

theorem buttonHeld_cases (K : Type) [LinearOrderedField K] (mask b : ℕ) :
    buttonHeld K mask b = 0 ∨ buttonHeld K mask b = 1 := by
  unfold buttonHeld
  split_ifs
  · exact Or.inr rfl
  · exact Or.inl rfl

theorem add_sub_cancel_vec (p v : Vec3 K) : (p.add v).sub p = v := by
  simp only [Vec3.add, Vec3.sub]
  ext <;> simp

/-- The squared length of a camera step: the forward and right axes of the orientation are
orthonormal. -/
theorem camera_step_dot (cy sy cx sx s a b : K) (hy : cy * cy + sy * sy = 1)
    (hx : cx * cx + sx * sx = 1) :
    Vec3.dot
      (Vec3.lsmul s ((Vec3.lsmul a ⟨sy * cx, -sx, cy * cx⟩).add (Vec3.lsmul b ⟨cy, 0, -sy⟩)))
      (Vec3.lsmul s ((Vec3.lsmul a ⟨sy * cx, -sx, cy * cx⟩).add (Vec3.lsmul b ⟨cy, 0, -sy⟩)))
      = s * s * (a * a + b * b) := by
  simp only [Vec3.dot, Vec3.lsmul, Vec3.add]
  linear_combination s * s * (a * a * (cx * cx * hy + hx) + b * b * hy)

/-- The squared length of the displacement of the camera in one `Camera::Update`. -/
theorem camera_displacement_dot (L : Libm K) (hsqrt : L.sqrt 1 = 1)
    (htrig : ∀ a, L.cos a * L.cos a + L.sin a * L.sin a = 1) (wd ht : ℤ) (buttonMask : ℕ)
    (prevMousePos curMousePos : Vec2 K) (deltaTime : K) (c : Camera K) :
    Vec3.dot
      ((Camera.Update L wd ht buttonMask prevMousePos curMousePos deltaTime
        c).camera.mPosition.sub c.mPosition)
      ((Camera.Update L wd ht buttonMask prevMousePos curMousePos deltaTime
        c).camera.mPosition.sub c.mPosition)
      = 5 * deltaTime * (5 * deltaTime) *
        ((buttonHeld K buttonMask BUTTON_DOWN - buttonHeld K buttonMask BUTTON_UP) *
          (buttonHeld K buttonMask BUTTON_DOWN - buttonHeld K buttonMask BUTTON_UP) +
         (buttonHeld K buttonMask BUTTON_RIGHT - buttonHeld K buttonMask BUTTON_LEFT) *
          (buttonHeld K buttonMask BUTTON_RIGHT - buttonHeld K buttonMask BUTTON_LEFT)) := by
  rw [Camera_Update_position, add_sub_cancel_vec]
  unfold cameraOrientation
  rw [camera_rotation L hsqrt]
  simp only [Vec4.xyz]
  exact camera_step_dot _ _ _ _ _ _ _ (htrig _) (htrig _)

theorem real_sqrt_spec (x : ℝ) (hx : 0 ≤ x) : 0 ≤ Real.sqrt x ∧ Real.sqrt x * Real.sqrt x = x :=
  ⟨Real.sqrt_nonneg x, Real.mul_self_sqrt hx⟩

theorem real_trig (a : ℝ) : Real.cos a * Real.cos a + Real.sin a * Real.sin a = 1 := by
  have h := Real.cos_sq_add_sin_sq a
  rw [sq, sq] at h
  exact h

theorem buttonHeld_real_up : buttonHeld ℝ 1 BUTTON_UP = 1 ∧ buttonHeld ℝ 1 BUTTON_DOWN = 0 ∧
    buttonHeld ℝ 1 BUTTON_LEFT = 0 ∧ buttonHeld ℝ 1 BUTTON_RIGHT = 0 := by
  refine ⟨?_, ?_, ?_, ?_⟩ <;> simp [buttonHeld, BUTTON_UP, BUTTON_DOWN, BUTTON_LEFT, BUTTON_RIGHT]

theorem buttonHeld_real_up_right : buttonHeld ℝ 9 BUTTON_UP = 1 ∧ buttonHeld ℝ 9 BUTTON_DOWN = 0 ∧
    buttonHeld ℝ 9 BUTTON_LEFT = 0 ∧ buttonHeld ℝ 9 BUTTON_RIGHT = 1 := by
  have h1 : 9 &&& BUTTON_UP = 1 := by decide
  have h2 : 9 &&& BUTTON_DOWN = 0 := by decide
  have h3 : 9 &&& BUTTON_LEFT = 0 := by decide
  have h4 : 9 &&& BUTTON_RIGHT = 8 := by decide
  refine ⟨?_, ?_, ?_, ?_⟩ <;> simp [buttonHeld, h1, h2, h3, h4]

theorem modifyProp_mFrame (gs : GameState K) (i : ℕ) (f : PropObject K → PropObject K) :
    (gs.modifyProp i f).mFrame = gs.mFrame := rfl

theorem PropUpdate_mFrame (L : Libm K) (deltaTime : K) (self : ℕ) (gs : GameState K) :
    (PropUpdate L deltaTime self gs).mFrame = gs.mFrame := by
  unfold PropUpdate
  cases hme : propAt gs.mObjects self with
  | none => rfl
  | some me =>
    simp only []
    split_ifs with hp hf
    · rfl
    · rw [modifyProp_mFrame]
      rcases move_cases L deltaTime self me gs with ⟨_, e⟩ | ⟨_, _, e⟩ | ⟨_, _, j, _, _, e⟩ <;>
        rw [e] <;> rfl
    · rfl

/-- Replacing an object that is not a prop by another object that is not a prop leaves
every prop of the scene as it is. -/
theorem propAt_modifyAt_nonprop (objs : List (Object K)) (i : ℕ) (o o' : Object K)
    (ho : objs[i]? = some o) (hn : o.asProp = none) (hn' : o'.asProp = none) (k : ℕ) :
    propAt (modifyAt (fun _ => o') objs i) k = propAt objs k := by
  unfold propAt
  rw [getElem?_modifyAt]
  split_ifs with h
  · subst h
    rw [ho]
    simp [hn, hn']
  · rfl

/-- The virtual call `obj->Update` keeps the frame counter and every property of the
props that survives the writes of `Prop::Update`. -/
theorem ObjectUpdate_invariant (P : PropObject K → Prop) (L : Libm K) (rand : ℕ → ℕ)
    (wd ht : ℤ) (deltaTime : K) (i : ℕ) (w : GameState K × ℕ)
    (h : AllProps P w.1.mObjects)
    (hod : ∀ p x, P p → P { p with mOverrideDist := x })
    (hvel : ∀ p, P p → P { p with mVelocityXZ := p.mVelocityXZ.neg })
    (hfr : ∀ p, P p → P { p with mUpdateFrame := w.1.mFrame })
    (htr : ∀ p t, P p → P { p with mTransform := t })
    (hpos : ∀ p v, InFloor v → P p → P { p with mPosXZ := v }) :
    (ObjectUpdate L rand wd ht deltaTime i w).1.mFrame = w.1.mFrame ∧
    AllProps P (ObjectUpdate L rand wd ht deltaTime i w).1.mObjects := by
  unfold ObjectUpdate
  cases ho : w.1.mObjects[i]? with
  | none => exact ⟨rfl, h⟩
  | some o =>
    cases o with
    | floor f => exact ⟨rfl, h⟩
    | prop p =>
      exact ⟨PropUpdate_mFrame L deltaTime i w.1,
        allProps_PropUpdate P L deltaTime i w.1 h hod hvel hfr htr hpos⟩
    | light l =>
      refine ⟨rfl, ?_⟩
      intro k p hk
      simp only [] at hk
      rw [propAt_modifyAt_nonprop w.1.mObjects i (Object.light l)
        (Object.light (Light.Update L rand w.1.mPaused deltaTime l w.2).1) ho rfl rfl k] at hk
      exact h k p hk
    | camera c =>
      refine ⟨rfl, ?_⟩
      intro k p hk
      simp only [] at hk
      rw [propAt_modifyAt_nonprop w.1.mObjects i (Object.camera c)
        (Object.camera (Camera.Update L wd ht w.1.mButtonMask w.1.mPrevMousePos
          w.1.mCurMousePos deltaTime c).camera) ho rfl rfl k] at hk
      exact h k p hk

theorem foldl_ObjectUpdate_invariant (P : PropObject K → Prop) (L : Libm K) (rand : ℕ → ℕ)
    (wd ht : ℤ) (deltaTime : K) (f : ℕ)
    (hod : ∀ p x, P p → P { p with mOverrideDist := x })
    (hvel : ∀ p, P p → P { p with mVelocityXZ := p.mVelocityXZ.neg })
    (hfr : ∀ p, P p → P { p with mUpdateFrame := f })
    (htr : ∀ p t, P p → P { p with mTransform := t })
    (hpos : ∀ p v, InFloor v → P p → P { p with mPosXZ := v })
    (is : List ℕ) (w : GameState K × ℕ) (hf : w.1.mFrame = f) (h : AllProps P w.1.mObjects) :
    (is.foldl (fun st i => ObjectUpdate L rand wd ht deltaTime i st) w).1.mFrame = f ∧
    AllProps P (is.foldl (fun st i => ObjectUpdate L rand wd ht deltaTime i st) w).1.mObjects := by
  induction is generalizing w with
  | nil => exact ⟨hf, h⟩
  | cons i rest ih =>
    have hstep := ObjectUpdate_invariant P L rand wd ht deltaTime i w h hod hvel
      (by rw [hf]; exact hfr) htr hpos
    simp only [List.foldl_cons]
    exact ih _ (by rw [hstep.1, hf]) hstep.2

/-- The update pass keeps the frame counter and every property of the props that survives
the writes of `Prop::Update`. -/
theorem updateObjects_invariant (P : PropObject K → Prop) (L : Libm K) (rand : ℕ → ℕ)
    (wd ht : ℤ) (deltaTime : K) (w : GameState K × ℕ)
    (hod : ∀ p x, P p → P { p with mOverrideDist := x })
    (hvel : ∀ p, P p → P { p with mVelocityXZ := p.mVelocityXZ.neg })
    (hfr : ∀ p, P p → P { p with mUpdateFrame := w.1.mFrame })
    (htr : ∀ p t, P p → P { p with mTransform := t })
    (hpos : ∀ p v, InFloor v → P p → P { p with mPosXZ := v })
    (h : AllProps P w.1.mObjects) :
    (updateObjects L rand wd ht deltaTime w).1.mFrame = w.1.mFrame ∧
    AllProps P (updateObjects L rand wd ht deltaTime w).1.mObjects :=
  foldl_ObjectUpdate_invariant P L rand wd ht deltaTime w.1.mFrame hod hvel hfr htr hpos _ w rfl h

theorem Update_mFrame (L : Libm K) (rand : ℕ → ℕ) (env : FrameEnv K) (m : Machine K) :
    (Update L rand env m).gs.mFrame = m.gs.mFrame :=
  (updateObjects_invariant (fun _ => True) L rand env.wd env.ht env.deltaTime _
    (fun _ _ _ => trivial) (fun _ _ => trivial) (fun _ _ => trivial) (fun _ _ _ => trivial)
    (fun _ _ _ _ => trivial) (fun _ _ _ => trivial)).1

/-- After `Update` no prop carries a mark greater than the frame counter. -/
theorem Update_marks (L : Libm K) (rand : ℕ → ℕ) (env : FrameEnv K) (m : Machine K)
    (h : AllProps (fun p => p.mUpdateFrame ≤ m.gs.mFrame) m.gs.mObjects) :
    AllProps (fun p => p.mUpdateFrame ≤ m.gs.mFrame) (Update L rand env m).gs.mObjects :=
  (updateObjects_invariant (fun p => p.mUpdateFrame ≤ m.gs.mFrame) L rand env.wd env.ht
    env.deltaTime _ (fun _ _ hp => hp) (fun _ hp => hp) (fun _ _ => le_refl _)
    (fun _ _ hp => hp) (fun _ _ _ hp => hp) h).2

theorem mainIteration_mFrame (L : Libm K) (rand : ℕ → ℕ) (env : FrameEnv K) (m : Machine K) :
    (mainIteration L rand env m).gs.mFrame = (m.gs.mFrame + 1) % 2 ^ 32 := by
  show ((Update L rand env m).gs.mFrame + 1) % 2 ^ 32 = _
  rw [Update_mFrame]

/-- The invariant of the main loop below the wrap of the counter: every mark is smaller
than the frame counter. -/
theorem mainIteration_marks (L : Libm K) (rand : ℕ → ℕ) (env : FrameEnv K) (m : Machine K)
    (hlt : m.gs.mFrame + 1 < 2 ^ 32)
    (h : AllProps (fun p => p.mUpdateFrame < m.gs.mFrame) m.gs.mObjects) :
    (mainIteration L rand env m).gs.mFrame = m.gs.mFrame + 1 ∧
    AllProps (fun p => p.mUpdateFrame < (mainIteration L rand env m).gs.mFrame)
      (mainIteration L rand env m).gs.mObjects := by
  have hf : (mainIteration L rand env m).gs.mFrame = m.gs.mFrame + 1 := by
    rw [mainIteration_mFrame, Nat.mod_eq_of_lt hlt]
  refine ⟨hf, ?_⟩
  rw [hf]
  have hle := Update_marks L rand env m (fun k p hk => Nat.le_of_lt (h k p hk))
  intro k p hk
  exact Nat.lt_succ_of_le (hle k p hk)

theorem runIterations_marks (L : Libm K) (rand : ℕ → ℕ) (envs : List (FrameEnv K))
    (m : Machine K) (hlt : m.gs.mFrame + envs.length < 2 ^ 32)
    (h : AllProps (fun p => p.mUpdateFrame < m.gs.mFrame) m.gs.mObjects) :
    (runIterations L rand envs m).gs.mFrame = m.gs.mFrame + envs.length ∧
    AllProps (fun p => p.mUpdateFrame < (runIterations L rand envs m).gs.mFrame)
      (runIterations L rand envs m).gs.mObjects := by
  induction envs generalizing m with
  | nil => exact ⟨rfl, h⟩
  | cons env rest ih =>
    simp only [List.length_cons] at hlt
    obtain ⟨hf, hm⟩ := mainIteration_marks L rand env m (by omega) h
    have := ih (mainIteration L rand env m) (by rw [hf]; omega) hm
    simp only [runIterations, List.length_cons]
    rw [hf] at this
    exact ⟨by rw [this.1]; omega, this.2⟩

/-- The loop of `main` runs the first iterations of `runIterations`. -/
theorem mainLoop_eq_runIterations (L : Libm K) (rand : ℕ → ℕ) (envs : List (FrameEnv K))
    (m : Machine K) :
    ∃ n, n ≤ envs.length ∧ mainLoop L rand envs m = runIterations L rand (envs.take n) m := by
  induction envs generalizing m with
  | nil => exact ⟨0, le_refl _, rfl⟩
  | cons env rest ih =>
    unfold mainLoop
    split_ifs with hc
    · exact ⟨0, Nat.zero_le _, rfl⟩
    · obtain ⟨n, hn, e⟩ := ih (mainIteration L rand env m)
      exact ⟨n + 1, by simp only [List.length_cons]; omega, by rw [e]; rfl⟩

theorem sceneAB_unmarked : AllProps (fun p => p.mUpdateFrame = 0) sceneAB.mObjects := by
  intro k p hk
  rcases k with _ | _ | k
  · have h0 : propAt sceneAB.mObjects 0 = some propA := rfl
    rw [h0] at hk
    cases hk
    rfl
  · have h1 : propAt sceneAB.mObjects 1 = some propB := rfl
    rw [h1] at hk
    cases hk
    rfl
  · simp [sceneAB, mkScene, propAt] at hk

/-! ## Lemmas on calls that write nothing -/

/-- A write that maps the element at position `i` to itself changes nothing. -/
theorem modifyAt_id {α : Type} (f : α → α) (l : List α) (i : ℕ)
    (h : ∀ a, l[i]? = some a → f a = a) : modifyAt f l i = l := by
  induction l generalizing i with
  | nil => rfl
  | cons a as ih =>
    cases i with
    | zero =>
      have e : f a = a := h a (by simp)
      simp only [modifyAt, e]
    | succ i =>
      have e : modifyAt f as i = as := ih i (fun b hb => h b (by simpa using hb))
      simp only [modifyAt, e]

/-- A write through a `Prop*` that stores the values already there changes nothing. -/
theorem modifyProp_id (gs : GameState K) (i : ℕ) (f : PropObject K → PropObject K)
    (h : ∀ A, propAt gs.mObjects i = some A → f A = A) : gs.modifyProp i f = gs := by
  unfold GameState.modifyProp
  have e : modifyAt (Object.mapProp f) gs.mObjects i = gs.mObjects := by
    apply modifyAt_id
    intro o ho
    cases o with
    | prop p =>
      have hp : propAt gs.mObjects i = some p := by
        unfold propAt
        rw [ho]
        rfl
      simp only [Object.mapProp, h p hp]
    | camera c => rfl
    | floor f => rfl
    | light l => rfl
  rw [e]

theorem modifyProp_mPaused (gs : GameState K) (i : ℕ) (f : PropObject K → PropObject K) :
    (gs.modifyProp i f).mPaused = gs.mPaused := rfl

theorem PropUpdate_mPaused (L : Libm K) (deltaTime : K) (self : ℕ) (gs : GameState K) :
    (PropUpdate L deltaTime self gs).mPaused = gs.mPaused := by
  unfold PropUpdate
  cases hme : propAt gs.mObjects self with
  | none => rfl
  | some me =>
    simp only []
    split_ifs with hp hf
    · rfl
    · rw [modifyProp_mPaused]
      rcases move_cases L deltaTime self me gs with ⟨_, e⟩ | ⟨_, _, e⟩ | ⟨_, _, j, _, _, e⟩ <;>
        rw [e] <;> rfl
    · rfl

/-- After an unpaused `Prop::Update` the updated prop carries the current frame as mark and
the world transform of its own fields. -/
theorem PropUpdate_self (L : Libm K) (deltaTime : K) (self : ℕ) (gs : GameState K)
    (A : PropObject K) (hA : propAt gs.mObjects self = some A) (hp : gs.mPaused = false) :
    ∃ A', propAt (PropUpdate L deltaTime self gs).mObjects self = some A' ∧
      A'.mUpdateFrame = gs.mFrame ∧ A'.mTransform = A'.worldTransform L ∧
      A'.mScale = A.mScale := by
  by_cases hf : A.mUpdateFrame = gs.mFrame
  · rw [PropUpdate_stale L deltaTime self gs A hA hp hf, propAt_modifyProp, if_pos rfl, hA]
    exact ⟨_, rfl, hf, rfl, rfl⟩
  · by_cases hin : InFloor (A.candidate deltaTime)
    · by_cases hfree : A.cooled deltaTime ≠ 0 ∨
          ∀ k, ¬ IsPeer L gs.mFrame self (A.candidate deltaTime) gs.mObjects k
      · rw [PropUpdate_free L deltaTime self gs A hA hp hf hin hfree, propAt_modifyProp,
          if_pos rfl, hA]
        exact ⟨_, rfl, rfl, rfl, rfl⟩
      · rw [not_or, not_not, not_forall] at hfree
        obtain ⟨hod, hex⟩ := hfree
        simp only [not_not] at hex
        obtain ⟨j, hj, hfirst⟩ := exists_first_peer L _ _ _ _ hex
        have hjs : j ≠ self := by
          obtain ⟨B, _, h, _⟩ := hj
          exact h
        rw [PropUpdate_peer L deltaTime self gs A hA hp hf hin hod j hj hfirst, propAt_modifyProp,
          if_neg hjs, propAt_modifyProp, if_pos rfl, hA]
        exact ⟨_, rfl, rfl, rfl, rfl⟩
    · rw [PropUpdate_wall L deltaTime self gs A hA hp hf hin, propAt_modifyProp, if_pos rfl, hA]
      exact ⟨_, rfl, rfl, rfl, rfl⟩

/-- A second call of `Prop::Update` in the same frame changes nothing. -/
theorem PropUpdate_idem (L : Libm K) (deltaTime deltaTime' : K) (self : ℕ) (gs : GameState K) :
    PropUpdate L deltaTime' self (PropUpdate L deltaTime self gs) = PropUpdate L deltaTime self gs := by
  cases hA : propAt gs.mObjects self with
  | none =>
    have e : PropUpdate L deltaTime self gs = gs := by
      unfold PropUpdate
      rw [hA]
    rw [e]
    unfold PropUpdate
    rw [hA]
  | some A =>
    cases hp : gs.mPaused with
    | true =>
      rw [PropUpdate_paused L deltaTime self gs hp, PropUpdate_paused L deltaTime' self gs hp]
    | false =>
      obtain ⟨A', hA', hfr, htr, _⟩ := PropUpdate_self L deltaTime self gs A hA hp
      have hp' : (PropUpdate L deltaTime self gs).mPaused = false := by
        rw [PropUpdate_mPaused, hp]
      have hf' : A'.mUpdateFrame = (PropUpdate L deltaTime self gs).mFrame := by
        rw [PropUpdate_mFrame, hfr]
      rw [PropUpdate_stale L deltaTime' self _ A' hA' hp' hf']
      apply modifyProp_id
      intro B hB
      rw [hA'] at hB
      cases hB
      cases A'
      simp only [] at htr
      simp only [← htr]

theorem modifyAt_self_const (objs : List (Object K)) (i : ℕ) (o : Object K)
    (ho : objs[i]? = some o) : modifyAt (fun _ => o) objs i = objs := by
  apply modifyAt_id
  intro a ha
  rw [ho] at ha
  cases ha
  rfl

/-! ## Lemmas on the camera angles, the pause key and the constructors -/

theorem Camera_Update_eq_compose (L : Libm K) (wd ht : ℤ) (buttonMask : ℕ)
    (prevMousePos curMousePos : Vec2 K) (deltaTime : K) (c : Camera K) :
    Camera.Update L wd ht buttonMask prevMousePos curMousePos deltaTime c =
      Camera.Update.compose L wd ht buttonMask deltaTime c
        ⟨glmMod (Camera.accumulatedYaw wd ht prevMousePos curMousePos c) 360,
         glmClamp (Camera.accumulatedPitch wd ht prevMousePos curMousePos c) (-90) 90⟩ := rfl

/-- The rotation built by `glm::rotate` is the same for the wrapped angle as for the
angle itself when `cos` and `sin` have the period of `360` degrees. -/
theorem rotate_glmMod (L : Libm K)
    (hcos : ∀ (a : K) (n : ℤ), L.cos (a - n * (360 * L.radPerDeg)) = L.cos a)
    (hsin : ∀ (a : K) (n : ℤ), L.sin (a - n * (360 * L.radPerDeg)) = L.sin a)
    (m : Mat4 K) (y : K) (v : Vec3 K) :
    rotate L m (radians L (glmMod y 360)) v = rotate L m (radians L y) v := by
  have e : radians L (glmMod y 360) = radians L y - (⌊y / 360⌋ : ℤ) * (360 * L.radPerDeg) := by
    unfold radians glmMod
    ring
  unfold rotate
  simp only [e, hcos, hsin]

theorem accumulatedYaw_eq (wd ht : ℤ) (prevMousePos curMousePos : Vec2 K) (c : Camera K)
    (hwd : 0 < wd) :
    Camera.accumulatedYaw wd ht prevMousePos curMousePos c =
      c.mPitchYaw.x + -90 * (curMousePos.x - prevMousePos.x) / (ht : K) := by
  have hw : (wd : K) ≠ 0 := by
    have : (0 : K) < (wd : K) := by exact_mod_cast hwd
    exact ne_of_gt this
  have hww : (wd : K) * (wd : K)⁻¹ = 1 := mul_inv_cancel₀ hw
  unfold Camera.accumulatedYaw
  simp only [Vec2.add, Vec2.sub, Vec2.div, Vec2.neg, Vec2.mul, div_eq_mul_inv]
  linear_combination (-(curMousePos.x - prevMousePos.x) * 90 * (ht : K)⁻¹) * hww

theorem accumulatedPitch_eq (wd ht : ℤ) (prevMousePos curMousePos : Vec2 K) (c : Camera K) :
    Camera.accumulatedPitch wd ht prevMousePos curMousePos c =
      c.mPitchYaw.y + -90 * (curMousePos.y - prevMousePos.y) / (ht : K) := by
  unfold Camera.accumulatedPitch
  simp only [Vec2.add, Vec2.sub, Vec2.div, Vec2.neg, Vec2.mul]
  congr 1
  ring

theorem ProcessInput_mPaused (inp : InputSample K) (m : Machine K) :
    (ProcessInput inp m).gs.mPaused =
      if m.gs.mPauseKey = true ∧ inp.keyP = false then !m.gs.mPaused else m.gs.mPaused := by
  show (if (!inp.keyP && m.gs.mPauseKey) = true then !m.gs.mPaused else m.gs.mPaused) = _
  cases inp.keyP <;> cases m.gs.mPauseKey <;> simp

theorem ProcessInput_mPauseKey (inp : InputSample K) (m : Machine K) :
    (ProcessInput inp m).gs.mPauseKey = inp.keyP := rfl

theorem pauseToggles_eq_releases (samples : List (InputSample K)) (m : Machine K) :
    pauseToggles samples m = releases m.gs.mPauseKey (samples.map (fun s => s.keyP)) := by
  induction samples generalizing m with
  | nil => rfl
  | cons s ss ih =>
    simp only [pauseToggles, List.map_cons, releases]
    rw [ih (ProcessInput s m), ProcessInput_mPauseKey, ProcessInput_mPaused]
    congr 1
    rcases Bool.eq_false_or_eq_true s.keyP with h1 | h1 <;>
      rcases Bool.eq_false_or_eq_true m.gs.mPauseKey with h2 | h2 <;>
      rcases Bool.eq_false_or_eq_true m.gs.mPaused with h3 | h3 <;>
      simp [h1, h2, h3]

theorem releases_held (prev : Bool) (ks : List Bool) (h : ∀ k ∈ ks, k = true) :
    releases prev ks = 0 := by
  induction ks generalizing prev with
  | nil => rfl
  | cons k ks ih =>
    have hk : k = true := h k (List.mem_cons_self _ _)
    subst hk
    simp only [releases]
    rw [ih true (fun k hk => h k (List.mem_cons_of_mem _ hk))]
    simp

theorem processInputs_held (samples : List (InputSample K)) (m : Machine K)
    (h : ∀ s ∈ samples, s.keyP = true) :
    (processInputs samples m).gs.mPaused = m.gs.mPaused := by
  induction samples generalizing m with
  | nil => rfl
  | cons s ss ih =>
    simp only [processInputs]
    rw [ih (ProcessInput s m) (fun s hs => h s (List.mem_cons_of_mem _ hs)), ProcessInput_mPaused,
      h s (List.mem_cons_self _ _)]
    simp

theorem modifyProp_mPauseKey (gs : GameState K) (i : ℕ) (f : PropObject K → PropObject K) :
    (gs.modifyProp i f).mPauseKey = gs.mPauseKey := rfl

theorem PropUpdate_mPauseKey (L : Libm K) (deltaTime : K) (self : ℕ) (gs : GameState K) :
    (PropUpdate L deltaTime self gs).mPauseKey = gs.mPauseKey := by
  unfold PropUpdate
  cases hme : propAt gs.mObjects self with
  | none => rfl
  | some me =>
    simp only []
    split_ifs with hp hf
    · rfl
    · rw [modifyProp_mPauseKey]
      rcases move_cases L deltaTime self me gs with ⟨_, e⟩ | ⟨_, _, e⟩ | ⟨_, _, j, _, _, e⟩ <;>
        rw [e] <;> rfl
    · rfl

/-- The virtual call `obj->Update` writes neither `mPaused` nor `mPauseKey`. -/
theorem ObjectUpdate_flags (L : Libm K) (rand : ℕ → ℕ) (wd ht : ℤ) (deltaTime : K) (i : ℕ)
    (w : GameState K × ℕ) :
    (ObjectUpdate L rand wd ht deltaTime i w).1.mPaused = w.1.mPaused ∧
    (ObjectUpdate L rand wd ht deltaTime i w).1.mPauseKey = w.1.mPauseKey := by
  unfold ObjectUpdate
  cases ho : w.1.mObjects[i]? with
  | none => exact ⟨rfl, rfl⟩
  | some o =>
    cases o with
    | floor f => exact ⟨rfl, rfl⟩
    | prop p => exact ⟨PropUpdate_mPaused L deltaTime i w.1, PropUpdate_mPauseKey L deltaTime i w.1⟩
    | light l => exact ⟨rfl, rfl⟩
    | camera c => exact ⟨rfl, rfl⟩

theorem foldl_ObjectUpdate_flags (L : Libm K) (rand : ℕ → ℕ) (wd ht : ℤ) (deltaTime : K)
    (is : List ℕ) (w : GameState K × ℕ) :
    (is.foldl (fun st i => ObjectUpdate L rand wd ht deltaTime i st) w).1.mPaused = w.1.mPaused ∧
    (is.foldl (fun st i => ObjectUpdate L rand wd ht deltaTime i st) w).1.mPauseKey
      = w.1.mPauseKey := by
  induction is generalizing w with
  | nil => exact ⟨rfl, rfl⟩
  | cons i rest ih =>
    simp only [List.foldl_cons]
    obtain ⟨h1, h2⟩ := ObjectUpdate_flags L rand wd ht deltaTime i w
    obtain ⟨g1, g2⟩ := ih (ObjectUpdate L rand wd ht deltaTime i w)
    exact ⟨by rw [g1, h1], by rw [g2, h2]⟩

theorem Update_flags (L : Libm K) (rand : ℕ → ℕ) (env : FrameEnv K) (m : Machine K) :
    (Update L rand env m).gs.mPaused = (ProcessInput env.input m).gs.mPaused ∧
    (Update L rand env m).gs.mPauseKey = (ProcessInput env.input m).gs.mPauseKey :=
  foldl_ObjectUpdate_flags L rand env.wd env.ht env.deltaTime _ _

theorem drawnDirection_eq_zero_iff (r0 r1 : ℕ) :
    Lesson3.drawnDirection K r0 r1 = ⟨0, 0⟩ ↔ r0 % 101 = 50 ∧ r1 % 101 = 50 := by
  have key : ∀ r : ℕ, -1 + (((r % 101 : ℕ) : K) / 100 * 2) = 0 ↔ r % 101 = 50 := by
    intro r
    constructor
    · intro h
      have h2 : ((r % 101 : ℕ) : K) = ((50 : ℕ) : K) := by
        push_cast
        linarith
      exact_mod_cast h2
    · intro h
      rw [h]
      norm_num
  unfold Lesson3.drawnDirection
  rw [Vec2.mk.injEq, key, key]

/-- With an exact square root, `glm::normalize` of a vector other than zero has length `1`. -/
theorem length2_normalize2 (L : Libm K)
    (hsqrt : ∀ x, 0 ≤ x → 0 ≤ L.sqrt x ∧ L.sqrt x * L.sqrt x = x) (v : Vec2 K)
    (hv : v ≠ ⟨0, 0⟩) : length2 L (normalize2 L v) = 1 := by
  have hd : 0 < Vec2.dot v v := by
    unfold Vec2.dot
    by_contra hle
    have hx : v.x * v.x = 0 := by nlinarith [mul_self_nonneg v.x, mul_self_nonneg v.y]
    have hy : v.y * v.y = 0 := by nlinarith [mul_self_nonneg v.x, mul_self_nonneg v.y]
    apply hv
    ext
    · exact mul_self_eq_zero.1 hx
    · exact mul_self_eq_zero.1 hy
  obtain ⟨hs0, hss⟩ := hsqrt _ (le_of_lt hd)
  have hsne : L.sqrt (Vec2.dot v v) ≠ 0 := by
    intro h0
    rw [h0] at hss
    simp only [mul_zero] at hss
    exact absurd hss (ne_of_lt hd)
  have e : Vec2.dot (normalize2 L v) (normalize2 L v) = 1 := by
    unfold normalize2 inversesqrt
    simp only [Vec2.smul]
    have : Vec2.dot (⟨v.x * (1 / L.sqrt (Vec2.dot v v)), v.y * (1 / L.sqrt (Vec2.dot v v))⟩ : Vec2 K)
        ⟨v.x * (1 / L.sqrt (Vec2.dot v v)), v.y * (1 / L.sqrt (Vec2.dot v v))⟩
        = Vec2.dot v v / (L.sqrt (Vec2.dot v v) * L.sqrt (Vec2.dot v v)) := by
      simp only [Vec2.dot]
      field_simp
    rw [this, hss]
    exact div_self (ne_of_gt hd)
  unfold length2
  rw [e]
  exact sqrt_one_of_spec L hsqrt

/-! ## Lemmas on the collision partner -/

/-- The move step of `Prop::Update` in terms of the locals `PropUpdate.scan`. -/
theorem move_eq_scan (L : Libm K) (deltaTime : K) (self : ℕ) (me : PropObject K)
    (gs : GameState K) :
    PropUpdate.move L deltaTime self me gs =
      (let scan := PropUpdate.scan L deltaTime self me gs
       let gs1 := gs.modifyProp self (fun p => { p with mOverrideDist := me.cooled deltaTime })
       let gs2 := if scan.hit then
           gs1.modifyProp self (fun p => { p with mOverrideDist := 1 / 2 })
         else gs1
       let gs3 :=
         if scan.collision then
           let gs21 := gs2.modifyProp self (fun p => { p with mVelocityXZ := p.mVelocityXZ.neg })
           match scan.prop with
           | some j =>
             let gs22 := gs21.modifyProp j (fun q => { q with mVelocityXZ := q.mVelocityXZ.neg })
             gs22.modifyProp self
               (fun p => { p with mOverrideDist := 1 / 2, mUpdateFrame := gs.mFrame })
           | none => gs21
         else
           gs2.modifyProp self (fun p => { p with mPosXZ := me.candidate deltaTime })
       gs3.modifyProp self (fun p => { p with mUpdateFrame := gs.mFrame })) := rfl

theorem scan_eq (L : Libm K) (deltaTime : K) (self : ℕ) (me : PropObject K)
    (gs : GameState K) :
    PropUpdate.scan L deltaTime self me gs =
      if !hitsWall (me.candidate deltaTime) ∧ me.cooled deltaTime = 0 then
        scanPeers L gs.mFrame self (me.candidate deltaTime)
          (gs.modifyProp self
            (fun p => { p with mOverrideDist := me.cooled deltaTime })).mObjects 0
          (hitsWall (me.candidate deltaTime)) none
      else ⟨hitsWall (me.candidate deltaTime), none, false⟩ := rfl

/-- The three outcomes of the wall test and the peer scan. -/
theorem scan_cases (L : Libm K) (deltaTime : K) (self : ℕ) (me : PropObject K)
    (gs : GameState K) :
    (hitsWall (me.candidate deltaTime) = true ∧
      PropUpdate.scan L deltaTime self me gs = ⟨true, none, false⟩) ∨
    (hitsWall (me.candidate deltaTime) = false ∧
      (me.cooled deltaTime ≠ 0 ∨
        ∀ k, ¬ IsPeer L gs.mFrame self (me.candidate deltaTime) gs.mObjects k) ∧
      (PropUpdate.scan L deltaTime self me gs).collision = false) ∨
    (hitsWall (me.candidate deltaTime) = false ∧ me.cooled deltaTime = 0 ∧
      ∃ j, IsPeer L gs.mFrame self (me.candidate deltaTime) gs.mObjects j ∧
        (∀ k, k < j → ¬ IsPeer L gs.mFrame self (me.candidate deltaTime) gs.mObjects k) ∧
        PropUpdate.scan L deltaTime self me gs = ⟨true, some j, true⟩) := by
  rw [scan_eq]
  cases hwall : hitsWall (me.candidate deltaTime)
  · right
    by_cases hod : me.cooled deltaTime = 0
    · rw [if_pos ⟨rfl, hod⟩]
      rcases scanPeers_zero L gs.mFrame self (me.candidate deltaTime)
          (gs.modifyProp self
            (fun p => { p with mOverrideDist := me.cooled deltaTime })).mObjects
        with ⟨j, h1, h2, h3⟩ | ⟨h1, h2⟩
      · right
        refine ⟨rfl, hod, j, (isPeer_modifyProp_self L gs self _ _ _ j).1 h2, ?_, h1⟩
        intro k hk hk'
        exact h3 k hk ((isPeer_modifyProp_self L gs self _ _ _ k).2 hk')
      · left
        refine ⟨rfl, Or.inr ?_, ?_⟩
        · intro k hk
          exact h2 k ((isPeer_modifyProp_self L gs self _ _ _ k).2 hk)
        · rw [h1]
    · left
      refine ⟨rfl, Or.inl hod, ?_⟩
      rw [if_neg (fun h => hod h.2)]
  · left
    refine ⟨rfl, ?_⟩
    rw [if_neg (fun h => by simp at h)]

/-- A call that selects the partner `j`: the scene is not paused, the prop is not yet
updated, its candidate is on the floor, no cooldown is left, and `j` is the first peer in
reach. -/
theorem partner_some (L : Libm K) (deltaTime : K) (self : ℕ) (gs : GameState K) (j : ℕ)
    (h : PropUpdate.partner L deltaTime self gs = some j) :
    ∃ A, propAt gs.mObjects self = some A ∧ gs.mPaused = false ∧ A.mUpdateFrame ≠ gs.mFrame ∧
      InFloor (A.candidate deltaTime) ∧ A.cooled deltaTime = 0 ∧
      IsPeer L gs.mFrame self (A.candidate deltaTime) gs.mObjects j ∧
      ∀ k, k < j → ¬ IsPeer L gs.mFrame self (A.candidate deltaTime) gs.mObjects k := by
  unfold PropUpdate.partner at h
  cases hA : propAt gs.mObjects self with
  | none =>
    rw [hA] at h
    cases h
  | some A =>
    rw [hA] at h
    simp only [] at h
    cases hp : gs.mPaused with
    | true =>
      rw [hp] at h
      simp at h
    | false =>
      rw [hp] at h
      by_cases hf : A.mUpdateFrame = gs.mFrame
      · simp [hf] at h
      · simp only [Bool.false_eq_true, if_false, ne_eq, hf, not_false_eq_true, if_true] at h
        rcases scan_cases L deltaTime self A gs with
          ⟨hw, e⟩ | ⟨hw, hfree, e⟩ | ⟨hw, hod, j', hj, hfirst, e⟩
        · rw [e] at h
          simp at h
        · rw [e] at h
          simp at h
        · rw [e] at h
          simp only [if_true, Option.some.injEq] at h
          subst h
          exact ⟨A, rfl, rfl, hf, (hitsWall_eq_false_iff _).1 hw, hod, hj, hfirst⟩

/-- The converse of `partner_some`. -/
theorem partner_of_peer (L : Libm K) (deltaTime : K) (self : ℕ) (gs : GameState K)
    (A : PropObject K) (hA : propAt gs.mObjects self = some A) (hp : gs.mPaused = false)
    (hf : A.mUpdateFrame ≠ gs.mFrame) (hin : InFloor (A.candidate deltaTime))
    (hod : A.cooled deltaTime = 0) (j : ℕ)
    (hj : IsPeer L gs.mFrame self (A.candidate deltaTime) gs.mObjects j)
    (hfirst : ∀ k, k < j → ¬ IsPeer L gs.mFrame self (A.candidate deltaTime) gs.mObjects k) :
    PropUpdate.partner L deltaTime self gs = some j := by
  unfold PropUpdate.partner
  rw [hA]
  simp only [hp, Bool.false_eq_true, if_false, ne_eq, hf, not_false_eq_true, if_true]
  rcases scan_cases L deltaTime self A gs with
    ⟨hw, _⟩ | ⟨_, hfree, _⟩ | ⟨_, _, j', hj', hfirst', e⟩
  · exact absurd hin ((hitsWall_eq_true_iff _).1 hw)
  · rcases hfree with h | h
    · exact absurd hod h
    · exact absurd hj (h j)
  · rw [e, first_peer_unique L gs.mFrame self _ gs.mObjects j j' hj hfirst hj' hfirst']
    rfl

theorem partner_eq_none (L : Libm K) (deltaTime : K) (self : ℕ) (gs : GameState K)
    (h : ∀ j, PropUpdate.partner L deltaTime self gs ≠ some j) :
    PropUpdate.partner L deltaTime self gs = none := by
  cases hpar : PropUpdate.partner L deltaTime self gs with
  | none => rfl
  | some j => exact absurd hpar (h j)

/-- The whole effect of `Prop::Update`: writes to the updated prop, and the negation of
the velocity of the partner when there is one. -/
theorem PropUpdate_shape (L : Libm K) (deltaTime : K) (self : ℕ) (gs : GameState K) :
    ∃ f : PropObject K → PropObject K,
      PropUpdate L deltaTime self gs =
        match PropUpdate.partner L deltaTime self gs with
        | none => gs.modifyProp self f
        | some j => (gs.modifyProp self f).modifyProp j
            (fun q => { q with mVelocityXZ := q.mVelocityXZ.neg }) := by
  cases hA : propAt gs.mObjects self with
  | none =>
    have hpar : PropUpdate.partner L deltaTime self gs = none := by
      unfold PropUpdate.partner
      rw [hA]
    have e : PropUpdate L deltaTime self gs = gs := by
      unfold PropUpdate
      rw [hA]
    refine ⟨id, ?_⟩
    rw [hpar, e]
    exact (modifyProp_id gs self id (fun _ _ => rfl)).symm
  | some A =>
    cases hp : gs.mPaused with
    | true =>
      have hpar : PropUpdate.partner L deltaTime self gs = none := by
        apply partner_eq_none
        intro j hj
        obtain ⟨_, _, hp', _⟩ := partner_some L deltaTime self gs j hj
        rw [hp] at hp'
        cases hp'
      refine ⟨id, ?_⟩
      rw [hpar, PropUpdate_paused L deltaTime self gs hp]
      exact (modifyProp_id gs self id (fun _ _ => rfl)).symm
    | false =>
      by_cases hf : A.mUpdateFrame = gs.mFrame
      · have hpar : PropUpdate.partner L deltaTime self gs = none := by
          apply partner_eq_none
          intro j hj
          obtain ⟨A', hA', _, hf', _⟩ := partner_some L deltaTime self gs j hj
          rw [hA] at hA'
          cases hA'
          exact hf' hf
        refine ⟨(fun p => { p with mTransform := p.worldTransform L }), ?_⟩
        rw [hpar, PropUpdate_stale L deltaTime self gs A hA hp hf]
      · by_cases hin : InFloor (A.candidate deltaTime)
        · by_cases hfree : A.cooled deltaTime ≠ 0 ∨
              ∀ k, ¬ IsPeer L gs.mFrame self (A.candidate deltaTime) gs.mObjects k
          · have hpar : PropUpdate.partner L deltaTime self gs = none := by
              apply partner_eq_none
              intro j hj
              obtain ⟨A', hA', _, _, _, hod, hj', _⟩ := partner_some L deltaTime self gs j hj
              rw [hA] at hA'
              cases hA'
              rcases hfree with h | h
              · exact h hod
              · exact h j hj'
            refine ⟨fun p =>
              { p with mOverrideDist := A.cooled deltaTime
                       mPosXZ := A.candidate deltaTime
                       mUpdateFrame := gs.mFrame
                       mTransform := PropObject.worldTransform L
                         { p with mOverrideDist := A.cooled deltaTime
                                  mPosXZ := A.candidate deltaTime
                                  mUpdateFrame := gs.mFrame } }, ?_⟩
            rw [hpar, PropUpdate_free L deltaTime self gs A hA hp hf hin hfree]
          · rw [not_or, not_not, not_forall] at hfree
            obtain ⟨hod, hex⟩ := hfree
            simp only [not_not] at hex
            obtain ⟨j, hj, hfirst⟩ := exists_first_peer L _ _ _ _ hex
            refine ⟨fun p =>
              { p with mOverrideDist := 1 / 2
                       mVelocityXZ := p.mVelocityXZ.neg
                       mUpdateFrame := gs.mFrame
                       mTransform := PropObject.worldTransform L
                         { p with mOverrideDist := 1 / 2
                                  mVelocityXZ := p.mVelocityXZ.neg
                                  mUpdateFrame := gs.mFrame } }, ?_⟩
            rw [partner_of_peer L deltaTime self gs A hA hp hf hin hod j hj hfirst,
              PropUpdate_peer L deltaTime self gs A hA hp hf hin hod j hj hfirst]
        · have hpar : PropUpdate.partner L deltaTime self gs = none := by
            apply partner_eq_none
            intro j hj
            obtain ⟨A', hA', _, _, hin', _⟩ := partner_some L deltaTime self gs j hj
            rw [hA] at hA'
            cases hA'
            exact hin hin'
          refine ⟨fun p =>
            { p with mOverrideDist := A.cooled deltaTime
                     mVelocityXZ := p.mVelocityXZ.neg
                     mUpdateFrame := gs.mFrame
                     mTransform := PropObject.worldTransform L
                       { p with mOverrideDist := A.cooled deltaTime
                                mVelocityXZ := p.mVelocityXZ.neg
                                mUpdateFrame := gs.mFrame } }, ?_⟩
          rw [hpar, PropUpdate_wall L deltaTime self gs A hA hp hf hin]

/-- A call of `Prop::Update` leaves every object other than the updated prop and the
partner as it is. -/
theorem PropUpdate_getElem?_other (L : Libm K) (deltaTime : K) (self : ℕ) (gs : GameState K)
    (k : ℕ) (hk : k ≠ self) (hpar : PropUpdate.partner L deltaTime self gs ≠ some k) :
    (PropUpdate L deltaTime self gs).mObjects[k]? = gs.mObjects[k]? := by
  obtain ⟨f, e⟩ := PropUpdate_shape L deltaTime self gs
  rw [e]
  cases hp : PropUpdate.partner L deltaTime self gs with
  | none => exact getElem?_modifyProp_ne gs self k f hk
  | some j =>
    have hkj : k ≠ j := fun h => hpar (by rw [hp, h])
    simp only []
    rw [getElem?_modifyProp_ne _ j k _ hkj, getElem?_modifyProp_ne gs self k f hk]

/-- A call of `Prop::Update` writes at most the velocity of a prop other than the updated
one. -/
theorem PropUpdate_propAt_other (L : Libm K) (deltaTime : K) (self : ℕ) (gs : GameState K)
    (k : ℕ) (hk : k ≠ self) (q : PropObject K) (hq : propAt gs.mObjects k = some q) :
    ∃ v, propAt (PropUpdate L deltaTime self gs).mObjects k = some { q with mVelocityXZ := v } := by
  obtain ⟨f, e⟩ := PropUpdate_shape L deltaTime self gs
  rw [e]
  cases hp : PropUpdate.partner L deltaTime self gs with
  | none =>
    simp only []
    rw [propAt_modifyProp, if_neg (fun h => hk h.symm), hq]
    exact ⟨q.mVelocityXZ, rfl⟩
  | some j =>
    simp only []
    by_cases hjk : j = k
    · rw [propAt_modifyProp, if_pos hjk, propAt_modifyProp, if_neg (fun h => hk h.symm), hq]
      exact ⟨q.mVelocityXZ.neg, rfl⟩
    · rw [propAt_modifyProp, if_neg hjk, propAt_modifyProp, if_neg (fun h => hk h.symm), hq]
      exact ⟨q.mVelocityXZ, rfl⟩

theorem PropUpdate_propAt_none (L : Libm K) (deltaTime : K) (self : ℕ) (gs : GameState K)
    (k : ℕ) (hq : propAt gs.mObjects k = none) :
    propAt (PropUpdate L deltaTime self gs).mObjects k = none := by
  obtain ⟨f, e⟩ := PropUpdate_shape L deltaTime self gs
  rw [e]
  cases hp : PropUpdate.partner L deltaTime self gs with
  | none =>
    simp only []
    rw [propAt_modifyProp, hq]
    simp
  | some j =>
    simp only []
    rw [propAt_modifyProp, propAt_modifyProp, hq]
    simp

/-- A prop that carries the mark of the current frame is not touched by the update of
another prop. -/
theorem PropUpdate_marked_other (L : Libm K) (deltaTime : K) (self : ℕ) (gs : GameState K)
    (k : ℕ) (hk : k ≠ self) (q : PropObject K) (hq : propAt gs.mObjects k = some q)
    (hm : q.mUpdateFrame = gs.mFrame) :
    propAt (PropUpdate L deltaTime self gs).mObjects k = some q := by
  have hpar : PropUpdate.partner L deltaTime self gs ≠ some k := by
    intro h
    obtain ⟨_, _, _, _, _, _, ⟨B, hB, _, hBf, _⟩, _⟩ := partner_some L deltaTime self gs k h
    rw [hq] at hB
    cases hB
    exact hBf hm
  unfold propAt
  rw [PropUpdate_getElem?_other L deltaTime self gs k hk hpar]
  exact hq

theorem modifyAt_length {α : Type} (f : α → α) (l : List α) (i : ℕ) :
    (modifyAt f l i).length = l.length := by
  induction l generalizing i with
  | nil => rfl
  | cons a as ih =>
    cases i with
    | zero => rfl
    | succ i => simp only [modifyAt, List.length_cons, ih]

theorem PropUpdate_length (L : Libm K) (deltaTime : K) (self : ℕ) (gs : GameState K) :
    (PropUpdate L deltaTime self gs).mObjects.length = gs.mObjects.length := by
  obtain ⟨f, e⟩ := PropUpdate_shape L deltaTime self gs
  rw [e]
  cases hp : PropUpdate.partner L deltaTime self gs with
  | none => exact modifyAt_length _ _ _
  | some j =>
    simp only []
    unfold GameState.modifyProp
    simp only [modifyAt_length]

/-! ## Lemmas on the distance tests of the peer scan -/

theorem scanTested_mem (L : Libm K) (frame self : ℕ) (newPos : Vec2 K)
    (objs : List (Object K)) (j k : ℕ) (h : k ∈ scanTested L frame self newPos objs j) :
    j ≤ k ∧ k ≠ self ∧ ∃ B, propAt objs (k - j) = some B ∧ B.mUpdateFrame ≠ frame := by
  induction objs generalizing j with
  | nil => simp [scanTested] at h
  | cons obj rest ih =>
    have hrec : k ∈ scanTested L frame self newPos rest (j + 1) →
        j ≤ k ∧ k ≠ self ∧ ∃ B, propAt (obj :: rest) (k - j) = some B ∧ B.mUpdateFrame ≠ frame := by
      intro h'
      obtain ⟨h1, h2, B, hB, hf⟩ := ih (j + 1) h'
      refine ⟨by omega, h2, B, ?_, hf⟩
      have e : k - j = (k - (j + 1)) + 1 := by omega
      rw [e, propAt_cons_succ]
      exact hB
    unfold scanTested at h
    cases ho : obj.asProp with
    | none =>
      rw [ho] at h
      exact hrec h
    | some p =>
      rw [ho] at h
      simp only [] at h
      have hhead : j ≤ j ∧ (j ≠ self ∧ p.mUpdateFrame ≠ frame →
          j ≠ self ∧ ∃ B, propAt (obj :: rest) (j - j) = some B ∧ B.mUpdateFrame ≠ frame) := by
        refine ⟨le_refl _, fun hc => ⟨hc.1, p, ?_, hc.2⟩⟩
        rw [Nat.sub_self, propAt_cons_zero, ho]
      split_ifs at h with hc hd
      · rw [List.mem_singleton] at h
        subst h
        exact ⟨hhead.1, hhead.2 hc⟩
      · rcases List.mem_cons.1 h with h | h
        · subst h
          exact ⟨hhead.1, hhead.2 hc⟩
        · exact hrec h
      · exact hrec h

/-- The peer scan evaluates the distance test for strictly increasing indices: no object
is tested twice in one scan. -/
theorem scanTested_pairwise (L : Libm K) (frame self : ℕ) (newPos : Vec2 K)
    (objs : List (Object K)) (j : ℕ) :
    (scanTested L frame self newPos objs j).Pairwise (fun a b => a < b) := by
  induction objs generalizing j with
  | nil => exact List.Pairwise.nil
  | cons obj rest ih =>
    unfold scanTested
    cases ho : obj.asProp with
    | none => exact ih (j + 1)
    | some p =>
      simp only []
      split_ifs with hc hd
      · exact List.pairwise_singleton _ _
      · refine List.Pairwise.cons ?_ (ih (j + 1))
        intro k hk
        have := (scanTested_mem L frame self newPos rest (j + 1) k hk).1
        omega
      · exact ih (j + 1)

/-- When the peer scan is left through `break`, the object `prop` points to is one of the
tested ones. -/
theorem scanPeers_hit_mem (L : Libm K) (frame self : ℕ) (newPos : Vec2 K)
    (objs : List (Object K)) (j : ℕ) (c : Bool) (p : Option ℕ) (k : ℕ)
    (h : scanPeers L frame self newPos objs j c p = ⟨true, some k, true⟩) :
    k ∈ scanTested L frame self newPos objs j := by
  induction objs generalizing j c p with
  | nil =>
    unfold scanPeers at h
    simp at h
  | cons obj rest ih =>
    unfold scanPeers at h
    unfold scanTested
    cases ho : obj.asProp with
    | none =>
      rw [ho] at h
      exact ih (j + 1) c none h
    | some q =>
      rw [ho] at h
      simp only [] at h ⊢
      split_ifs at h ⊢ with hc hd
      · simp only [ScanLocals.mk.injEq, Option.some.injEq, true_and, and_true] at h
        rw [h]
        exact List.mem_singleton.2 rfl
      · exact List.mem_cons_of_mem _ (ih (j + 1) false (some j) h)
      · exact ih (j + 1) c (some j) h

theorem tested_eq (L : Libm K) (deltaTime : K) (self : ℕ) (gs : GameState K)
    (A : PropObject K) (hA : propAt gs.mObjects self = some A) (hp : gs.mPaused = false)
    (hf : A.mUpdateFrame ≠ gs.mFrame) :
    PropUpdate.tested L deltaTime self gs =
      if !hitsWall (A.candidate deltaTime) ∧ A.cooled deltaTime = 0 then
        scanTested L gs.mFrame self (A.candidate deltaTime)
          (gs.modifyProp self
            (fun p => { p with mOverrideDist := A.cooled deltaTime })).mObjects 0
      else [] := by
  unfold PropUpdate.tested
  rw [hA]
  simp only [hp, Bool.false_eq_true, if_false, ne_eq, hf, not_false_eq_true, if_true]
  rfl

/-- A call of `Prop::Update` evaluates the distance test only in an unpaused scene and
only against props other than the updated one that do not carry the mark of the frame. -/
theorem tested_mem (L : Libm K) (deltaTime : K) (self : ℕ) (gs : GameState K) (k : ℕ)
    (h : k ∈ PropUpdate.tested L deltaTime self gs) :
    gs.mPaused = false ∧ k ≠ self ∧
      ∃ B, propAt gs.mObjects k = some B ∧ B.mUpdateFrame ≠ gs.mFrame := by
  cases hA : propAt gs.mObjects self with
  | none =>
    unfold PropUpdate.tested at h
    rw [hA] at h
    simp at h
  | some A =>
    cases hp : gs.mPaused with
    | true =>
      unfold PropUpdate.tested at h
      rw [hA] at h
      simp [hp] at h
    | false =>
      by_cases hf : A.mUpdateFrame = gs.mFrame
      · unfold PropUpdate.tested at h
        rw [hA] at h
        simp [hp, hf] at h
      · rw [tested_eq L deltaTime self gs A hA hp hf] at h
        split_ifs at h with hc
        · obtain ⟨_, h2, B, hB, hBf⟩ := scanTested_mem L _ _ _ _ 0 k h
          rw [Nat.sub_zero, propAt_modifyProp, if_neg (fun e => h2 e.symm)] at hB
          exact ⟨rfl, h2, B, hB, hBf⟩
        · simp at h

theorem tested_pairwise (L : Libm K) (deltaTime : K) (self : ℕ) (gs : GameState K) :
    (PropUpdate.tested L deltaTime self gs).Pairwise (fun a b => a < b) := by
  cases hA : propAt gs.mObjects self with
  | none =>
    unfold PropUpdate.tested
    rw [hA]
    exact List.Pairwise.nil
  | some A =>
    cases hp : gs.mPaused with
    | true =>
      unfold PropUpdate.tested
      rw [hA]
      simp only [hp, if_true]
      exact List.Pairwise.nil
    | false =>
      by_cases hf : A.mUpdateFrame = gs.mFrame
      · unfold PropUpdate.tested
        rw [hA]
        simp only [hp, Bool.false_eq_true, if_false, ne_eq, hf, not_true_eq_false]
        exact List.Pairwise.nil
      · rw [tested_eq L deltaTime self gs A hA hp hf]
        split_ifs with hc
        · exact scanTested_pairwise L _ _ _ _ 0
        · exact List.Pairwise.nil

/-- The collision partner is one of the props against which the distance test was
evaluated. -/
theorem partner_mem_tested (L : Libm K) (deltaTime : K) (self : ℕ) (gs : GameState K) (j : ℕ)
    (h : PropUpdate.partner L deltaTime self gs = some j) :
    j ∈ PropUpdate.tested L deltaTime self gs := by
  obtain ⟨A, hA, hp, hf, hin, hod, hj, hfirst⟩ := partner_some L deltaTime self gs j h
  rw [tested_eq L deltaTime self gs A hA hp hf,
    if_pos ⟨by rw [(hitsWall_eq_false_iff _).2 hin]; rfl, hod⟩]
  exact scanPeers_hit_mem L _ _ _ _ 0 false none j
    (scanPeers_first L deltaTime self gs A (A.cooled deltaTime) j hj hfirst)

/-! ## Lemmas on the update pass -/

theorem updatePrefix_succ (L : Libm K) (rand : ℕ → ℕ) (wd ht : ℤ) (deltaTime : K) (n : ℕ)
    (w : GameState K × ℕ) :
    updatePrefix L rand wd ht deltaTime (n + 1) w =
      ObjectUpdate L rand wd ht deltaTime n (updatePrefix L rand wd ht deltaTime n w) := by
  unfold updatePrefix
  rw [List.range_succ, List.foldl_append]
  rfl

theorem updateObjects_eq_updatePrefix (L : Libm K) (rand : ℕ → ℕ) (wd ht : ℤ) (deltaTime : K)
    (w : GameState K × ℕ) :
    updateObjects L rand wd ht deltaTime w =
      updatePrefix L rand wd ht deltaTime w.1.mObjects.length w := rfl

/-- The virtual call on an object that is not a prop leaves every prop as it is. -/
theorem ObjectUpdate_nonprop (L : Libm K) (rand : ℕ → ℕ) (wd ht : ℤ) (deltaTime : K) (i : ℕ)
    (w : GameState K × ℕ) (h : propAt w.1.mObjects i = none) (k : ℕ) :
    propAt (ObjectUpdate L rand wd ht deltaTime i w).1.mObjects k = propAt w.1.mObjects k := by
  unfold ObjectUpdate
  cases ho : w.1.mObjects[i]? with
  | none => rfl
  | some o =>
    cases o with
    | floor f => rfl
    | prop p =>
      unfold propAt at h
      rw [ho] at h
      cases h
    | light l =>
      exact propAt_modifyAt_nonprop w.1.mObjects i (Object.light l)
        (Object.light (Light.Update L rand w.1.mPaused deltaTime l w.2).1) ho rfl rfl k
    | camera c =>
      exact propAt_modifyAt_nonprop w.1.mObjects i (Object.camera c)
        (Object.camera (Camera.Update L wd ht w.1.mButtonMask w.1.mPrevMousePos
          w.1.mCurMousePos deltaTime c).camera) ho rfl rfl k

theorem ObjectUpdate_length (L : Libm K) (rand : ℕ → ℕ) (wd ht : ℤ) (deltaTime : K) (i : ℕ)
    (w : GameState K × ℕ) :
    (ObjectUpdate L rand wd ht deltaTime i w).1.mObjects.length = w.1.mObjects.length := by
  unfold ObjectUpdate
  cases ho : w.1.mObjects[i]? with
  | none => rfl
  | some o =>
    cases o with
    | floor f => rfl
    | prop p => exact PropUpdate_length L deltaTime i w.1
    | light l => exact modifyAt_length _ _ _
    | camera c => exact modifyAt_length _ _ _

theorem ObjectUpdate_frame (L : Libm K) (rand : ℕ → ℕ) (wd ht : ℤ) (deltaTime : K) (i : ℕ)
    (w : GameState K × ℕ) :
    (ObjectUpdate L rand wd ht deltaTime i w).1.mFrame = w.1.mFrame :=
  (ObjectUpdate_invariant (fun _ => True) L rand wd ht deltaTime i w (fun _ _ _ => trivial)
    (fun _ _ _ => trivial) (fun _ _ => trivial) (fun _ _ => trivial) (fun _ _ _ => trivial)
    (fun _ _ _ _ => trivial)).1

theorem propAt_lt_length (objs : List (Object K)) (k : ℕ) (p : PropObject K)
    (h : propAt objs k = some p) : k < objs.length := by
  unfold propAt at h
  by_contra hk
  rw [List.getElem?_eq_none (by omega)] at h
  cases h

/-- The invariant of an unpaused update pass: frame counter, pause flag and number of
objects stay as they are, and every prop among the objects already updated carries the mark
of the frame and the world transform of its own fields. -/
theorem updatePrefix_inv (L : Libm K) (rand : ℕ → ℕ) (wd ht : ℤ) (deltaTime : K)
    (w : GameState K × ℕ) (hp : w.1.mPaused = false) (n : ℕ) :
    (updatePrefix L rand wd ht deltaTime n w).1.mFrame = w.1.mFrame ∧
    (updatePrefix L rand wd ht deltaTime n w).1.mPaused = false ∧
    (updatePrefix L rand wd ht deltaTime n w).1.mObjects.length = w.1.mObjects.length ∧
    ∀ k, k < n → ∀ p, propAt (updatePrefix L rand wd ht deltaTime n w).1.mObjects k = some p →
      p.mUpdateFrame = w.1.mFrame ∧ p.mTransform = p.worldTransform L := by
  induction n with
  | zero => exact ⟨rfl, hp, rfl, fun k hk => absurd hk (Nat.not_lt_zero k)⟩
  | succ n ih =>
    obtain ⟨hfr, hpa, hlen, hmk⟩ := ih
    rw [updatePrefix_succ]
    refine ⟨by rw [ObjectUpdate_frame, hfr], by rw [(ObjectUpdate_flags _ _ _ _ _ _ _).1, hpa],
      by rw [ObjectUpdate_length, hlen], ?_⟩
    intro k hk p hkp
    cases hA : propAt (updatePrefix L rand wd ht deltaTime n w).1.mObjects n with
    | none =>
      rw [ObjectUpdate_nonprop L rand wd ht deltaTime n _ hA k] at hkp
      by_cases hkn : k = n
      · rw [hkn, hA] at hkp
        cases hkp
      · exact hmk k (by omega) p hkp
    | some A =>
      rw [ObjectUpdate_prop L rand wd ht deltaTime n _ A hA] at hkp
      simp only [] at hkp
      by_cases hkn : k = n
      · obtain ⟨A', hA', h1, h2, _⟩ := PropUpdate_self L deltaTime n _ A hA hpa
        rw [hkn, hA'] at hkp
        cases hkp
        exact ⟨by rw [h1, hfr], h2⟩
      · cases hq : propAt (updatePrefix L rand wd ht deltaTime n w).1.mObjects k with
        | none =>
          rw [PropUpdate_propAt_none L deltaTime n _ k hq] at hkp
          cases hkp
        | some q =>
          obtain ⟨h1, h2⟩ := hmk k (by omega) q hq
          rw [PropUpdate_marked_other L deltaTime n _ k hkn q hq (by rw [h1, hfr])] at hkp
          cases hkp
          exact ⟨h1, h2⟩

theorem updatePrefix_mPaused (L : Libm K) (rand : ℕ → ℕ) (wd ht : ℤ) (deltaTime : K)
    (w : GameState K × ℕ) (n : ℕ) :
    (updatePrefix L rand wd ht deltaTime n w).1.mPaused = w.1.mPaused :=
  (foldl_ObjectUpdate_flags L rand wd ht deltaTime _ w).1

/-- In an update pass, a prop against which the call on object `i` evaluates the distance
test comes after `i` in the container. -/
theorem tested_later (L : Libm K) (rand : ℕ → ℕ) (wd ht : ℤ) (deltaTime : K)
    (w : GameState K × ℕ) (i j : ℕ)
    (h : j ∈ PropUpdate.tested L deltaTime i (updatePrefix L rand wd ht deltaTime i w).1) :
    i < j := by
  obtain ⟨hpa, hji, B, hB, hBf⟩ := tested_mem L deltaTime i _ j h
  have hp : w.1.mPaused = false := by
    rw [← updatePrefix_mPaused L rand wd ht deltaTime w i]
    exact hpa
  obtain ⟨hfr, _, _, hmk⟩ := updatePrefix_inv L rand wd ht deltaTime w hp i
  by_contra hlt
  have hj : j < i := by omega
  exact hBf (by rw [(hmk j hj B hB).1, hfr])

theorem sceneWall_no_partner (deltaTime : ℚ) :
    PropUpdate.partner ratLibm deltaTime 0 sceneWall = none := by
  apply partner_eq_none
  intro j hj
  obtain ⟨_, _, _, _, _, _, ⟨B, hB, hne, _⟩, _⟩ := partner_some ratLibm deltaTime 0 sceneWall j hj
  rcases j with _ | j
  · exact hne rfl
  · simp [sceneWall, mkScene, propAt] at hB

theorem sceneAB_partner : PropUpdate.partner ratLibm (1 / 25) 0 sceneAB = some 1 :=
  partner_of_peer ratLibm (1 / 25) 0 sceneAB propA rfl rfl (by decide) propA_candidate_inFloor
    propA_cooled 1 sceneAB_peer sceneAB_first

/-! ## Lemmas on the cooldown over several iterations of the main loop -/

theorem mainIteration_mObjects (L : Libm K) (rand : ℕ → ℕ) (env : FrameEnv K) (m : Machine K) :
    (mainIteration L rand env m).gs.mObjects =
      (updateObjects L rand env.wd env.ht env.deltaTime (passStart env m)).1.mObjects := rfl

theorem passStart_mObjects (env : FrameEnv K) (m : Machine K) :
    (passStart env m).1.mObjects = m.gs.mObjects := rfl

/-- The update of another object writes at most the velocity of a prop. -/
theorem ObjectUpdate_other (L : Libm K) (rand : ℕ → ℕ) (wd ht : ℤ) (deltaTime : K) (i a : ℕ)
    (w : GameState K × ℕ) (hia : i ≠ a) (A : PropObject K)
    (hA : propAt w.1.mObjects a = some A) :
    ∃ v, propAt (ObjectUpdate L rand wd ht deltaTime i w).1.mObjects a
      = some { A with mVelocityXZ := v } := by
  cases hi : propAt w.1.mObjects i with
  | none =>
    rw [ObjectUpdate_nonprop L rand wd ht deltaTime i w hi a, hA]
    exact ⟨A.mVelocityXZ, rfl⟩
  | some B =>
    rw [ObjectUpdate_prop L rand wd ht deltaTime i w B hi]
    exact PropUpdate_propAt_other L deltaTime i w.1 a (fun e => hia e.symm) A hA

/-- The cooldown of a prop after its own `Prop::Update`: as before (paused, or already
updated), decremented, or `0.5`; it is `0.5` when a partner was selected. -/
theorem PropUpdate_own_cooldown (L : Libm K) (deltaTime : K) (a : ℕ) (gs : GameState K)
    (A : PropObject K) (hA : propAt gs.mObjects a = some A) :
    ∃ A', propAt (PropUpdate L deltaTime a gs).mObjects a = some A' ∧
      (A'.mOverrideDist = A.mOverrideDist ∨ A'.mOverrideDist = A.cooled deltaTime ∨
        A'.mOverrideDist = 1 / 2) ∧
      (∀ b, PropUpdate.partner L deltaTime a gs = some b → A'.mOverrideDist = 1 / 2) := by
  cases hp : gs.mPaused with
  | true =>
    rw [PropUpdate_paused L deltaTime a gs hp]
    refine ⟨A, hA, Or.inl rfl, ?_⟩
    intro b hb
    obtain ⟨_, _, hp', _⟩ := partner_some L deltaTime a gs b hb
    rw [hp] at hp'
    cases hp'
  | false =>
    by_cases hf : A.mUpdateFrame = gs.mFrame
    · rw [PropUpdate_stale L deltaTime a gs A hA hp hf, propAt_modifyProp, if_pos rfl, hA]
      refine ⟨_, rfl, Or.inl rfl, ?_⟩
      intro b hb
      obtain ⟨A', hA', _, hf', _⟩ := partner_some L deltaTime a gs b hb
      rw [hA] at hA'
      cases hA'
      exact absurd hf hf'
    · by_cases hin : InFloor (A.candidate deltaTime)
      · by_cases hfree : A.cooled deltaTime ≠ 0 ∨
            ∀ k, ¬ IsPeer L gs.mFrame a (A.candidate deltaTime) gs.mObjects k
        · rw [PropUpdate_free L deltaTime a gs A hA hp hf hin hfree, propAt_modifyProp,
            if_pos rfl, hA]
          refine ⟨_, rfl, Or.inr (Or.inl rfl), ?_⟩
          intro b hb
          obtain ⟨A', hA', _, _, _, hod, hj', _⟩ := partner_some L deltaTime a gs b hb
          rw [hA] at hA'
          cases hA'
          rcases hfree with h | h
          · exact absurd hod h
          · exact absurd hj' (h b)
        · rw [not_or, not_not, not_forall] at hfree
          obtain ⟨hod, hex⟩ := hfree
          simp only [not_not] at hex
          obtain ⟨j, hj, hfirst⟩ := exists_first_peer L _ _ _ _ hex
          have hjs : j ≠ a := by
            obtain ⟨B, _, h, _⟩ := hj
            exact h
          rw [PropUpdate_peer L deltaTime a gs A hA hp hf hin hod j hj hfirst, propAt_modifyProp,
            if_neg hjs, propAt_modifyProp, if_pos rfl, hA]
          exact ⟨_, rfl, Or.inr (Or.inr rfl), fun _ _ => rfl⟩
      · rw [PropUpdate_wall L deltaTime a gs A hA hp hf hin, propAt_modifyProp, if_pos rfl, hA]
        refine ⟨_, rfl, Or.inr (Or.inl rfl), ?_⟩
        intro b hb
        obtain ⟨A', hA', _, _, hin', _⟩ := partner_some L deltaTime a gs b hb
        rw [hA] at hA'
        cases hA'
        exact absurd hin' hin

/-- The cooldown of the prop `a` during an update pass: untouched until its own update,
and what its own update made of it afterwards. -/
theorem updatePrefix_cooldown (L : Libm K) (rand : ℕ → ℕ) (wd ht : ℤ) (deltaTime : K)
    (w : GameState K × ℕ) (a : ℕ) (A : PropObject K) (hA : propAt w.1.mObjects a = some A)
    (n : ℕ) :
    ∃ A', propAt (updatePrefix L rand wd ht deltaTime n w).1.mObjects a = some A' ∧
      (n ≤ a → A'.mOverrideDist = A.mOverrideDist) ∧
      (a < n → (A'.mOverrideDist = A.mOverrideDist ∨ A'.mOverrideDist = A.cooled deltaTime ∨
          A'.mOverrideDist = 1 / 2) ∧
        (∀ b, PropUpdate.partner L deltaTime a (updatePrefix L rand wd ht deltaTime a w).1 = some b →
          A'.mOverrideDist = 1 / 2)) := by
  induction n with
  | zero => exact ⟨A, hA, fun _ => rfl, fun h => absurd h (Nat.not_lt_zero a)⟩
  | succ n ih =>
    obtain ⟨A1, hA1, hle, hgt⟩ := ih
    rw [updatePrefix_succ]
    by_cases hna : n = a
    · subst hna
      rw [ObjectUpdate_prop L rand wd ht deltaTime n _ A1 hA1]
      obtain ⟨A2, hA2, h1, h2⟩ := PropUpdate_own_cooldown L deltaTime n _ A1 hA1
      have e1 : A1.mOverrideDist = A.mOverrideDist := hle (le_refl _)
      have e2 : A1.cooled deltaTime = A.cooled deltaTime := by
        unfold PropObject.cooled
        rw [e1]
      refine ⟨A2, hA2, fun h => absurd h (by omega), fun _ => ⟨?_, h2⟩⟩
      rw [← e1, ← e2]
      exact h1
    · obtain ⟨v, hv⟩ := ObjectUpdate_other L rand wd ht deltaTime n a _ hna A1 hA1
      refine ⟨_, hv, fun h => hle (by omega), fun h => hgt (by omega)⟩

theorem updatePrefix_propAt_none (L : Libm K) (rand : ℕ → ℕ) (wd ht : ℤ) (deltaTime : K)
    (w : GameState K × ℕ) (a : ℕ) (h : propAt w.1.mObjects a = none) (n : ℕ) :
    propAt (updatePrefix L rand wd ht deltaTime n w).1.mObjects a = none := by
  induction n with
  | zero => exact h
  | succ n ih =>
    rw [updatePrefix_succ]
    cases hi : propAt (updatePrefix L rand wd ht deltaTime n w).1.mObjects n with
    | none => rw [ObjectUpdate_nonprop L rand wd ht deltaTime n _ hi a, ih]
    | some B =>
      rw [ObjectUpdate_prop L rand wd ht deltaTime n _ B hi]
      exact PropUpdate_propAt_none L deltaTime n _ a ih

/-- The cooldown of a prop after one iteration of the main loop. -/
theorem mainIteration_cooldown (L : Libm K) (rand : ℕ → ℕ) (env : FrameEnv K) (m : Machine K)
    (a : ℕ) (A : PropObject K) (hA : propAt m.gs.mObjects a = some A) :
    ∃ A', propAt (mainIteration L rand env m).gs.mObjects a = some A' ∧
      (A'.mOverrideDist = A.mOverrideDist ∨ A'.mOverrideDist = A.cooled env.deltaTime ∨
          A'.mOverrideDist = 1 / 2) ∧
      (∀ b, iterationPartner L rand env m a = some b → A'.mOverrideDist = 1 / 2) := by
  have hlt : a < (passStart env m).1.mObjects.length := propAt_lt_length _ a A hA
  obtain ⟨A', hA', _, h2⟩ := updatePrefix_cooldown L rand env.wd env.ht env.deltaTime
    (passStart env m) a A hA (passStart env m).1.mObjects.length
  rw [mainIteration_mObjects, updateObjects_eq_updatePrefix]
  exact ⟨A', hA', (h2 hlt).1, (h2 hlt).2⟩

theorem cooled_ge (A : PropObject K) (deltaTime : K) :
    A.mOverrideDist - 5 / 2 * deltaTime ≤ A.cooled deltaTime := by
  unfold PropObject.cooled glmMax
  split_ifs with h
  · linarith
  · linarith

theorem travelled_cons (e : FrameEnv K) (es : List (FrameEnv K)) :
    travelled (e :: es) = 5 / 2 * e.deltaTime + travelled es := by
  unfold travelled
  rw [List.map_cons, List.sum_cons]

theorem travelled_append_singleton (es : List (FrameEnv K)) (e : FrameEnv K) :
    travelled (es ++ [e]) = travelled es + 5 / 2 * e.deltaTime := by
  unfold travelled
  rw [List.map_append, List.sum_append, List.map_singleton, List.sum_singleton]

/-- Over iterations with `deltaTime ≥ 0` the cooldown of a prop falls at most by the
distance travelled. -/
theorem runIterations_cooldown (L : Libm K) (rand : ℕ → ℕ) (a : ℕ) (envs : List (FrameEnv K))
    (m : Machine K) (A : PropObject K) (c : K) (hA : propAt m.gs.mObjects a = some A)
    (hc : c ≤ A.mOverrideDist) (hc2 : c ≤ 1 / 2) (hdt : ∀ e ∈ envs, 0 ≤ e.deltaTime) :
    ∃ A', propAt (runIterations L rand envs m).gs.mObjects a = some A' ∧
      c - travelled envs ≤ A'.mOverrideDist := by
  induction envs generalizing m A c with
  | nil =>
    refine ⟨A, hA, ?_⟩
    unfold travelled
    simp only [List.map_nil, List.sum_nil, sub_zero]
    exact hc
  | cons e es ih =>
    have he : 0 ≤ e.deltaTime := hdt e (List.mem_cons_self _ _)
    obtain ⟨A1, hA1, h1, _⟩ := mainIteration_cooldown L rand e m a A hA
    have hc1 : c - 5 / 2 * e.deltaTime ≤ A1.mOverrideDist := by
      rcases h1 with h | h | h
      · rw [h]
        linarith
      · rw [h]
        have := cooled_ge A e.deltaTime
        linarith
      · rw [h]
        linarith
    obtain ⟨A', hA', h'⟩ := ih (mainIteration L rand e m) A1 (c - 5 / 2 * e.deltaTime) hA1 hc1
      (by linarith) (fun x hx => hdt x (List.mem_cons_of_mem _ hx))
    refine ⟨A', hA', ?_⟩
    rw [travelled_cons]
    linarith

/-- In every iteration, the call on a prop does not select a prop with a smaller index. -/
theorem iterationPartner_later (L : Libm K) (rand : ℕ → ℕ) (env : FrameEnv K) (m : Machine K)
    (i j : ℕ) (h : iterationPartner L rand env m i = some j) : i < j :=
  tested_later L rand env.wd env.ht env.deltaTime (passStart env m) i j
    (partner_mem_tested L env.deltaTime i _ j h)

theorem machineAB_partner (rand : ℕ → ℕ) :
    iterationPartner ratLibm rand quietFrame machineAB 0 = some 1 := by
  have e : beforeCall ratLibm rand quietFrame machineAB 0 = sceneAB := rfl
  unfold iterationPartner
  rw [e]
  exact sceneAB_partner

end Lemmas

end Lesson4

/-! ## Floats with special values: agreement with the model over `K` -/

section IeeeLemmas

variable {K : Type} [LinearOrderedField K] [FloorRing K]

open Lesson4

theorem ieee_add2_numVec (a b : Vec2 K) :
    Ieee.add2 (Ieee.numVec a) (Ieee.numVec b) = Ieee.numVec (a.add b) := rfl

theorem ieee_smul2_numVec (v : Vec2 K) (s : K) :
    Ieee.smul2 (Ieee.numVec v) (.num s) = Ieee.numVec (v.smul s) := rfl

theorem ieee_neg2_numVec (v : Vec2 K) : Ieee.neg2 (Ieee.numVec v) = Ieee.numVec v.neg := rfl

theorem ieee_dot2_numVec (a b : Vec2 K) :
    Ieee.dot2 (Ieee.numVec a) (Ieee.numVec b) = .num (Vec2.dot a b) := rfl

theorem ieee_numVec_inj (a b : Vec2 K) (h : Ieee.numVec a = Ieee.numVec b) : a = b := by
  cases a
  cases b
  simp only [Ieee.numVec, Vec2.mk.injEq, Ieee.Fl.num.injEq] at h
  rw [h.1, h.2]

theorem ieee_glmMax_num (a b : K) : Ieee.glmMax (.num a) (.num b) = .num (glmMax a b) := by
  unfold Ieee.glmMax glmMax
  simp only [Ieee.Fl.lt, decide_eq_true_eq]
  split_ifs <;> rfl

theorem ieee_glmMin_num (a b : K) : Ieee.glmMin (.num a) (.num b) = .num (glmMin a b) := by
  unfold Ieee.glmMin glmMin
  simp only [Ieee.Fl.lt, decide_eq_true_eq]
  split_ifs <;> rfl

theorem ieee_glmClamp2_numVec (v : Vec2 K) (lo hi : K) :
    Ieee.glmClamp2 (Ieee.numVec v) (.num lo) (.num hi) = Ieee.numVec (glmClamp2 v lo hi) := by
  simp only [Ieee.glmClamp2, Ieee.glmClamp, Ieee.numVec, ieee_glmMax_num, ieee_glmMin_num,
    glmClamp2, glmClamp]

theorem ieee_hitsWall_numVec (h : K) (v : Vec2 K) :
    Ieee.hitsWall h (Ieee.numVec v) = decide (v.x < -h ∨ v.x > h ∨ v.y < -h ∨ v.y > h) := by
  simp only [Ieee.hitsWall, Ieee.numVec, Ieee.Fl.lt, gt_iff_lt, Bool.decide_or, Bool.or_assoc]

theorem ieee_InSquare_numVec (h : K) (v : Vec2 K) :
    Ieee.InSquare h (Ieee.numVec v) ↔ (-h ≤ v.x ∧ v.x ≤ h ∧ -h ≤ v.y ∧ v.y ≤ h) := by
  simp only [Ieee.InSquare, Ieee.numVec, Ieee.Fl.within, and_assoc]

theorem ieee_not_InSquare_nan (h : K) (y : Ieee.Fl K) : ¬ Ieee.InSquare h ⟨.nan, y⟩ := by
  intro hh
  exact hh.1

/-- The function `glm::normalize` on the zero vector: `0 * (1 / sqrt( 0 ))` is `0 * inf`,
a NaN in both components. -/
theorem ieee_normalize2_zero (L : Libm K) (h0 : L.sqrt 0 = 0) :
    Ieee.normalize2 L (Ieee.numVec ⟨0, 0⟩) = ⟨.nan, .nan⟩ := by
  simp [Ieee.normalize2, Ieee.numVec, Ieee.dot2, Ieee.inversesqrt, Ieee.smul2, Ieee.Fl.mul,
    Ieee.Fl.add, Ieee.Fl.sqrt, Ieee.Fl.div, h0]

/-- The function `glm::normalize` on a vector of numbers other than zero, with a square
root that is positive on positive numbers: the components are the numbers of the model
over `K`. -/
theorem ieee_normalize2_numVec (L : Libm K) (hpos : ∀ x, 0 < x → L.sqrt x ≠ 0) (v : Vec2 K)
    (hv : v ≠ ⟨0, 0⟩) : Ieee.normalize2 L (Ieee.numVec v) = Ieee.numVec (normalize2 L v) := by
  have hd : 0 < Vec2.dot v v := by
    unfold Vec2.dot
    by_contra hle
    have hx : v.x * v.x = 0 := by nlinarith [mul_self_nonneg v.x, mul_self_nonneg v.y]
    have hy : v.y * v.y = 0 := by nlinarith [mul_self_nonneg v.x, mul_self_nonneg v.y]
    apply hv
    ext
    · exact mul_self_eq_zero.1 hx
    · exact mul_self_eq_zero.1 hy
  unfold Ieee.normalize2 normalize2 Ieee.inversesqrt inversesqrt
  rw [ieee_dot2_numVec]
  simp only [Ieee.Fl.sqrt]
  rw [if_neg (not_lt.2 (le_of_lt hd))]
  simp only [Ieee.Fl.div]
  rw [if_neg (hpos _ hd)]
  rfl

theorem ieee_drawnDirection (r0 r1 : ℕ) :
    (Ieee.drawnDirection r0 r1 : Vec2 (Ieee.Fl K))
      = Ieee.numVec (Lesson3.drawnDirection K r0 r1) := by
  simp only [Ieee.drawnDirection, Lesson3.drawnDirection, Ieee.numVec, Ieee.Fl.div, Ieee.Fl.mul,
    Ieee.Fl.add]
  rw [if_neg (by norm_num), if_neg (by norm_num)]

/-- When both velocity draws are `50` modulo `101`, the velocity that `Prop::Prop` stores
is a NaN in both components. -/
theorem ieee_new_velocity_nan (L : Libm K) (h0 : L.sqrt 0 = 0) (r0 r1 r2 r3 : ℕ)
    (h2 : r2 % 101 = 50) (h3 : r3 % 101 = 50) :
    (Ieee.PropObject.new L r0 r1 r2 r3).mVelocityXZ = ⟨.nan, .nan⟩ := by
  unfold Ieee.PropObject.new
  simp only []
  rw [ieee_drawnDirection, (drawnDirection_eq_zero_iff r2 r3).2 ⟨h2, h3⟩]
  exact ieee_normalize2_zero L h0

theorem ieee_inSquare_iff_inFloor (v : Vec2 K) : Ieee.InSquare 25 (Ieee.numVec v) ↔ InFloor v :=
  ieee_InSquare_numVec 25 v

theorem ieee_inSquare_iff_inFloor10 (v : Vec2 K) :
    Ieee.InSquare 10 (Ieee.numVec v) ↔ Lesson3.InFloor v :=
  ieee_InSquare_numVec 10 v

theorem ieee_Light_advanced (l : Light K) (deltaTime : K) :
    (Ieee.ofLight l).advanced (.num deltaTime) = Ieee.numVec (l.advanced deltaTime) := rfl

theorem ieee_Lesson3_advanced (p : Lesson3.PropObject K) (deltaTime : K) :
    (Ieee.Lesson3.ofProp p).advanced (.num deltaTime) = Ieee.numVec (p.advanced deltaTime) := rfl

/-- A wall hit of a light of numbers: the position is the clamped advanced position of the
model over `K`, the velocity is `glm::normalize` of the drawn direction. -/
theorem ieee_LightUpdate_wall (L : Libm K) (rand : ℕ → ℕ) (deltaTime : K) (l : Light K) (n : ℕ)
    (hout : ¬ InFloor (l.advanced deltaTime)) :
    Ieee.Light.Update L rand false (.num deltaTime) (Ieee.ofLight l) n =
      ({ mPosXZ := Ieee.numVec (glmClamp2 (l.advanced deltaTime) (-25) 25)
         mVelocityXZ := Ieee.normalize2 L (Ieee.drawnDirection (rand n) (rand (n + 1))) },
        n + 2) := by
  have h : (l.advanced deltaTime).x < -25 ∨ (l.advanced deltaTime).x > 25 ∨
      (l.advanced deltaTime).y < -25 ∨ (l.advanced deltaTime).y > 25 := by
    unfold InFloor at hout
    by_contra hc
    simp only [not_or, not_lt, gt_iff_lt] at hc
    exact hout ⟨hc.1, hc.2.1, hc.2.2.1, hc.2.2.2⟩
  have hadv : Ieee.add2 (Ieee.ofLight l).mPosXZ
      (Ieee.smul2 (Ieee.smul2 (Ieee.ofLight l).mVelocityXZ (Ieee.Fl.num deltaTime))
        (Ieee.Fl.num 5)) = Ieee.numVec (l.advanced deltaTime) := rfl
  unfold Ieee.Light.Update
  simp only [Bool.false_eq_true, if_false]
  rw [hadv, ieee_hitsWall_numVec, FLOOR_HALF_SIZE_eq, decide_eq_true h, if_pos rfl,
    ieee_glmClamp2_numVec]

/-- No wall hit of a light of numbers: the advanced position of the model over `K` is
stored. -/
theorem ieee_LightUpdate_free (L : Libm K) (rand : ℕ → ℕ) (deltaTime : K) (l : Light K) (n : ℕ)
    (hin : InFloor (l.advanced deltaTime)) :
    Ieee.Light.Update L rand false (.num deltaTime) (Ieee.ofLight l) n =
      ({ mPosXZ := Ieee.numVec (l.advanced deltaTime)
         mVelocityXZ := Ieee.numVec l.mVelocityXZ }, n) := by
  have h : ¬ ((l.advanced deltaTime).x < -25 ∨ (l.advanced deltaTime).x > 25 ∨
      (l.advanced deltaTime).y < -25 ∨ (l.advanced deltaTime).y > 25) := by
    unfold InFloor at hin
    simp only [not_or, not_lt, gt_iff_lt]
    exact ⟨hin.1, hin.2.1, hin.2.2.1, hin.2.2.2⟩
  have hadv : Ieee.add2 (Ieee.ofLight l).mPosXZ
      (Ieee.smul2 (Ieee.smul2 (Ieee.ofLight l).mVelocityXZ (Ieee.Fl.num deltaTime))
        (Ieee.Fl.num 5)) = Ieee.numVec (l.advanced deltaTime) := rfl
  unfold Ieee.Light.Update
  simp only [Bool.false_eq_true, if_false]
  rw [hadv, ieee_hitsWall_numVec, FLOOR_HALF_SIZE_eq, decide_eq_false h]
  rfl

/-- The method `Light::Update` on a light of numbers gives the light of numbers that the
model over `K` computes, unless it hits the wall and draws `50` modulo `101` twice. -/
theorem ieee_LightUpdate_ofLight (L : Libm K) (hpos : ∀ x, 0 < x → L.sqrt x ≠ 0)
    (rand : ℕ → ℕ) (deltaTime : K) (l : Light K) (n : ℕ)
    (h : ¬ (rand n % 101 = 50 ∧ rand (n + 1) % 101 = 50)) :
    Ieee.Light.Update L rand false (.num deltaTime) (Ieee.ofLight l) n
      = (Ieee.ofLight (Light.Update L rand false deltaTime l n).1,
          (Light.Update L rand false deltaTime l n).2) := by
  by_cases hin : InFloor (l.advanced deltaTime)
  · rw [ieee_LightUpdate_free L rand deltaTime l n hin, Light_Update_free L rand deltaTime l n hin]
    rfl
  · have hv : Lesson3.drawnDirection K (rand n) (rand (n + 1)) ≠ ⟨0, 0⟩ :=
      fun e => h ((drawnDirection_eq_zero_iff _ _).1 e)
    rw [ieee_LightUpdate_wall L rand deltaTime l n hin, Light_Update_wall L rand deltaTime l n hin,
      ieee_drawnDirection, ieee_normalize2_numVec L hpos _ hv]
    rfl

/-- A wall hit of a prop of numbers of Lesson3_GeometryStage. -/
theorem ieee_Lesson3_PropUpdate_wall (L : Libm K) (r0 r1 : ℕ) (deltaTime : K)
    (p : Lesson3.PropObject K) (hout : ¬ Lesson3.InFloor (p.advanced deltaTime)) :
    Ieee.Lesson3.PropUpdate L false r0 r1 (.num deltaTime) (Ieee.Lesson3.ofProp p) =
      { mPosXZ := Ieee.numVec (glmClamp2 (p.advanced deltaTime) (-10) 10)
        mVelocityXZ := Ieee.normalize2 L (Ieee.drawnDirection r0 r1) } := by
  have h : (p.advanced deltaTime).x < -10 ∨ (p.advanced deltaTime).x > 10 ∨
      (p.advanced deltaTime).y < -10 ∨ (p.advanced deltaTime).y > 10 := by
    unfold Lesson3.InFloor at hout
    by_contra hc
    simp only [not_or, not_lt, gt_iff_lt] at hc
    exact hout ⟨hc.1, hc.2.1, hc.2.2.1, hc.2.2.2⟩
  have hadv : Ieee.add2 (Ieee.Lesson3.ofProp p).mPosXZ
      (Ieee.smul2 (Ieee.smul2 (Ieee.Lesson3.ofProp p).mVelocityXZ (Ieee.Fl.num deltaTime))
        (Ieee.Fl.num (5 / 2))) = Ieee.numVec (p.advanced deltaTime) := rfl
  unfold Ieee.Lesson3.PropUpdate
  simp only [Bool.false_eq_true, if_false]
  rw [hadv, ieee_hitsWall_numVec, decide_eq_true h, if_pos rfl, ieee_glmClamp2_numVec]

/-- No wall hit of a prop of numbers of Lesson3_GeometryStage. -/
theorem ieee_Lesson3_PropUpdate_free (L : Libm K) (r0 r1 : ℕ) (deltaTime : K)
    (p : Lesson3.PropObject K) (hin : Lesson3.InFloor (p.advanced deltaTime)) :
    Ieee.Lesson3.PropUpdate L false r0 r1 (.num deltaTime) (Ieee.Lesson3.ofProp p) =
      { mPosXZ := Ieee.numVec (p.advanced deltaTime)
        mVelocityXZ := Ieee.numVec p.mVelocityXZ } := by
  have h : ¬ ((p.advanced deltaTime).x < -10 ∨ (p.advanced deltaTime).x > 10 ∨
      (p.advanced deltaTime).y < -10 ∨ (p.advanced deltaTime).y > 10) := by
    unfold Lesson3.InFloor at hin
    simp only [not_or, not_lt, gt_iff_lt]
    exact ⟨hin.1, hin.2.1, hin.2.2.1, hin.2.2.2⟩
  have hadv : Ieee.add2 (Ieee.Lesson3.ofProp p).mPosXZ
      (Ieee.smul2 (Ieee.smul2 (Ieee.Lesson3.ofProp p).mVelocityXZ (Ieee.Fl.num deltaTime))
        (Ieee.Fl.num (5 / 2))) = Ieee.numVec (p.advanced deltaTime) := rfl
  unfold Ieee.Lesson3.PropUpdate
  simp only [Bool.false_eq_true, if_false]
  rw [hadv, ieee_hitsWall_numVec, decide_eq_false h]
  rfl

/-- With a NaN velocity the advanced position is a NaN, the wall test is false and the NaN
is stored, for a light. -/
theorem ieee_LightUpdate_nan (L : Libm K) (rand : ℕ → ℕ) (deltaTime : K) (pos : Vec2 K) (n : ℕ) :
    (Ieee.Light.Update L rand false (.num deltaTime)
      { mPosXZ := Ieee.numVec pos, mVelocityXZ := ⟨.nan, .nan⟩ } n).1.mPosXZ = ⟨.nan, .nan⟩ := by
  rfl

/-- With a NaN velocity the advanced position is a NaN, the wall test is false and the NaN
is stored, for a prop of Lesson3_GeometryStage. -/
theorem ieee_Lesson3_PropUpdate_nan (L : Libm K) (r0 r1 : ℕ) (deltaTime : K) (pos : Vec2 K) :
    (Ieee.Lesson3.PropUpdate L false r0 r1 (.num deltaTime)
      { mPosXZ := Ieee.numVec pos, mVelocityXZ := ⟨.nan, .nan⟩ }).mPosXZ = ⟨.nan, .nan⟩ := by
  rfl

/-! ### Concrete scenes with a NaN -/

theorem ratLibm_sqrt_zero : ratLibm.sqrt 0 = 0 := by
  have h := ratLibm_sqrt_sq 0 (le_refl _)
  rw [mul_zero] at h
  exact h

theorem ieee_normalize2_fifty :
    Ieee.normalize2 ratLibm (Ieee.drawnDirection 50 50 : Vec2 (Ieee.Fl ℚ)) = ⟨.nan, .nan⟩ := by
  rw [ieee_drawnDirection, (drawnDirection_eq_zero_iff 50 50).2 ⟨rfl, rfl⟩]
  exact ieee_normalize2_zero ratLibm ratLibm_sqrt_zero

theorem lightAtWall_advanced : lightAtWall.advanced (1 / 8) = ⟨201 / 8, 0⟩ := by
  simp only [Light.advanced, lightAtWall, Vec2.add, Vec2.smul]
  norm_num

theorem lightAtWall_out : ¬ InFloor (lightAtWall.advanced (1 / 8)) := by
  rw [lightAtWall_advanced]
  unfold InFloor
  norm_num

theorem lightBounced_eq : lightBounced = ⟨⟨.num 25, .num 0⟩, ⟨.nan, .nan⟩⟩ := by
  unfold lightBounced
  rw [ieee_LightUpdate_wall ratLibm randFifty (1 / 8) lightAtWall 0 lightAtWall_out,
    lightAtWall_advanced]
  show Ieee.Light.mk _ (Ieee.normalize2 ratLibm (Ieee.drawnDirection 50 50)) = _
  rw [ieee_normalize2_fifty]
  simp only [Ieee.numVec, glmClamp2, glmClamp, glmMax, glmMin]
  norm_num

theorem propAtWall3_advanced : propAtWall3.advanced (1 / 4) = ⟨81 / 8, 0⟩ := by
  simp only [Lesson3.PropObject.advanced, propAtWall3, Vec2.add, Vec2.smul]
  norm_num

theorem propAtWall3_out : ¬ Lesson3.InFloor (propAtWall3.advanced (1 / 4)) := by
  rw [propAtWall3_advanced]
  unfold Lesson3.InFloor
  norm_num

theorem propBounced3_eq : propBounced3 = ⟨⟨.num 10, .num 0⟩, ⟨.nan, .nan⟩⟩ := by
  unfold propBounced3
  rw [ieee_Lesson3_PropUpdate_wall ratLibm 50 50 (1 / 4) propAtWall3 propAtWall3_out,
    propAtWall3_advanced, ieee_normalize2_fifty]
  simp only [Ieee.numVec, glmClamp2, glmClamp, glmMax, glmMin]
  norm_num

end IeeeLemmas

/-! ## The claims -/

section Claims

variable {K : Type} [LinearOrderedField K] [FloorRing K]

open Lesson4

/-- Claim C2. Peer collision reflects both velocities: in an unpaused scene, when prop `A`
(index `self`) is not yet updated in this frame, its candidate position is on the floor,
its cooldown after the decrement is `0` and some other not yet updated prop lies at
distance `< 0.5` from the candidate, then `Prop::Update` negates the velocity of `A` and
the velocity of the selected partner `B`, the first such prop in container order. -/
theorem peer_collision_negates_both_velocities (L : Libm K) (deltaTime : K) (self : ℕ)
    (gs : GameState K) (A : PropObject K)
    (hA : propAt gs.mObjects self = some A) (hp : gs.mPaused = false)
    (hfresh : A.mUpdateFrame ≠ gs.mFrame) (hin : InFloor (A.candidate deltaTime))
    (hcool : A.cooled deltaTime = 0)
    (hpeer : ∃ k, IsPeer L gs.mFrame self (A.candidate deltaTime) gs.mObjects k) :
    ∃ j B, IsPeer L gs.mFrame self (A.candidate deltaTime) gs.mObjects j ∧
      (∀ k, k < j → ¬ IsPeer L gs.mFrame self (A.candidate deltaTime) gs.mObjects k) ∧
      propAt gs.mObjects j = some B ∧
      (propAt (PropUpdate L deltaTime self gs).mObjects self).map (fun p => p.mVelocityXZ)
        = some A.mVelocityXZ.neg ∧
      (propAt (PropUpdate L deltaTime self gs).mObjects j).map (fun p => p.mVelocityXZ)
        = some B.mVelocityXZ.neg := by
  obtain ⟨j, hj, hfirst⟩ := exists_first_peer L _ _ _ _ hpeer
  have hj' := hj
  obtain ⟨B, hB, hjs, _, _⟩ := hj'
  refine ⟨j, B, hj, hfirst, hB, ?_, ?_⟩
  · rw [PropUpdate_peer L deltaTime self gs A hA hp hfresh hin hcool j hj hfirst,
      propAt_modifyProp, if_neg hjs, propAt_modifyProp, if_pos rfl, hA]
    rfl
  · rw [PropUpdate_peer L deltaTime self gs A hA hp hfresh hin hcool j hj hfirst,
      propAt_modifyProp, if_pos rfl, propAt_modifyProp, if_neg (fun e => hjs e.symm), hB]
    rfl

/-- Witness of C2 on the scenario of the specification (`deltaTime = 0.04`). -/
theorem peer_collision_negates_both_velocities_witness :
    ∃ j B, IsPeer ratLibm sceneAB.mFrame 0 (propA.candidate (1 / 25)) sceneAB.mObjects j ∧
      (∀ k, k < j →
        ¬ IsPeer ratLibm sceneAB.mFrame 0 (propA.candidate (1 / 25)) sceneAB.mObjects k) ∧
      propAt sceneAB.mObjects j = some B ∧
      (propAt (PropUpdate ratLibm (1 / 25) 0 sceneAB).mObjects 0).map (fun p => p.mVelocityXZ)
        = some propA.mVelocityXZ.neg ∧
      (propAt (PropUpdate ratLibm (1 / 25) 0 sceneAB).mObjects j).map (fun p => p.mVelocityXZ)
        = some B.mVelocityXZ.neg :=
  peer_collision_negates_both_velocities ratLibm (1 / 25) 0 sceneAB propA rfl rfl (by decide)
    propA_candidate_inFloor propA_cooled ⟨1, sceneAB_peer⟩

/-- Claim C3. On the scenario of the specification (`A` at `(0, 0)`, `B` at `(0.3, 0)`, heading
towards each other, no cooldown, `deltaTime = 0.04`) `Prop::Update` on `A` resolves a peer
collision with `B`; afterwards the cooldown of `A` is `0.5` but the cooldown of the
partner `B` is still `0`. -/
theorem peer_collision_partner_cooldown_not_set :
    (propAt (PropUpdate ratLibm (1 / 25) 0 sceneAB).mObjects 0).map (fun p => p.mOverrideDist)
      = some (1 / 2) ∧
    (propAt (PropUpdate ratLibm (1 / 25) 0 sceneAB).mObjects 1).map (fun p => p.mOverrideDist)
      = some 0 := by
  rw [sceneAB_after_A]
  constructor
  · rw [propAt_modifyProp, if_neg (by decide), propAt_modifyProp, if_pos rfl]
    rfl
  · rw [propAt_modifyProp, if_pos rfl, propAt_modifyProp, if_neg (by decide)]
    rfl

/-- Claim C4. On the scenario of the specification in frame `1`, after `Prop::Update` on `A`
has resolved the peer collision with `B`, `A.mUpdateFrame` is `1` but the partner's
`B.mUpdateFrame` is still `0`, not the current frame. -/
theorem peer_collision_partner_not_marked :
    sceneAB.mFrame = 1 ∧
    (propAt (PropUpdate ratLibm (1 / 25) 0 sceneAB).mObjects 0).map (fun p => p.mUpdateFrame)
      = some 1 ∧
    (propAt (PropUpdate ratLibm (1 / 25) 0 sceneAB).mObjects 1).map (fun p => p.mUpdateFrame)
      = some 0 := by
  rw [sceneAB_after_A]
  refine ⟨rfl, ?_, ?_⟩
  · rw [propAt_modifyProp, if_neg (by decide), propAt_modifyProp, if_pos rfl]
    rfl
  · rw [propAt_modifyProp, if_pos rfl, propAt_modifyProp, if_neg (by decide)]
    rfl

/-- Claim C5. One unpaused pass over the scenario of the specification (`deltaTime = 0.04`,
frame `1`): the update of `A` resolves a peer collision with `B` (it turns `B` round, from
heading `(-1, 0)` to `(1, 0)`, without moving it), yet when the pass reaches `B` its own
`Prop::Update` moves it: `B` starts the pass at `(0.3, 0)` and ends it at `(0.4, 0)`. -/
theorem collision_partner_moves_in_same_pass :
    sceneAB.mPaused = false ∧
    (propAt sceneAB.mObjects 1).map (fun p => (p.mPosXZ, p.mVelocityXZ))
      = some (⟨3 / 10, 0⟩, ⟨-1, 0⟩) ∧
    (propAt (PropUpdate ratLibm (1 / 25) 0 sceneAB).mObjects 1).map
        (fun p => (p.mPosXZ, p.mVelocityXZ)) = some (⟨3 / 10, 0⟩, ⟨1, 0⟩) ∧
    (propAt (updateObjects ratLibm (fun _ => 0) 800 600 (1 / 25) (sceneAB, 0)).1.mObjects 1).map
        (fun p => p.mPosXZ) = some ⟨2 / 5, 0⟩ := by
  refine ⟨rfl, rfl, ?_, ?_⟩
  · rw [sceneAB_after_A_propB]
    rfl
  · have hc : PropObject.candidate { propB with mVelocityXZ := ⟨1, 0⟩ } (1 / 25)
        = (⟨2 / 5, 0⟩ : Vec2 ℚ) := by
      simp only [PropObject.candidate, propB, mkProp, Vec2.add, Vec2.smul]
      norm_num
    have hfree := PropUpdate_free ratLibm (1 / 25) 1 (PropUpdate ratLibm (1 / 25) 0 sceneAB)
      { propB with mVelocityXZ := ⟨1, 0⟩ } sceneAB_after_A_propB
      (by rw [sceneAB_after_A]; rfl) (by rw [sceneAB_after_A]; decide)
      (by rw [hc]; unfold InFloor; norm_num)
      (Or.inr (by
        intro k
        rw [hc]
        have hfr : (PropUpdate ratLibm (1 / 25) 0 sceneAB).mFrame = 1 := by
          rw [sceneAB_after_A]; rfl
        rw [hfr]
        exact sceneAB_after_A_no_peer k))
    rw [sceneAB_pass, hfree, propAt_modifyProp, if_pos rfl, sceneAB_after_A_propB, hc]
    rfl

/-- Counterexample to C6 as stated, on values that a `float` holds exactly (binary
fractions, so that every operation of the call is exact in `float` arithmetic as well):
prop `A` at `(0, 0)` heading `(1, 0)` has a cooldown of `1 / 16 = 0.0625 > 0` when
`Prop::Update` is called with `deltaTime = 1 / 32 = 0.03125 ≥ 0`. The step distance is
`2.5 / 32 = 5 / 64`, the cooldown after the decrement is `max( 1 / 16 - 5 / 64, 0 ) = 0`,
the candidate `(5 / 64, 0)` is on the floor, so the peer scan runs; prop `B` at `(0.25, 0)`
is at distance `11 / 64 < 0.5` of the candidate and the collision with `B` is resolved: the
velocity of `B` changes from `(-1, 0)` to `(1, 0)` and the velocity of `A` from `(1, 0)` to
`(-1, 0)` although the candidate of `A` is on the floor. -/
theorem cooldown_suppresses_peer_avoidance_counterexample :
    propACool.mOverrideDist = 1 / 16 ∧ 0 < propACool.mOverrideDist ∧ (0 : ℚ) ≤ 1 / 32 ∧
    propAt sceneCool.mObjects 0 = some propACool ∧
    propAt sceneCool.mObjects 1 = some propBNear ∧
    propACool.cooled (1 / 32) = 0 ∧
    propACool.candidate (1 / 32) = ⟨5 / 64, 0⟩ ∧
    InFloor (propACool.candidate (1 / 32)) ∧
    length2 ratLibm ((propACool.candidate (1 / 32)).sub propBNear.mPosXZ) = 11 / 64 ∧
    (propAt sceneCool.mObjects 1).map (fun p => p.mVelocityXZ) = some ⟨-1, 0⟩ ∧
    (propAt (PropUpdate ratLibm (1 / 32) 0 sceneCool).mObjects 1).map (fun p => p.mVelocityXZ)
      = some ⟨1, 0⟩ ∧
    propACool.mVelocityXZ = ⟨1, 0⟩ ∧
    (propAt (PropUpdate ratLibm (1 / 32) 0 sceneCool).mObjects 0).map (fun p => p.mVelocityXZ)
      = some ⟨-1, 0⟩ := by
  have hin : InFloor (propACool.candidate (1 / 32)) := by
    rw [propACool_candidate]
    unfold InFloor
    norm_num
  have e := PropUpdate_peer ratLibm (1 / 32) 0 sceneCool propACool rfl rfl (by decide) hin
    propACool_cooled 1 sceneCool_peer sceneCool_first
  refine ⟨rfl, by norm_num [propACool, mkProp], by norm_num, rfl, rfl, propACool_cooled,
    propACool_candidate, hin, sceneCool_distance, rfl, ?_, rfl, ?_⟩
  · rw [e, propAt_modifyProp, if_pos rfl, propAt_modifyProp, if_neg (by decide)]
    simp [sceneCool, mkScene, propAt, Object.asProp, propBNear, mkProp, Vec2.neg]
  · rw [e, propAt_modifyProp, if_neg (by decide), propAt_modifyProp, if_pos rfl]
    simp [sceneCool, mkScene, propAt, Object.asProp, propACool, mkProp, Vec2.neg]

/-- Claim C6, amended. A cooldown that outlasts the step suppresses peer avoidance: when the
cooldown of prop `A` is greater than the step distance `2.5 * deltaTime` (so it is still
positive after the decrement), `Prop::Update` on `A` changes no other object of the scene,
and it changes the velocity of `A` only if the candidate position of `A` leaves the floor. -/
theorem cooldown_left_suppresses_peer_avoidance (L : Libm K) (deltaTime : K) (self : ℕ)
    (gs : GameState K) (A : PropObject K) (hA : propAt gs.mObjects self = some A)
    (hcool : deltaTime * (5 / 2) < A.mOverrideDist) :
    (∀ k, k ≠ self → (PropUpdate L deltaTime self gs).mObjects[k]? = gs.mObjects[k]?) ∧
    ((propAt (PropUpdate L deltaTime self gs).mObjects self).map (fun p => p.mVelocityXZ)
        ≠ some A.mVelocityXZ → ¬ InFloor (A.candidate deltaTime)) := by
  cases hp : gs.mPaused with
  | true =>
    rw [PropUpdate_paused L deltaTime self gs hp, hA]
    exact ⟨fun _ _ => rfl, fun h => absurd rfl h⟩
  | false =>
    by_cases hf : A.mUpdateFrame = gs.mFrame
    · rw [PropUpdate_stale L deltaTime self gs A hA hp hf]
      refine ⟨fun k hk => getElem?_modifyProp_ne gs self k _ hk, fun h => ?_⟩
      rw [propAt_modifyProp, if_pos rfl, hA] at h
      exact absurd rfl h
    · by_cases hin : InFloor (A.candidate deltaTime)
      · rw [PropUpdate_free L deltaTime self gs A hA hp hf hin
          (Or.inl (cooled_pos A deltaTime hcool))]
        refine ⟨fun k hk => getElem?_modifyProp_ne gs self k _ hk, fun h => ?_⟩
        rw [propAt_modifyProp, if_pos rfl, hA] at h
        exact absurd rfl h
      · rw [PropUpdate_wall L deltaTime self gs A hA hp hf hin]
        exact ⟨fun k hk => getElem?_modifyProp_ne gs self k _ hk, fun _ => hin⟩

/-- Witness of C6 (amended): the scenario with `A` on a cooldown of `0.5` and a step of
`0.1`. -/
theorem cooldown_left_suppresses_peer_avoidance_witness :
    (1 / 25 : ℚ) * (5 / 2) < propALong.mOverrideDist ∧
    (∀ k, k ≠ 0 → (PropUpdate ratLibm (1 / 25) 0 sceneLong).mObjects[k]? = sceneLong.mObjects[k]?) ∧
    ((propAt (PropUpdate ratLibm (1 / 25) 0 sceneLong).mObjects 0).map (fun p => p.mVelocityXZ)
        ≠ some propALong.mVelocityXZ → ¬ InFloor (propALong.candidate (1 / 25))) :=
  ⟨by norm_num [propALong, mkProp],
    cooldown_left_suppresses_peer_avoidance ratLibm (1 / 25) 0 sceneLong propALong rfl
      (by norm_num [propALong, mkProp])⟩

/-- Counterexample to C7 as stated. (1) The witness scenario in the lesson whose floor has
half size `10` (Lesson3_GeometryStage): `deltaTime = 0.1`, position `(9.96, 0)`, velocity
`(1, 0)`; the advanced position `(10.21, 0)` leaves the floor, and with the two draws of
`rand()` returning `100` and `50` the velocity after `Prop::Update` is `(1, 0)`, not
`(-1, 0)`. (2) In Lesson4_RasterizationStage a not yet updated prop whose candidate leaves
the floor keeps its velocity `(1, 0)` while the game is paused. -/
theorem wall_collision_negates_velocity_counterexample :
    (propWall3.advanced (1 / 10) = ⟨1021 / 100, 0⟩ ∧
      (Lesson3.PropUpdate ratLibm false 100 50 (1 / 10) propWall3).mVelocityXZ = ⟨1, 0⟩) ∧
    (propAt sceneWallPaused.mObjects 0 = some propNearWall ∧
      propNearWall.mUpdateFrame ≠ sceneWallPaused.mFrame ∧
      ¬ InFloor (propNearWall.candidate (1 / 10)) ∧
      (propAt (PropUpdate ratLibm (1 / 10) 0 sceneWallPaused).mObjects 0).map
        (fun p => p.mVelocityXZ) = some ⟨1, 0⟩) := by
  refine ⟨⟨propWall3_advanced, ?_⟩, rfl, by decide, propNearWall_out, ?_⟩
  · rw [(Lesson3_PropUpdate_wall ratLibm 100 50 (1 / 10) propWall3 propWall3_out).1]
    have hd : Lesson3.drawnDirection ℚ 100 50 = ⟨1, 0⟩ := by
      simp only [Lesson3.drawnDirection]
      norm_num
    rw [hd]
    have hdot : Vec2.dot (⟨1, 0⟩ : Vec2 ℚ) ⟨1, 0⟩ = 1 * 1 := by
      simp only [Vec2.dot]
      norm_num
    unfold normalize2 inversesqrt
    rw [hdot, ratLibm_sqrt_sq 1 (by norm_num)]
    simp only [Vec2.smul]
    norm_num
  · rw [PropUpdate_paused ratLibm (1 / 10) 0 sceneWallPaused rfl]
    rfl

/-- Claim C7, amended. In Lesson4_RasterizationStage (floor `[-25, 25]²`), in an unpaused
scene, `Prop::Update` on a not yet updated prop whose candidate position has a component
outside the floor makes its velocity the exact negation of the velocity before. In the
lesson whose floor is `[-10, 10]²` (Lesson3_GeometryStage) the unpaused `Prop::Update`
instead sets the velocity to the normalized direction drawn from two calls of `rand()`. -/
theorem wall_collision_negates_velocity :
    (∀ (L : Libm K) (deltaTime : K) (self : ℕ) (gs : GameState K) (A : PropObject K),
      propAt gs.mObjects self = some A → gs.mPaused = false → A.mUpdateFrame ≠ gs.mFrame →
      ¬ InFloor (A.candidate deltaTime) →
      (propAt (PropUpdate L deltaTime self gs).mObjects self).map (fun p => p.mVelocityXZ)
        = some A.mVelocityXZ.neg) ∧
    (∀ (L : Libm K) (r0 r1 : ℕ) (deltaTime : K) (p : Lesson3.PropObject K),
      ¬ Lesson3.InFloor (p.advanced deltaTime) →
      (Lesson3.PropUpdate L false r0 r1 deltaTime p).mVelocityXZ
        = normalize2 L (Lesson3.drawnDirection K r0 r1)) := by
  constructor
  · intro L deltaTime self gs A hA hp hf hwall
    rw [PropUpdate_wall L deltaTime self gs A hA hp hf hwall, propAt_modifyProp, if_pos rfl, hA]
    rfl
  · intro L r0 r1 deltaTime p hout
    exact (Lesson3_PropUpdate_wall L r0 r1 deltaTime p hout).1

/-- Witness of C7 (amended): the prop at `(24.9, 0)` heading `(1, 0)` with
`deltaTime = 0.1` in Lesson4_RasterizationStage, and the scenario of the specification
in Lesson3_GeometryStage. -/
theorem wall_collision_negates_velocity_witness :
    (¬ InFloor (propNearWall.candidate (1 / 10)) ∧
      (propAt (PropUpdate ratLibm (1 / 10) 0 sceneWall).mObjects 0).map (fun p => p.mVelocityXZ)
        = some propNearWall.mVelocityXZ.neg) ∧
    (¬ Lesson3.InFloor (propWall3.advanced (1 / 10)) ∧
      (Lesson3.PropUpdate ratLibm false 0 50 (1 / 10) propWall3).mVelocityXZ
        = normalize2 ratLibm (Lesson3.drawnDirection ℚ 0 50)) :=
  ⟨⟨propNearWall_out, wall_collision_negates_velocity.1 ratLibm (1 / 10) 0 sceneWall propNearWall
      rfl rfl (by decide) propNearWall_out⟩,
    ⟨propWall3_out, wall_collision_negates_velocity.2 ratLibm 0 50 (1 / 10) propWall3
      propWall3_out⟩⟩

/-- Counterexample to C8 as stated: in Lesson4_RasterizationStage the not yet updated prop
at `(24.9, 0)` heading `(1, 0)` has, for `deltaTime = 0.1`, the candidate `(25.15, 0)`
outside the floor; clamped into the floor this is `(25, 0)`, but after the unpaused
`Prop::Update` the position is still `(24.9, 0)`. -/
theorem wall_collision_clamps_position_counterexample :
    propAt sceneWall.mObjects 0 = some propNearWall ∧ sceneWall.mPaused = false ∧
    propNearWall.mUpdateFrame ≠ sceneWall.mFrame ∧
    propNearWall.candidate (1 / 10) = ⟨503 / 20, 0⟩ ∧
    ¬ InFloor (propNearWall.candidate (1 / 10)) ∧
    glmClamp2 (propNearWall.candidate (1 / 10)) (-25) 25 = ⟨25, 0⟩ ∧
    (propAt (PropUpdate ratLibm (1 / 10) 0 sceneWall).mObjects 0).map (fun p => p.mPosXZ)
      = some ⟨249 / 10, 0⟩ := by
  refine ⟨rfl, rfl, by decide, propNearWall_candidate, propNearWall_out, ?_, ?_⟩
  · rw [propNearWall_candidate]
    simp only [glmClamp2, glmClamp, glmMin, glmMax]
    norm_num
  · rw [PropUpdate_wall ratLibm (1 / 10) 0 sceneWall propNearWall rfl rfl (by decide)
      propNearWall_out, propAt_modifyProp, if_pos rfl]
    rfl

/-- Claim C8, amended. In Lesson4_RasterizationStage, in an unpaused scene, `Prop::Update` on
a not yet updated prop whose candidate position has a component outside the floor leaves
the position of the prop as it was (the candidate is dropped, nothing is clamped). In the
lesson whose floor is `[-10, 10]²` (Lesson3_GeometryStage) the unpaused `Prop::Update`
stores the advanced position clamped componentwise into `[-10, 10]`. -/
theorem wall_collision_position :
    (∀ (L : Libm K) (deltaTime : K) (self : ℕ) (gs : GameState K) (A : PropObject K),
      propAt gs.mObjects self = some A → gs.mPaused = false → A.mUpdateFrame ≠ gs.mFrame →
      ¬ InFloor (A.candidate deltaTime) →
      (propAt (PropUpdate L deltaTime self gs).mObjects self).map (fun p => p.mPosXZ)
        = some A.mPosXZ) ∧
    (∀ (L : Libm K) (r0 r1 : ℕ) (deltaTime : K) (p : Lesson3.PropObject K),
      ¬ Lesson3.InFloor (p.advanced deltaTime) →
      (Lesson3.PropUpdate L false r0 r1 deltaTime p).mPosXZ
        = glmClamp2 (p.advanced deltaTime) (-10) 10) := by
  constructor
  · intro L deltaTime self gs A hA hp hf hwall
    rw [PropUpdate_wall L deltaTime self gs A hA hp hf hwall, propAt_modifyProp, if_pos rfl, hA]
    rfl
  · intro L r0 r1 deltaTime p hout
    exact (Lesson3_PropUpdate_wall L r0 r1 deltaTime p hout).2

/-- Witness of C8 (amended): the prop at `(24.9, 0)` in Lesson4_RasterizationStage stays
there, and the scenario of the specification in Lesson3_GeometryStage (`deltaTime = 0.1`,
position `(9.96, 0)`, velocity `(1, 0)`) ends at `(10, 0)`. -/
theorem wall_collision_position_witness :
    (¬ InFloor (propNearWall.candidate (1 / 10)) ∧
      (propAt (PropUpdate ratLibm (1 / 10) 0 sceneWall).mObjects 0).map (fun p => p.mPosXZ)
        = some ⟨249 / 10, 0⟩) ∧
    (¬ Lesson3.InFloor (propWall3.advanced (1 / 10)) ∧
      (Lesson3.PropUpdate ratLibm false 7 7 (1 / 10) propWall3).mPosXZ = ⟨10, 0⟩) := by
  refine ⟨⟨propNearWall_out, wall_collision_position.1 ratLibm (1 / 10) 0 sceneWall propNearWall
      rfl rfl (by decide) propNearWall_out⟩, propWall3_out, ?_⟩
  rw [wall_collision_position.2 ratLibm 7 7 (1 / 10) propWall3 propWall3_out,
    propWall3_advanced]
  simp only [glmClamp2, glmClamp, glmMin, glmMax]
  norm_num

/-- Claim C9. Camera angle ranges: for every starting pitch/yaw, every positive window size
and every previous and current mouse position, after `Camera::Update` the yaw
`mPitchYaw.x` lies in `[0, 360)` and the pitch `mPitchYaw.y` in `[-90, 90]`; hence both
hold after any non-empty sequence of updates with positive window sizes. -/
theorem camera_angles_in_range :
    (∀ (L : Libm K) (wd ht : ℤ) (buttonMask : ℕ) (prevMousePos curMousePos : Vec2 K)
      (deltaTime : K) (c : Camera K), 0 < wd → 0 < ht →
      AnglesInRange
        (Camera.Update L wd ht buttonMask prevMousePos curMousePos deltaTime c).camera) ∧
    (∀ (L : Libm K) (calls : List (CameraCall K)) (c : Camera K), calls ≠ [] →
      (∀ i, i ∈ calls → 0 < i.wd ∧ 0 < i.ht) → AnglesInRange (runCameraCalls L calls c)) := by
  constructor
  · intro L wd ht buttonMask prevMousePos curMousePos deltaTime c _ _
    exact Camera_Update_anglesInRange L wd ht buttonMask prevMousePos curMousePos deltaTime c
  · intro L calls
    induction calls with
    | nil => intro c h; exact absurd rfl h
    | cons i rest ih =>
      intro c _ hpos
      cases rest with
      | nil =>
        exact Camera_Update_anglesInRange L i.wd i.ht i.buttonMask i.prevMousePos
          i.curMousePos i.deltaTime c
      | cons i' rest' =>
        exact ih _ (List.cons_ne_nil _ _) (fun a ha => hpos a (List.mem_cons_of_mem _ ha))

/-- Witness of C9: the freshly constructed camera in an `800 x 600` window, the mouse moved
by `(1000, 50)` pixels; one update, and the same update run twice. -/
theorem camera_angles_in_range_witness :
    AnglesInRange
      (Camera.Update ratLibm 800 600 0 ⟨0, 0⟩ ⟨1000, 50⟩ (1 / 10) (Camera.new ℚ)).camera ∧
    AnglesInRange (runCameraCalls ratLibm
      [⟨800, 600, 0, ⟨0, 0⟩, ⟨1000, 50⟩, 1 / 10⟩, ⟨800, 600, 0, ⟨0, 0⟩, ⟨1000, 50⟩, 1 / 10⟩]
      (Camera.new ℚ)) :=
  ⟨camera_angles_in_range.1 ratLibm 800 600 0 ⟨0, 0⟩ ⟨1000, 50⟩ (1 / 10) (Camera.new ℚ)
      (by decide) (by decide),
    camera_angles_in_range.2 ratLibm _ (Camera.new ℚ) (List.cons_ne_nil _ _) (by
      intro i hi
      simp only [List.mem_cons, List.mem_singleton, List.mem_nil_iff, or_false, or_self] at hi
      rw [hi]
      exact ⟨by decide, by decide⟩)⟩

/-- Claim C10. Facing round trip: for every direction `d` of unit length (`dot( d, d ) = 1`,
with `sqrt( 1 ) = 1`), the orientation matrix `rot` that `Prop::Update` builds from the
velocity `d` maps the local forward axis `(0, 0, 1)` to exactly `(d.x, 0, d.y)` in
Lesson4_RasterizationStage, and to `-1` times `(d.x, 0, d.y)`, a parallel vector, in the
lesson that looks at `(d.x, 0, d.y)` (Lesson3_GeometryStage). -/
theorem facing_round_trip (L : Libm K) (d : Vec2 K) (hsqrt : L.sqrt 1 = 1)
    (hd : Vec2.dot d d = 1) :
    (Lesson4.PropUpdate.rot L d).mulVec ⟨0, 0, 1, 0⟩ = ⟨d.x, 0, d.y, 0⟩ ∧
    (Lesson3.PropUpdate.rot L d).mulVec ⟨0, 0, 1, 0⟩ = (⟨d.x, 0, d.y, 0⟩ : Vec4 K).smul (-1) := by
  unfold Vec2.dot at hd
  constructor
  · unfold Lesson4.PropUpdate.rot
    have h : -d.x * -d.x + -d.y * -d.y = 1 := by linear_combination hd
    simp only []
    rw [lookAt_towards_unit L (-d.x) (-d.y) hsqrt h, inverse_lookAt_towards_unit _ _ h]
    simp [Mat4.mulVec, Vec4.smul, Vec4.add]
  · unfold Lesson3.PropUpdate.rot
    simp only []
    rw [lookAt_towards_unit L d.x d.y hsqrt hd, inverse_lookAt_towards_unit _ _ hd]
    simp [Mat4.mulVec, Vec4.smul, Vec4.add]

/-- Witness of C10: the direction `(3/5, 4/5)` with the rational square root. -/
theorem facing_round_trip_witness :
    (Lesson4.PropUpdate.rot ratLibm ⟨3 / 5, 4 / 5⟩).mulVec ⟨0, 0, 1, 0⟩ = ⟨3 / 5, 0, 4 / 5, 0⟩ ∧
    (Lesson3.PropUpdate.rot ratLibm ⟨3 / 5, 4 / 5⟩).mulVec ⟨0, 0, 1, 0⟩
      = (⟨3 / 5, 0, 4 / 5, 0⟩ : Vec4 ℚ).smul (-1) :=
  facing_round_trip ratLibm ⟨3 / 5, 4 / 5⟩
    (by have h := ratLibm_sqrt_sq 1 (by norm_num); rwa [mul_one] at h)
    (by simp only [Vec2.dot]; norm_num)

/-- Claim C12. Unit velocity is preserved by updates: in a scene in which the velocity of
every prop has Euclidean length `1`, after any `Prop::Update` call (any `deltaTime`, frame
value and pause flag, on any object, with or without a wall or peer collision) the
velocity of every prop, the updated one and all others, still has length exactly `1`. -/
theorem unit_velocity_preserved (L : Libm K) (deltaTime : K) (self : ℕ) (gs : GameState K)
    (h : AllProps (fun p => length2 L p.mVelocityXZ = 1) gs.mObjects) :
    AllProps (fun p => length2 L p.mVelocityXZ = 1) (PropUpdate L deltaTime self gs).mObjects :=
  allProps_PropUpdate (fun p => length2 L p.mVelocityXZ = 1) L deltaTime self gs h
    (fun _ _ hp => hp) (fun p hp => by simpa only [length2_neg] using hp) (fun _ hp => hp)
    (fun _ _ hp => hp) (fun _ _ _ hp => hp)

/-- Claim C19. No-collision step: in an unpaused scene, for a not yet updated prop `A` with
cooldown `c`, velocity `v` and position `p`, and `d = 2.5 * deltaTime`, if the candidate
`p + v * d` is on the floor and no peer collision is detected (a cooldown is left after the
decrement, or no other not yet updated prop is within `0.5` of the candidate), then after
`Prop::Update` the position is exactly `p + v * d`, the velocity is unchanged, the cooldown
is `max( c - d, 0 )` and `mUpdateFrame` is the current frame. -/
theorem no_collision_step (L : Libm K) (deltaTime : K) (self : ℕ) (gs : GameState K)
    (A : PropObject K) (hA : propAt gs.mObjects self = some A) (hp : gs.mPaused = false)
    (hfresh : A.mUpdateFrame ≠ gs.mFrame)
    (hin : InFloor (A.mPosXZ.add (A.mVelocityXZ.smul (deltaTime * (5 / 2)))))
    (hfree : glmMax (A.mOverrideDist - deltaTime * (5 / 2)) 0 ≠ 0 ∨
      ∀ k, ¬ IsPeer L gs.mFrame self (A.mPosXZ.add (A.mVelocityXZ.smul (deltaTime * (5 / 2))))
        gs.mObjects k) :
    ∃ A', propAt (PropUpdate L deltaTime self gs).mObjects self = some A' ∧
      A'.mPosXZ = A.mPosXZ.add (A.mVelocityXZ.smul (deltaTime * (5 / 2))) ∧
      A'.mVelocityXZ = A.mVelocityXZ ∧
      A'.mOverrideDist = glmMax (A.mOverrideDist - deltaTime * (5 / 2)) 0 ∧
      A'.mUpdateFrame = gs.mFrame := by
  have e := PropUpdate_free L deltaTime self gs A hA hp hfresh hin hfree
  rw [e, propAt_modifyProp, if_pos rfl, hA]
  exact ⟨_, rfl, rfl, rfl, rfl, rfl⟩

/-- Claim C20. First qualifying partner wins and nothing else is touched: when the update
of prop `A` (unpaused, not yet updated, candidate on the floor, no cooldown left after the
decrement) performs the peer scan, the scan leaves the loop with `prop` pointing to the
first object `j` in container order that is a prop, is not `A`, is not marked with the
current frame and lies at distance `< 0.5` from the candidate of `A`; of that partner only
the velocity is modified (negated), and every object other than `A` and the partner is
unchanged. When no object qualifies, every object other than `A` is unchanged. -/
theorem first_partner_wins (L : Libm K) (deltaTime : K) (self : ℕ) (gs : GameState K)
    (A : PropObject K) (hA : propAt gs.mObjects self = some A) (hp : gs.mPaused = false)
    (hfresh : A.mUpdateFrame ≠ gs.mFrame) (hin : InFloor (A.candidate deltaTime))
    (hcool : A.cooled deltaTime = 0) :
    (∀ j, IsPeer L gs.mFrame self (A.candidate deltaTime) gs.mObjects j →
      (∀ k, k < j → ¬ IsPeer L gs.mFrame self (A.candidate deltaTime) gs.mObjects k) →
      scanPeers L gs.mFrame self (A.candidate deltaTime)
        (gs.modifyProp self (fun p => { p with mOverrideDist := A.cooled deltaTime })).mObjects
        0 false none = ⟨true, some j, true⟩ ∧
      (∃ B, propAt gs.mObjects j = some B ∧
        propAt (PropUpdate L deltaTime self gs).mObjects j
          = some { B with mVelocityXZ := B.mVelocityXZ.neg }) ∧
      ∀ k, k ≠ self → k ≠ j → (PropUpdate L deltaTime self gs).mObjects[k]? = gs.mObjects[k]?) ∧
    ((∀ k, ¬ IsPeer L gs.mFrame self (A.candidate deltaTime) gs.mObjects k) →
      ∀ k, k ≠ self → (PropUpdate L deltaTime self gs).mObjects[k]? = gs.mObjects[k]?) := by
  constructor
  · intro j hj hfirst
    have hj' := hj
    obtain ⟨B, hB, hjs, _, _⟩ := hj'
    rw [PropUpdate_peer L deltaTime self gs A hA hp hfresh hin hcool j hj hfirst]
    refine ⟨scanPeers_first L deltaTime self gs A _ j hj hfirst, ⟨B, hB, ?_⟩, ?_⟩
    · rw [propAt_modifyProp, if_pos rfl, propAt_modifyProp, if_neg (fun e => hjs e.symm), hB]
      rfl
    · intro k hks hkj
      rw [getElem?_modifyProp_ne _ j k _ hkj, getElem?_modifyProp_ne _ self k _ hks]
  · intro hno k hks
    rw [PropUpdate_free L deltaTime self gs A hA hp hfresh hin (Or.inr hno),
      getElem?_modifyProp_ne _ self k _ hks]

/-- Witness of C20: the scenario of the specification with a third prop `C` that is also
within `0.5` of the candidate of `A` but comes after `B` in the container: `B` is the
partner and `C` is left unchanged. -/
theorem first_partner_wins_witness :
    IsPeer ratLibm sceneABC.mFrame 0 (propA.candidate (1 / 25)) sceneABC.mObjects 2 ∧
    scanPeers ratLibm sceneABC.mFrame 0 (propA.candidate (1 / 25))
        (sceneABC.modifyProp 0
          (fun p => { p with mOverrideDist := propA.cooled (1 / 25) })).mObjects
        0 false none = ⟨true, some 1, true⟩ ∧
    (∃ B, propAt sceneABC.mObjects 1 = some B ∧
      propAt (PropUpdate ratLibm (1 / 25) 0 sceneABC).mObjects 1
        = some { B with mVelocityXZ := B.mVelocityXZ.neg }) ∧
    ∀ k, k ≠ 0 → k ≠ 1 →
      (PropUpdate ratLibm (1 / 25) 0 sceneABC).mObjects[k]? = sceneABC.mObjects[k]? :=
  ⟨sceneABC_peer_C,
    (first_partner_wins ratLibm (1 / 25) 0 sceneABC propA rfl rfl (by decide)
      propA_candidate_inFloor propA_cooled).1 1 sceneABC_peer sceneABC_first⟩

/-- Witness of C12: the scenario of the specification, whose two velocities `(1, 0)` and
`(-1, 0)` have length `1`, before and after the update of `A`. -/
theorem unit_velocity_preserved_witness :
    AllProps (fun p => length2 ratLibm p.mVelocityXZ = 1) sceneAB.mObjects ∧
    AllProps (fun p => length2 ratLibm p.mVelocityXZ = 1)
      (PropUpdate ratLibm (1 / 25) 0 sceneAB).mObjects :=
  ⟨sceneAB_unit, unit_velocity_preserved ratLibm (1 / 25) 0 sceneAB sceneAB_unit⟩

/-- Witness of C19: the scenario of the specification with `A` on a cooldown of `0.5`:
`A` moves from `(0, 0)` to `(0.1, 0)` although `B` is within `0.5` of the candidate. -/
theorem no_collision_step_witness :
    ∃ A', propAt (PropUpdate ratLibm (1 / 25) 0 sceneLong).mObjects 0 = some A' ∧
      A'.mPosXZ = propALong.mPosXZ.add (propALong.mVelocityXZ.smul ((1 / 25) * (5 / 2))) ∧
      A'.mVelocityXZ = propALong.mVelocityXZ ∧
      A'.mOverrideDist = glmMax (propALong.mOverrideDist - (1 / 25) * (5 / 2)) 0 ∧
      A'.mUpdateFrame = sceneLong.mFrame :=
  no_collision_step ratLibm (1 / 25) 0 sceneLong propALong rfl rfl (by decide)
    (by simp only [InFloor, propALong, mkProp, Vec2.add, Vec2.smul]; norm_num)
    (Or.inl (by simp only [glmMax, propALong, mkProp]; norm_num))

/-- Claim C11. Transform composition: the world matrix that `Prop::Update` stores in
`mTransform` for a prop with ground position `p`, velocity `d` and scale `s` is
`translate( p.x, 0, p.y ) * rot( d ) * scale( s, s, s )`; when `d` has unit length
(`dot( d, d ) = 1`, with `sqrt( 1 ) = 1`) its translation column is `(p.x, 0, p.y, 1)` and
its upper left block is `s` times the basis with columns `(d.y, 0, -d.x)`, `(0, 1, 0)` and
`(d.x, 0, d.y)`, which is orthonormal and right handed. After an unpaused `Prop::Update`
the stored `mTransform` is this matrix for the stored position, velocity and scale. -/
theorem world_transform_composition (L : Libm K) (hsqrt : L.sqrt 1 = 1) :
    (∀ (p : PropObject K),
      p.worldTransform L = ((translate (Mat4.diag 1) ⟨p.mPosXZ.x, 0, p.mPosXZ.y⟩).mul
        (PropUpdate.rot L p.mVelocityXZ)).mul (scale (Mat4.diag 1) ⟨p.mScale, p.mScale, p.mScale⟩)) ∧
    (∀ (p : PropObject K), Vec2.dot p.mVelocityXZ p.mVelocityXZ = 1 →
      p.worldTransform L =
        ⟨(⟨p.mVelocityXZ.y, 0, -p.mVelocityXZ.x, 0⟩ : Vec4 K).smul p.mScale,
         (⟨0, 1, 0, 0⟩ : Vec4 K).smul p.mScale,
         (⟨p.mVelocityXZ.x, 0, p.mVelocityXZ.y, 0⟩ : Vec4 K).smul p.mScale,
         ⟨p.mPosXZ.x, 0, p.mPosXZ.y, 1⟩⟩) ∧
    (∀ (d : Vec2 K), Vec2.dot d d = 1 →
      Vec3.dot ⟨d.y, 0, -d.x⟩ ⟨d.y, 0, -d.x⟩ = 1 ∧ Vec3.dot (⟨0, 1, 0⟩ : Vec3 K) ⟨0, 1, 0⟩ = 1 ∧
      Vec3.dot ⟨d.x, 0, d.y⟩ ⟨d.x, 0, d.y⟩ = 1 ∧ Vec3.dot ⟨d.y, 0, -d.x⟩ ⟨0, 1, 0⟩ = 0 ∧
      Vec3.dot ⟨d.y, 0, -d.x⟩ ⟨d.x, 0, d.y⟩ = 0 ∧ Vec3.dot ⟨0, 1, 0⟩ ⟨d.x, 0, d.y⟩ = 0 ∧
      Vec3.cross ⟨d.y, 0, -d.x⟩ ⟨0, 1, 0⟩ = ⟨d.x, 0, d.y⟩) ∧
    (∀ (deltaTime : K) (self : ℕ) (gs : GameState K) (A A' : PropObject K),
      propAt gs.mObjects self = some A → gs.mPaused = false →
      propAt (PropUpdate L deltaTime self gs).mObjects self = some A' →
      A'.mTransform = A'.worldTransform L) := by
  refine ⟨?_, ?_, ?_, ?_⟩
  · intro p
    unfold PropObject.worldTransform
    simp only []
    rw [scale_eq_mul]
  · intro p hd
    unfold PropObject.worldTransform
    simp only []
    rw [rot_unit L _ hsqrt hd]
    simp only [scale, translate, Mat4.mul, Mat4.mulVec, Mat4.diag, Vec4.smul, Vec4.add]
    ext <;> simp
  · intro d hd
    unfold Vec2.dot at hd
    simp only [Vec3.dot, Vec3.cross]
    refine ⟨by linear_combination hd, by norm_num, by linear_combination hd, by ring, by ring,
      by ring, ?_⟩
    ext <;> simp
  · intro deltaTime self gs A A' hA hp hA'
    exact PropUpdate_stores_worldTransform L deltaTime self gs A hA hp A' hA'

/-- Witness of C11: the prop at `(5, 7)` heading `(3/5, 4/5)` with scale `1/8`. -/
theorem world_transform_composition_witness :
    propFacing.worldTransform ratLibm =
      ⟨⟨1 / 10, 0, -(3 / 40), 0⟩, ⟨0, 1 / 8, 0, 0⟩, ⟨3 / 40, 0, 1 / 10, 0⟩, ⟨5, 0, 7, 1⟩⟩ := by
  rw [(world_transform_composition ratLibm ratLibm_sqrt_one).2.1 propFacing
    (by simp only [Vec2.dot, propFacing]; norm_num)]
  simp only [propFacing, Vec4.smul]
  norm_num

/-- Counterexample to C16 as stated. A light at `(24.9, 0)` heading `(1, 0)` with
`deltaTime = 0.1` advances to `(25.4, 0)`, off the floor; with `rand()` returning `100` and
`50` its velocity after `Light::Update` is `(1, 0)`, not the negation `(-1, 0)`. The prop
of Lesson3_GeometryStage at `(9.96, 0)` heading `(1, 0)` with `deltaTime = 0.1` advances to
`(10.21, 0)`; with `rand()` returning `50` and `100` its velocity after `Prop::Update` is
`(0, 1)`, not `(-1, 0)`. -/
theorem bounce_reflects_velocity_counterexample :
    (¬ InFloor (lightNearWall.advanced (1 / 10)) ∧ lightNearWall.mVelocityXZ = ⟨1, 0⟩ ∧
      (Light.Update ratLibm randHundredFifty false (1 / 10) lightNearWall 0).1.mVelocityXZ
        = ⟨1, 0⟩) ∧
    (¬ Lesson3.InFloor (propWall3.advanced (1 / 10)) ∧ propWall3.mVelocityXZ = ⟨1, 0⟩ ∧
      (Lesson3.PropUpdate ratLibm false 50 100 (1 / 10) propWall3).mVelocityXZ = ⟨0, 1⟩) := by
  refine ⟨⟨lightNearWall_out, rfl, ?_⟩, propWall3_out, rfl, ?_⟩
  · rw [Light_Update_wall ratLibm randHundredFifty (1 / 10) lightNearWall 0 lightNearWall_out]
    have hd : Lesson3.drawnDirection ℚ (randHundredFifty 0) (randHundredFifty (0 + 1))
        = ⟨1, 0⟩ := by
      simp only [Lesson3.drawnDirection, randHundredFifty]
      norm_num
    show normalize2 ratLibm _ = _
    rw [hd, normalize2_ratLibm_unit _ (by simp only [Vec2.dot]; norm_num)]
  · rw [(Lesson3_PropUpdate_wall ratLibm 50 100 (1 / 10) propWall3 propWall3_out).1]
    have hd : Lesson3.drawnDirection ℚ 50 100 = ⟨0, 1⟩ := by
      simp only [Lesson3.drawnDirection]
      norm_num
    rw [hd, normalize2_ratLibm_unit _ (by simp only [Vec2.dot]; norm_num)]

/-- Claim C16, amended. Simple bounce entities draw a new direction: for every light of
Lesson4_RasterizationStage and every prop of Lesson3_GeometryStage that is not paused, if
the position after adding `velocity * deltaTime * speed` leaves the floor on either axis,
then after `Update` the velocity is the normalized direction
`(-1 + (r0 % 101) / 100 * 2, -1 + (r1 % 101) / 100 * 2)`, where `r0` and `r1` are the next
two results of `rand()`; the light has then consumed two results. -/
theorem bounce_draws_new_direction :
    (∀ (L : Libm K) (rand : ℕ → ℕ) (deltaTime : K) (l : Light K) (n : ℕ),
      ¬ InFloor (l.advanced deltaTime) →
      (Light.Update L rand false deltaTime l n).1.mVelocityXZ
        = normalize2 L (Lesson3.drawnDirection K (rand n) (rand (n + 1))) ∧
      (Light.Update L rand false deltaTime l n).2 = n + 2) ∧
    (∀ (L : Libm K) (r0 r1 : ℕ) (deltaTime : K) (p : Lesson3.PropObject K),
      ¬ Lesson3.InFloor (p.advanced deltaTime) →
      (Lesson3.PropUpdate L false r0 r1 deltaTime p).mVelocityXZ
        = normalize2 L (Lesson3.drawnDirection K r0 r1)) := by
  constructor
  · intro L rand deltaTime l n hout
    rw [Light_Update_wall L rand deltaTime l n hout]
    exact ⟨rfl, rfl⟩
  · intro L r0 r1 deltaTime p hout
    exact (Lesson3_PropUpdate_wall L r0 r1 deltaTime p hout).1

/-- Witness of C16 (amended): the light at `(24.9, 0)` and the prop of
Lesson3_GeometryStage at `(9.96, 0)`, both heading `(1, 0)`, with `deltaTime = 0.1`. -/
theorem bounce_draws_new_direction_witness :
    (¬ InFloor (lightNearWall.advanced (1 / 10)) ∧
      (Light.Update ratLibm randHundredFifty false (1 / 10) lightNearWall 0).1.mVelocityXZ
        = normalize2 ratLibm
            (Lesson3.drawnDirection ℚ (randHundredFifty 0) (randHundredFifty (0 + 1))) ∧
      (Light.Update ratLibm randHundredFifty false (1 / 10) lightNearWall 0).2 = 0 + 2) ∧
    (¬ Lesson3.InFloor (propWall3.advanced (1 / 10)) ∧
      (Lesson3.PropUpdate ratLibm false 3 4 (1 / 10) propWall3).mVelocityXZ
        = normalize2 ratLibm (Lesson3.drawnDirection ℚ 3 4)) :=
  ⟨⟨lightNearWall_out, bounce_draws_new_direction.1 ratLibm randHundredFifty (1 / 10)
      lightNearWall 0 lightNearWall_out⟩,
    ⟨propWall3_out, bounce_draws_new_direction.2 ratLibm 3 4 (1 / 10) propWall3 propWall3_out⟩⟩

/-- Counterexample to C17 as stated, on values that a `float` holds exactly. The light at
`(24.5, 0)` heading `(1, 0)` advances with `deltaTime = 0.125` to `(25.125, 0)` and hits
the wall; when both calls of `rand()` return `50` the drawn direction is `(0, 0)` and
`glm::normalize` stores `0 * (1 / sqrt( 0 ))`, a NaN in both components, as velocity, next
to the clamped position `(25, 0)`. From this state the next unpaused `Light::Update`
advances the position to a NaN, every comparison of the wall test is false, nothing is
clamped and the stored position is not in `[-25, 25]`. The same happens to the prop of
Lesson3_GeometryStage at `(9.5, 0)` heading `(1, 0)` with `deltaTime = 0.25`. -/
theorem bounce_stays_in_bounds_counterexample :
    lightBounced
      = (Ieee.Light.Update ratLibm randFifty false (.num (1 / 8)) (Ieee.ofLight lightAtWall)
          0).1 ∧
    lightBounced = ⟨⟨.num 25, .num 0⟩, ⟨.nan, .nan⟩⟩ ∧
    (Ieee.Light.Update ratLibm randFifty false (.num (1 / 8)) lightBounced 2).1.mPosXZ
      = ⟨.nan, .nan⟩ ∧
    ¬ Ieee.InSquare 25
      (Ieee.Light.Update ratLibm randFifty false (.num (1 / 8)) lightBounced 2).1.mPosXZ ∧
    propBounced3
      = Ieee.Lesson3.PropUpdate ratLibm false 50 50 (.num (1 / 4))
          (Ieee.Lesson3.ofProp propAtWall3) ∧
    propBounced3 = ⟨⟨.num 10, .num 0⟩, ⟨.nan, .nan⟩⟩ ∧
    (Ieee.Lesson3.PropUpdate ratLibm false 50 50 (.num (1 / 4)) propBounced3).mPosXZ
      = ⟨.nan, .nan⟩ ∧
    ¬ Ieee.InSquare 10
      (Ieee.Lesson3.PropUpdate ratLibm false 50 50 (.num (1 / 4)) propBounced3).mPosXZ := by
  have hl : (Ieee.Light.Update ratLibm randFifty false (.num (1 / 8)) lightBounced 2).1.mPosXZ
      = ⟨.nan, .nan⟩ := by
    rw [lightBounced_eq]
    exact ieee_LightUpdate_nan ratLibm randFifty (1 / 8) ⟨25, 0⟩ 2
  have hp : (Ieee.Lesson3.PropUpdate ratLibm false 50 50 (.num (1 / 4)) propBounced3).mPosXZ
      = ⟨.nan, .nan⟩ := by
    rw [propBounced3_eq]
    exact ieee_Lesson3_PropUpdate_nan ratLibm 50 50 (1 / 4) ⟨10, 0⟩
  refine ⟨rfl, lightBounced_eq, hl, ?_, rfl, propBounced3_eq, hp, ?_⟩
  · rw [hl]
    exact ieee_not_InSquare_nan 25 _
  · rw [hp]
    exact ieee_not_InSquare_nan 10 _

/-- Claim C17, amended. Simple bounce entities that hold numbers stay in bounds. Read over
floats with infinities and NaN: for every light (floor `[-25, 25]²`) and every prop of
Lesson3_GeometryStage (floor `[-10, 10]²`) whose position and velocity are numbers, for
every `deltaTime` that is a number and every outcome of `rand()`, after an unpaused
`Update` both position components lie on the floor; when the advanced position left the
floor the stored position is the advanced position clamped componentwise, otherwise it is
the advanced position. -/
theorem bounce_stays_in_bounds :
    (∀ (L : Libm K) (rand : ℕ → ℕ) (deltaTime : K) (l : Light K) (n : ℕ),
      Ieee.InSquare 25
        (Ieee.Light.Update L rand false (.num deltaTime) (Ieee.ofLight l) n).1.mPosXZ ∧
      (¬ Ieee.InSquare 25 ((Ieee.ofLight l).advanced (.num deltaTime)) →
        (Ieee.Light.Update L rand false (.num deltaTime) (Ieee.ofLight l) n).1.mPosXZ
          = Ieee.glmClamp2 ((Ieee.ofLight l).advanced (.num deltaTime))
              (.num (-25)) (.num 25)) ∧
      (Ieee.InSquare 25 ((Ieee.ofLight l).advanced (.num deltaTime)) →
        (Ieee.Light.Update L rand false (.num deltaTime) (Ieee.ofLight l) n).1.mPosXZ
          = (Ieee.ofLight l).advanced (.num deltaTime))) ∧
    (∀ (L : Libm K) (r0 r1 : ℕ) (deltaTime : K) (p : Lesson3.PropObject K),
      Ieee.InSquare 10
        (Ieee.Lesson3.PropUpdate L false r0 r1 (.num deltaTime) (Ieee.Lesson3.ofProp p)).mPosXZ ∧
      (¬ Ieee.InSquare 10 ((Ieee.Lesson3.ofProp p).advanced (.num deltaTime)) →
        (Ieee.Lesson3.PropUpdate L false r0 r1 (.num deltaTime) (Ieee.Lesson3.ofProp p)).mPosXZ
          = Ieee.glmClamp2 ((Ieee.Lesson3.ofProp p).advanced (.num deltaTime))
              (.num (-10)) (.num 10)) ∧
      (Ieee.InSquare 10 ((Ieee.Lesson3.ofProp p).advanced (.num deltaTime)) →
        (Ieee.Lesson3.PropUpdate L false r0 r1 (.num deltaTime) (Ieee.Lesson3.ofProp p)).mPosXZ
          = (Ieee.Lesson3.ofProp p).advanced (.num deltaTime))) := by
  constructor
  · intro L rand deltaTime l n
    rw [ieee_Light_advanced, ieee_inSquare_iff_inFloor, ieee_glmClamp2_numVec]
    by_cases hin : InFloor (l.advanced deltaTime)
    · rw [ieee_LightUpdate_free L rand deltaTime l n hin]
      exact ⟨(ieee_inSquare_iff_inFloor _).2 hin, fun h => absurd hin h, fun _ => rfl⟩
    · rw [ieee_LightUpdate_wall L rand deltaTime l n hin]
      exact ⟨(ieee_inSquare_iff_inFloor _).2 (glmClamp2_inFloor _), fun _ => rfl,
        fun h => absurd h hin⟩
  · intro L r0 r1 deltaTime p
    rw [ieee_Lesson3_advanced, ieee_inSquare_iff_inFloor10, ieee_glmClamp2_numVec]
    by_cases hin : Lesson3.InFloor (p.advanced deltaTime)
    · rw [ieee_Lesson3_PropUpdate_free L r0 r1 deltaTime p hin]
      exact ⟨(ieee_inSquare_iff_inFloor10 _).2 hin, fun h => absurd hin h, fun _ => rfl⟩
    · rw [ieee_Lesson3_PropUpdate_wall L r0 r1 deltaTime p hin]
      exact ⟨(ieee_inSquare_iff_inFloor10 _).2 (glmClamp2_inFloor10 _), fun _ => rfl,
        fun h => absurd h hin⟩

/-- Witness of C17 (amended): the light at `(24.5, 0)` ends at `(25, 0)` and the prop of
Lesson3_GeometryStage at `(9.5, 0)` ends at `(10, 0)`. -/
theorem bounce_stays_in_bounds_witness :
    (¬ Ieee.InSquare 25 ((Ieee.ofLight lightAtWall).advanced (.num (1 / 8))) ∧
      (Ieee.Light.Update ratLibm randHundredFifty false (.num (1 / 8))
        (Ieee.ofLight lightAtWall) 0).1.mPosXZ = ⟨.num 25, .num 0⟩) ∧
    (¬ Ieee.InSquare 10 ((Ieee.Lesson3.ofProp propAtWall3).advanced (.num (1 / 4))) ∧
      (Ieee.Lesson3.PropUpdate ratLibm false 1 2 (.num (1 / 4))
        (Ieee.Lesson3.ofProp propAtWall3)).mPosXZ = ⟨.num 10, .num 0⟩) := by
  have h1 : ¬ Ieee.InSquare 25 ((Ieee.ofLight lightAtWall).advanced (.num (1 / 8))) := by
    rw [ieee_Light_advanced, ieee_inSquare_iff_inFloor]
    exact lightAtWall_out
  have h2 : ¬ Ieee.InSquare 10 ((Ieee.Lesson3.ofProp propAtWall3).advanced (.num (1 / 4))) := by
    rw [ieee_Lesson3_advanced, ieee_inSquare_iff_inFloor10]
    exact propAtWall3_out
  refine ⟨⟨h1, ?_⟩, h2, ?_⟩
  · rw [(bounce_stays_in_bounds.1 ratLibm randHundredFifty (1 / 8) lightAtWall 0).2.1 h1,
      ieee_Light_advanced, lightAtWall_advanced, ieee_glmClamp2_numVec]
    simp only [Ieee.numVec, glmClamp2, glmClamp, glmMin, glmMax]
    norm_num
  · rw [(bounce_stays_in_bounds.2 ratLibm 1 2 (1 / 4) propAtWall3).2.1 h2,
      ieee_Lesson3_advanced, propAtWall3_advanced, ieee_glmClamp2_numVec]
    simp only [Ieee.numVec, glmClamp2, glmClamp, glmMin, glmMax]
    norm_num

/-- Claim C13. View matrix is the inverse of the camera matrix: in exact arithmetic
(`sqrt( 1 ) = 1` and `cos² + sin² = 1`), for every camera state, positive window size, mouse
input, button mask and `deltaTime`, after `Camera::Update` the stored matrices satisfy
`mViewMatrix * mCameraMatrix = mCameraMatrix * mViewMatrix = identity`, where
`mCameraMatrix` is `rotateY( yaw ) * rotateX( pitch )` with its translation column replaced
by `(updated position, 1)`. -/
theorem view_matrix_is_inverse (L : Libm K) (hsqrt : L.sqrt 1 = 1)
    (htrig : ∀ a, L.cos a * L.cos a + L.sin a * L.sin a = 1) (wd ht : ℤ) (buttonMask : ℕ)
    (prevMousePos curMousePos : Vec2 K) (deltaTime : K) (c : Camera K)
    (_hwd : 0 < wd) (_hht : 0 < ht) :
    ((Camera.Update L wd ht buttonMask prevMousePos curMousePos deltaTime c).mViewMatrix.mul
      (Camera.Update L wd ht buttonMask prevMousePos curMousePos deltaTime c).mCameraMatrix
        = Mat4.diag 1) ∧
    ((Camera.Update L wd ht buttonMask prevMousePos curMousePos deltaTime c).mCameraMatrix.mul
      (Camera.Update L wd ht buttonMask prevMousePos curMousePos deltaTime c).mViewMatrix
        = Mat4.diag 1) ∧
    (Camera.Update L wd ht buttonMask prevMousePos curMousePos deltaTime c).mCameraMatrix =
      { (rotate L (Mat4.diag 1)
          (radians L (Camera.Update L wd ht buttonMask prevMousePos curMousePos deltaTime
            c).camera.mPitchYaw.x) ⟨0, 1, 0⟩).mul
        (rotate L (Mat4.diag 1)
          (radians L (Camera.Update L wd ht buttonMask prevMousePos curMousePos deltaTime
            c).camera.mPitchYaw.y) ⟨1, 0, 0⟩) with
        c3 := Vec4.ofVec3 (Camera.Update L wd ht buttonMask prevMousePos curMousePos deltaTime
          c).camera.mPosition 1 } := by
  obtain ⟨hM, hV⟩ := Camera_Update_matrices L wd ht buttonMask prevMousePos curMousePos
    deltaTime c
  have hdet : inverseDeterminant
      (Camera.Update L wd ht buttonMask prevMousePos curMousePos deltaTime c).mCameraMatrix
        ≠ 0 := by
    rw [hM, camera_rotation L hsqrt]
    simp only [Vec4.ofVec3]
    rw [camera_matrix_det _ _ _ _ _ _ _ (htrig _) (htrig _)]
    exact one_ne_zero
  refine ⟨?_, ?_, ?_⟩
  · rw [hV]
    exact inverse_mul_self _ hdet
  · rw [hV]
    exact mul_inverse_self _ hdet
  · rw [hM, rotate_eq_mul L (rotate L (Mat4.diag 1) _ _)]

/-- Claim C14. Camera translation step: for every camera state, button mask and
`deltaTime`, `Camera::Update` sets
`position' = position + 5 * dt * ((Down - Up) * F + (Right - Left) * R)`, where `Up`,
`Down`, `Left`, `Right` are `1` if the button bit is set and `0` otherwise, and `F` and `R`
are the third and first columns of the orientation built from the already updated (wrapped
and clamped) angles; bits of the mask outside the four direction bits have no effect on
anything `Camera::Update` writes. -/
theorem camera_translation_step (L : Libm K) (wd ht : ℤ) (buttonMask : ℕ)
    (prevMousePos curMousePos : Vec2 K) (deltaTime : K) (c : Camera K) :
    (Camera.Update L wd ht buttonMask prevMousePos curMousePos deltaTime c).camera.mPosition =
      c.mPosition.add (Vec3.lsmul (5 * deltaTime)
        ((Vec3.lsmul (buttonHeld K buttonMask BUTTON_DOWN - buttonHeld K buttonMask BUTTON_UP)
          (cameraOrientation L (Camera.Update L wd ht buttonMask prevMousePos curMousePos
            deltaTime c).camera.mPitchYaw).c2.xyz).add
         (Vec3.lsmul (buttonHeld K buttonMask BUTTON_RIGHT - buttonHeld K buttonMask BUTTON_LEFT)
          (cameraOrientation L (Camera.Update L wd ht buttonMask prevMousePos curMousePos
            deltaTime c).camera.mPitchYaw).c0.xyz))) ∧
    (Camera.Update L wd ht buttonMask prevMousePos curMousePos deltaTime c).camera.mPitchYaw =
      ⟨glmMod (c.mPitchYaw.add (((curMousePos.sub prevMousePos).div
            ⟨(wd : K), (ht : K)⟩).neg.mul ⟨90 * ((wd : K) / (ht : K)), 90⟩)).x 360,
       glmClamp (c.mPitchYaw.add (((curMousePos.sub prevMousePos).div
            ⟨(wd : K), (ht : K)⟩).neg.mul ⟨90 * ((wd : K) / (ht : K)), 90⟩)).y (-90) 90⟩ ∧
    Camera.Update L wd ht (buttonMask &&& 15) prevMousePos curMousePos deltaTime c =
      Camera.Update L wd ht buttonMask prevMousePos curMousePos deltaTime c := by
  refine ⟨Camera_Update_position L wd ht buttonMask prevMousePos curMousePos deltaTime c,
    rfl, ?_⟩
  obtain ⟨h1, h2, h3, h4⟩ := land_fifteen buttonMask
  unfold Camera.Update
  simp only [h1, h2, h3, h4]

/-- Claim C15. Diagonal movement is not normalized: in exact arithmetic (`sqrt` the
non-negative square root, `cos² + sin² = 1`), for every pitch, yaw and `deltaTime`, the
displacement of the camera position in one `Camera::Update` has Euclidean length exactly
`5 * |deltaTime|` when exactly one direction button is held, and exactly
`5 * sqrt( 2 ) * |deltaTime|` when exactly one of Up/Down and exactly one of Left/Right
are held. -/
theorem diagonal_movement_not_normalized (L : Libm K)
    (hsqrt : ∀ x, 0 ≤ x → 0 ≤ L.sqrt x ∧ L.sqrt x * L.sqrt x = x)
    (htrig : ∀ a, L.cos a * L.cos a + L.sin a * L.sin a = 1) (wd ht : ℤ) (buttonMask : ℕ)
    (prevMousePos curMousePos : Vec2 K) (deltaTime : K) (c : Camera K) :
    (buttonHeld K buttonMask BUTTON_UP + buttonHeld K buttonMask BUTTON_DOWN +
        buttonHeld K buttonMask BUTTON_LEFT + buttonHeld K buttonMask BUTTON_RIGHT = 1 →
      length3 L ((Camera.Update L wd ht buttonMask prevMousePos curMousePos deltaTime
        c).camera.mPosition.sub c.mPosition) = 5 * |deltaTime|) ∧
    (buttonHeld K buttonMask BUTTON_UP + buttonHeld K buttonMask BUTTON_DOWN = 1 →
      buttonHeld K buttonMask BUTTON_LEFT + buttonHeld K buttonMask BUTTON_RIGHT = 1 →
      length3 L ((Camera.Update L wd ht buttonMask prevMousePos curMousePos deltaTime
        c).camera.mPosition.sub c.mPosition) = 5 * L.sqrt 2 * |deltaTime|) := by
  have hdot := camera_displacement_dot L (sqrt_one_of_spec L hsqrt) htrig wd ht buttonMask
    prevMousePos curMousePos deltaTime c
  have habs : |deltaTime| * |deltaTime| = deltaTime * deltaTime := abs_mul_abs_self deltaTime
  have h2 : L.sqrt 2 * L.sqrt 2 = 2 := (hsqrt 2 (by norm_num)).2
  have h2' : 0 ≤ L.sqrt 2 := (hsqrt 2 (by norm_num)).1
  constructor
  · intro hone
    unfold length3
    rw [hdot]
    apply sqrt_eq_of_mul_self L hsqrt _ _ (by positivity)
    rcases buttonHeld_cases K buttonMask BUTTON_UP with hu | hu <;>
      rcases buttonHeld_cases K buttonMask BUTTON_DOWN with hd | hd <;>
      rcases buttonHeld_cases K buttonMask BUTTON_LEFT with hl | hl <;>
      rcases buttonHeld_cases K buttonMask BUTTON_RIGHT with hr | hr <;>
      rw [hu, hd, hl, hr] at hone ⊢ <;>
      first
        | linear_combination 25 * habs
        | (exfalso; norm_num at hone)
  · intro hv hh
    unfold length3
    rw [hdot]
    apply sqrt_eq_of_mul_self L hsqrt _ _ (by positivity)
    rcases buttonHeld_cases K buttonMask BUTTON_UP with hu | hu <;>
      rcases buttonHeld_cases K buttonMask BUTTON_DOWN with hd | hd <;>
      rcases buttonHeld_cases K buttonMask BUTTON_LEFT with hl | hl <;>
      rcases buttonHeld_cases K buttonMask BUTTON_RIGHT with hr | hr <;>
      rw [hu, hd] at hv <;> rw [hl, hr] at hh <;> rw [hu, hd, hl, hr] <;>
      first
        | linear_combination 25 * L.sqrt 2 * L.sqrt 2 * habs + 25 * deltaTime * deltaTime * h2
        | (exfalso; norm_num at hv; done)
        | (exfalso; norm_num at hh)

/-- Witness of C13 over the real numbers with the real square root, cosine and sine: the
freshly constructed camera in an `800 x 600` window, Up held, the mouse moved by
`(10, 5)` pixels, `deltaTime = 0.1`. -/
theorem view_matrix_is_inverse_witness :
    ((Camera.Update (⟨Real.sqrt, Real.cos, Real.sin, Real.tan, Real.pi / 180⟩ : Libm ℝ)
        800 600 1 ⟨0, 0⟩ ⟨10, 5⟩ (1 / 10) (Camera.new ℝ)).mViewMatrix.mul
      (Camera.Update (⟨Real.sqrt, Real.cos, Real.sin, Real.tan, Real.pi / 180⟩ : Libm ℝ)
        800 600 1 ⟨0, 0⟩ ⟨10, 5⟩ (1 / 10) (Camera.new ℝ)).mCameraMatrix = Mat4.diag 1) ∧
    ((Camera.Update (⟨Real.sqrt, Real.cos, Real.sin, Real.tan, Real.pi / 180⟩ : Libm ℝ)
        800 600 1 ⟨0, 0⟩ ⟨10, 5⟩ (1 / 10) (Camera.new ℝ)).mCameraMatrix.mul
      (Camera.Update (⟨Real.sqrt, Real.cos, Real.sin, Real.tan, Real.pi / 180⟩ : Libm ℝ)
        800 600 1 ⟨0, 0⟩ ⟨10, 5⟩ (1 / 10) (Camera.new ℝ)).mViewMatrix = Mat4.diag 1) :=
  ⟨(view_matrix_is_inverse (⟨Real.sqrt, Real.cos, Real.sin, Real.tan, Real.pi / 180⟩ : Libm ℝ)
      Real.sqrt_one real_trig 800 600 1 ⟨0, 0⟩ ⟨10, 5⟩ (1 / 10) (Camera.new ℝ)
      (by decide) (by decide)).1,
    (view_matrix_is_inverse (⟨Real.sqrt, Real.cos, Real.sin, Real.tan, Real.pi / 180⟩ : Libm ℝ)
      Real.sqrt_one real_trig 800 600 1 ⟨0, 0⟩ ⟨10, 5⟩ (1 / 10) (Camera.new ℝ)
      (by decide) (by decide)).2.1⟩

/-- Witness of C15 over the real numbers: with `deltaTime = 0.1` the camera moves by
`5 * 0.1` with Up held (mask `1`) and by `5 * sqrt( 2 ) * 0.1` with Up and Right held
(mask `9`). -/
theorem diagonal_movement_not_normalized_witness :
    length3 (⟨Real.sqrt, Real.cos, Real.sin, Real.tan, Real.pi / 180⟩ : Libm ℝ)
      ((Camera.Update (⟨Real.sqrt, Real.cos, Real.sin, Real.tan, Real.pi / 180⟩ : Libm ℝ)
        800 600 1 ⟨0, 0⟩ ⟨10, 5⟩ (1 / 10) (Camera.new ℝ)).camera.mPosition.sub
        (Camera.new ℝ).mPosition) = 5 * |(1 / 10 : ℝ)| ∧
    length3 (⟨Real.sqrt, Real.cos, Real.sin, Real.tan, Real.pi / 180⟩ : Libm ℝ)
      ((Camera.Update (⟨Real.sqrt, Real.cos, Real.sin, Real.tan, Real.pi / 180⟩ : Libm ℝ)
        800 600 9 ⟨0, 0⟩ ⟨10, 5⟩ (1 / 10) (Camera.new ℝ)).camera.mPosition.sub
        (Camera.new ℝ).mPosition) = 5 * Real.sqrt 2 * |(1 / 10 : ℝ)| :=
  ⟨(diagonal_movement_not_normalized
      (⟨Real.sqrt, Real.cos, Real.sin, Real.tan, Real.pi / 180⟩ : Libm ℝ) real_sqrt_spec
      real_trig 800 600 1 ⟨0, 0⟩ ⟨10, 5⟩ (1 / 10) (Camera.new ℝ)).1 (by
        obtain ⟨h1, h2, h3, h4⟩ := buttonHeld_real_up
        rw [h1, h2, h3, h4]
        norm_num),
    (diagonal_movement_not_normalized
      (⟨Real.sqrt, Real.cos, Real.sin, Real.tan, Real.pi / 180⟩ : Libm ℝ) real_sqrt_spec
      real_trig 800 600 9 ⟨0, 0⟩ ⟨10, 5⟩ (1 / 10) (Camera.new ℝ)).2
      (by
        obtain ⟨h1, h2, h3, h4⟩ := buttonHeld_real_up_right
        rw [h1, h2]
        norm_num)
      (by
        obtain ⟨h1, h2, h3, h4⟩ := buttonHeld_real_up_right
        rw [h3, h4]
        norm_num)⟩

/-- Claim C18. Frame counter drives the prop state machine: `Init` sets `mFrame = 1` and a
freshly constructed prop has `mUpdateFrame = 0`; neither `Update` nor `Render` changes
`mFrame`, and an iteration of the main loop increases it by one (modulo `2 ^ 32`) after
`Render`; starting from `mFrame = 1` and props with `mUpdateFrame = 0`, after every number
of iterations below `2 ^ 32 - 1` the counter is `1` plus that number and no prop has
`mUpdateFrame` equal to `mFrame` (every mark is smaller), so every prop starts the next
update pass as not yet updated; the same holds whenever the loop `while
(!glfwWindowShouldClose)` stops. -/
theorem frame_counter_drives_state_machine (L : Libm K) (rand : ℕ → ℕ) :
    (∀ (xpos ypos : K) (g : GameState K), (Init xpos ypos g).mFrame = 1) ∧
    (∀ (scale : K) (r0 r1 r2 r3 : ℕ) (t0 : Mat4 K),
      (PropObject.new L scale r0 r1 r2 r3 t0).mUpdateFrame = 0) ∧
    (∀ (env : FrameEnv K) (m : Machine K),
      (Update L rand env m).gs.mFrame = m.gs.mFrame ∧
      (Render (Update L rand env m)).gs.mFrame = m.gs.mFrame ∧
      (mainIteration L rand env m).gs.mFrame = (m.gs.mFrame + 1) % 2 ^ 32) ∧
    (∀ (envs : List (FrameEnv K)) (m : Machine K), m.gs.mFrame = 1 →
      AllProps (fun p => p.mUpdateFrame = 0) m.gs.mObjects → envs.length < 2 ^ 32 - 1 →
      (runIterations L rand envs m).gs.mFrame = 1 + envs.length ∧
      AllProps (fun p => p.mUpdateFrame < (runIterations L rand envs m).gs.mFrame)
        (runIterations L rand envs m).gs.mObjects ∧
      AllProps (fun p => p.mUpdateFrame ≠ (mainLoop L rand envs m).gs.mFrame)
        (mainLoop L rand envs m).gs.mObjects) := by
  refine ⟨fun _ _ _ => rfl, fun _ _ _ _ _ _ => rfl, ?_, ?_⟩
  · intro env m
    exact ⟨Update_mFrame L rand env m, Update_mFrame L rand env m,
      mainIteration_mFrame L rand env m⟩
  · intro envs m hf h0 hlen
    have hstart : AllProps (fun p => p.mUpdateFrame < m.gs.mFrame) m.gs.mObjects := by
      intro k p hk
      have h00 : p.mUpdateFrame = 0 := h0 k p hk
      show p.mUpdateFrame < m.gs.mFrame
      omega
    have hrun := runIterations_marks L rand envs m (by rw [hf]; omega) hstart
    refine ⟨by rw [hrun.1, hf], hrun.2, ?_⟩
    obtain ⟨n, hn, e⟩ := mainLoop_eq_runIterations L rand envs m
    rw [e]
    have hrun' := runIterations_marks L rand (envs.take n) m
      (by rw [hf, List.length_take]; omega) hstart
    intro k p hk
    exact Nat.ne_of_lt (hrun'.2 k p hk)

/-- Witness of C18: two iterations of the main loop on the scenario of the specification,
which starts in frame `1` with both props marked `0`. -/
theorem frame_counter_drives_state_machine_witness :
    (runIterations ratLibm (fun _ => 0) [quietFrame, quietFrame] machineAB).gs.mFrame = 1 + 2 ∧
    AllProps (fun p => p.mUpdateFrame <
        (runIterations ratLibm (fun _ => 0) [quietFrame, quietFrame] machineAB).gs.mFrame)
      (runIterations ratLibm (fun _ => 0) [quietFrame, quietFrame] machineAB).gs.mObjects ∧
    AllProps (fun p => p.mUpdateFrame ≠
        (mainLoop ratLibm (fun _ => 0) [quietFrame, quietFrame] machineAB).gs.mFrame)
      (mainLoop ratLibm (fun _ => 0) [quietFrame, quietFrame] machineAB).gs.mObjects :=
  (frame_counter_drives_state_machine ratLibm (fun _ => 0)).2.2.2 [quietFrame, quietFrame]
    machineAB rfl sceneAB_unmarked (by norm_num)

/-- Claim C21. `Prop::Update` on a prop already updated in this frame (its `mUpdateFrame`
equals `mFrame`) writes nothing but `mTransform` of this prop (nothing at all while the
game is paused): position, velocity, cooldown, mark and scale of the prop are as before
and every other object is as before. After any call of `Prop::Update` a second call on the
same prop in the same frame, with the same or any other `deltaTime`, returns the scene it
was given. -/
theorem update_noop_on_updated_prop (L : Libm K) (deltaTime : K) (self : ℕ) (gs : GameState K) :
    (∀ A, propAt gs.mObjects self = some A → A.mUpdateFrame = gs.mFrame →
      PropUpdate L deltaTime self gs = gs.modifyProp self (fun p =>
        { p with mTransform := if gs.mPaused then p.mTransform else p.worldTransform L }) ∧
      (∃ t, propAt (PropUpdate L deltaTime self gs).mObjects self
        = some { A with mTransform := t }) ∧
      (∀ k, k ≠ self → (PropUpdate L deltaTime self gs).mObjects[k]? = gs.mObjects[k]?)) ∧
    PropUpdate L deltaTime self (PropUpdate L deltaTime self gs)
      = PropUpdate L deltaTime self gs ∧
    (∀ deltaTime', PropUpdate L deltaTime' self (PropUpdate L deltaTime self gs)
      = PropUpdate L deltaTime self gs) := by
  refine ⟨?_, PropUpdate_idem L deltaTime deltaTime self gs,
    fun d => PropUpdate_idem L deltaTime d self gs⟩
  intro A hA hf
  have e : PropUpdate L deltaTime self gs = gs.modifyProp self (fun p =>
      { p with mTransform := if gs.mPaused then p.mTransform else p.worldTransform L }) := by
    cases hp : gs.mPaused with
    | true =>
      rw [PropUpdate_paused L deltaTime self gs hp]
      symm
      apply modifyProp_id
      intro B _
      simp
    | false =>
      rw [PropUpdate_stale L deltaTime self gs A hA hp hf]
      simp
  refine ⟨e, ?_, ?_⟩
  · rw [e, propAt_modifyProp, if_pos rfl, hA]
    exact ⟨_, rfl⟩
  · intro k hk
    rw [e]
    exact getElem?_modifyProp_ne gs self k _ hk

/-- Witness of C21: in the scenario of the specification in frame `1`, the prop `A` marked
with frame `1`. -/
theorem update_noop_on_updated_prop_witness :
    propAt (mkScene [.prop (mkProp ⟨0, 0⟩ ⟨1, 0⟩ 0 1), .prop propB]).mObjects 0
      = some (mkProp ⟨0, 0⟩ ⟨1, 0⟩ 0 1) ∧
    (mkProp ⟨0, 0⟩ ⟨1, 0⟩ 0 1).mUpdateFrame
      = (mkScene [.prop (mkProp ⟨0, 0⟩ ⟨1, 0⟩ 0 1), .prop propB]).mFrame ∧
    (∃ t, propAt (PropUpdate ratLibm (1 / 25) 0
        (mkScene [.prop (mkProp ⟨0, 0⟩ ⟨1, 0⟩ 0 1), .prop propB])).mObjects 0
      = some { mkProp ⟨0, 0⟩ ⟨1, 0⟩ 0 1 with mTransform := t }) ∧
    (∀ k, k ≠ 0 → (PropUpdate ratLibm (1 / 25) 0
        (mkScene [.prop (mkProp ⟨0, 0⟩ ⟨1, 0⟩ 0 1), .prop propB])).mObjects[k]?
      = (mkScene [.prop (mkProp ⟨0, 0⟩ ⟨1, 0⟩ 0 1), .prop propB]).mObjects[k]?) :=
  ⟨rfl, rfl,
    ((update_noop_on_updated_prop ratLibm (1 / 25) 0
      (mkScene [.prop (mkProp ⟨0, 0⟩ ⟨1, 0⟩ 0 1), .prop propB])).1 _ rfl rfl).2⟩

/-- Claim C29. While `gGameState->mPaused` is true, `Prop::Update` returns the scene it was
given (every field of every object, whatever `deltaTime` and `mFrame` are), `Light::Update`
returns the light it was given and draws no random number, the virtual call `obj->Update`
on a prop or a light leaves the whole program state as it is, and `Prop::Update` of the
lesson with the floor `[-10, 10]²` returns the prop it was given. -/
theorem pause_freezes_props_and_lights :
    (∀ (L : Libm K) (deltaTime : K) (self : ℕ) (gs : GameState K), gs.mPaused = true →
      PropUpdate L deltaTime self gs = gs) ∧
    (∀ (L : Libm K) (rand : ℕ → ℕ) (deltaTime : K) (l : Light K) (n : ℕ),
      Light.Update L rand true deltaTime l n = (l, n)) ∧
    (∀ (L : Libm K) (rand : ℕ → ℕ) (wd ht : ℤ) (deltaTime : K) (i : ℕ) (w : GameState K × ℕ)
      (o : Object K), w.1.mPaused = true → w.1.mObjects[i]? = some o →
      ((∃ p, o = Object.prop p) ∨ (∃ l, o = Object.light l)) →
      ObjectUpdate L rand wd ht deltaTime i w = w) ∧
    (∀ (L : Libm K) (r0 r1 : ℕ) (deltaTime : K) (p : Lesson3.PropObject K),
      Lesson3.PropUpdate L true r0 r1 deltaTime p = p) := by
  refine ⟨fun L deltaTime self gs hp => PropUpdate_paused L deltaTime self gs hp,
    fun L rand deltaTime l n => rfl, ?_, fun L r0 r1 deltaTime p => rfl⟩
  intro L rand wd ht deltaTime i w o hp ho hk
  rcases hk with ⟨p, rfl⟩ | ⟨l, rfl⟩
  · unfold ObjectUpdate
    rw [ho]
    simp only []
    rw [PropUpdate_paused L deltaTime i w.1 hp]
  · have e : Light.Update L rand w.1.mPaused deltaTime l w.2 = (l, w.2) := by
      rw [hp]
      rfl
    unfold ObjectUpdate
    rw [ho]
    simp only []
    rw [e]
    simp only []
    rw [modifyAt_self_const w.1.mObjects i (Object.light l) ho]

/-- Witness of C29: the prop next to the wall in the paused scene. -/
theorem pause_freezes_props_and_lights_witness :
    sceneWallPaused.mPaused = true ∧
    PropUpdate ratLibm (1 / 10) 0 sceneWallPaused = sceneWallPaused :=
  ⟨rfl, pause_freezes_props_and_lights.1 ratLibm (1 / 10) 0 sceneWallPaused rfl⟩

/-- Claim C24. Mouse-look sensitivity: for every positive window size `(wd, ht)` and all
mouse positions, `Camera::Update` adds `-90 * dx / ht` degrees to the yaw `mPitchYaw.x`
before `glm::mod` wraps it and `-90 * dy / ht` degrees to the pitch `mPitchYaw.y` before
`glm::clamp` limits it, where `(dx, dy) = curMousePos - prevMousePos`; the factor
`-90 / ht` per pixel is the same for both axes, and the angles stored do not depend on the
window width. -/
theorem mouse_look_sensitivity (L : Libm K) (wd ht : ℤ) (buttonMask : ℕ)
    (prevMousePos curMousePos : Vec2 K) (deltaTime : K) (c : Camera K)
    (hwd : 0 < wd) (_hht : 0 < ht) :
    Camera.accumulatedYaw wd ht prevMousePos curMousePos c
      = c.mPitchYaw.x + -90 * (curMousePos.x - prevMousePos.x) / (ht : K) ∧
    Camera.accumulatedPitch wd ht prevMousePos curMousePos c
      = c.mPitchYaw.y + -90 * (curMousePos.y - prevMousePos.y) / (ht : K) ∧
    (Camera.Update L wd ht buttonMask prevMousePos curMousePos deltaTime c).camera.mPitchYaw
      = ⟨glmMod (c.mPitchYaw.x + -90 * (curMousePos.x - prevMousePos.x) / (ht : K)) 360,
         glmClamp (c.mPitchYaw.y + -90 * (curMousePos.y - prevMousePos.y) / (ht : K))
           (-90) 90⟩ ∧
    (∀ wd' : ℤ, 0 < wd' →
      (Camera.Update L wd' ht buttonMask prevMousePos curMousePos deltaTime c).camera.mPitchYaw
        = (Camera.Update L wd ht buttonMask prevMousePos curMousePos deltaTime
            c).camera.mPitchYaw) := by
  have hx := accumulatedYaw_eq wd ht prevMousePos curMousePos c hwd
  have hy := accumulatedPitch_eq wd ht prevMousePos curMousePos c
  have hform : ∀ w : ℤ, 0 < w →
      (Camera.Update L w ht buttonMask prevMousePos curMousePos deltaTime c).camera.mPitchYaw
        = ⟨glmMod (c.mPitchYaw.x + -90 * (curMousePos.x - prevMousePos.x) / (ht : K)) 360,
           glmClamp (c.mPitchYaw.y + -90 * (curMousePos.y - prevMousePos.y) / (ht : K))
             (-90) 90⟩ := by
    intro w hw
    rw [Camera_Update_eq_compose, ← accumulatedYaw_eq w ht prevMousePos curMousePos c hw,
      ← accumulatedPitch_eq w ht prevMousePos curMousePos c]
    rfl
  refine ⟨hx, hy, hform wd hwd, ?_⟩
  intro wd' hwd'
  rw [hform wd' hwd', hform wd hwd]

/-- Witness of C24: an `800 x 600` window, the mouse moved by `(10, 5)` pixels. -/
theorem mouse_look_sensitivity_witness :
    Camera.accumulatedYaw 800 600 (⟨0, 0⟩ : Vec2 ℚ) ⟨10, 5⟩ (Camera.new ℚ)
      = (Camera.new ℚ).mPitchYaw.x + -90 * (10 - 0) / ((600 : ℤ) : ℚ) ∧
    Camera.accumulatedPitch 800 600 (⟨0, 0⟩ : Vec2 ℚ) ⟨10, 5⟩ (Camera.new ℚ)
      = (Camera.new ℚ).mPitchYaw.y + -90 * (5 - 0) / ((600 : ℤ) : ℚ) :=
  ⟨(mouse_look_sensitivity ratLibm 800 600 0 ⟨0, 0⟩ ⟨10, 5⟩ (1 / 10) (Camera.new ℚ)
      (by decide) (by decide)).1,
    (mouse_look_sensitivity ratLibm 800 600 0 ⟨0, 0⟩ ⟨10, 5⟩ (1 / 10) (Camera.new ℚ)
      (by decide) (by decide)).2.1⟩

/-- Counterexample to C25 as stated: when the third and the fourth call of `rand()` in the
constructor both return `50`, the direction handed to `glm::normalize` is the zero vector
`(-1 + 50 / 100 * 2, -1 + 50 / 100 * 2) = (0, 0)`; the velocity of the constructed prop and
of the constructed light is then `(0, 0) * (1 / sqrt( 0 ))`, which in exact arithmetic is
the zero vector, of length `0` and not `1`. -/
theorem construction_unit_direction_counterexample :
    Lesson3.drawnDirection ℚ 50 50 = ⟨0, 0⟩ ∧
    (PropObject.new ratLibm 1 0 0 50 50 (Mat4.diag 1)).mVelocityXZ
      = normalize2 ratLibm (Lesson3.drawnDirection ℚ 50 50) ∧
    (PropObject.new ratLibm 1 0 0 50 50 (Mat4.diag 1)).mVelocityXZ = ⟨0, 0⟩ ∧
    length2 ratLibm (PropObject.new ratLibm 1 0 0 50 50 (Mat4.diag 1)).mVelocityXZ = 0 ∧
    length2 ratLibm (PropObject.new ratLibm 1 0 0 50 50 (Mat4.diag 1)).mVelocityXZ ≠ 1 ∧
    (Light.new ratLibm ⟨10, 10, 10⟩ 0 0 50 50).mVelocityXZ
      = normalize2 ratLibm (Lesson3.drawnDirection ℚ 50 50) ∧
    (Light.new ratLibm ⟨10, 10, 10⟩ 0 0 50 50).mVelocityXZ = ⟨0, 0⟩ ∧
    length2 ratLibm (Light.new ratLibm ⟨10, 10, 10⟩ 0 0 50 50).mVelocityXZ ≠ 1 := by
  have hd : Lesson3.drawnDirection ℚ 50 50 = ⟨0, 0⟩ :=
    (drawnDirection_eq_zero_iff 50 50).2 ⟨rfl, rfl⟩
  have hn : normalize2 ratLibm (Lesson3.drawnDirection ℚ 50 50) = ⟨0, 0⟩ := by
    rw [hd]
    simp only [normalize2, Vec2.smul, zero_mul]
  have hl : length2 ratLibm (⟨0, 0⟩ : Vec2 ℚ) = 0 := by
    have h0 : Vec2.dot (⟨0, 0⟩ : Vec2 ℚ) ⟨0, 0⟩ = 0 * 0 := by
      simp only [Vec2.dot]
      norm_num
    unfold length2
    rw [h0, ratLibm_sqrt_sq 0 (le_refl _)]
  have hp : (PropObject.new ratLibm 1 0 0 50 50 (Mat4.diag 1)).mVelocityXZ = ⟨0, 0⟩ := hn
  have hli : (Light.new ratLibm ⟨10, 10, 10⟩ 0 0 50 50).mVelocityXZ = ⟨0, 0⟩ := hn
  refine ⟨hd, rfl, hp, ?_, ?_, rfl, hli, ?_⟩
  · rw [hp, hl]
  · rw [hp, hl]
    norm_num
  · rw [hli, hl]
    norm_num

/-- Claim C25, amended. The constructors `Prop::Prop` and `Light::Light` hand the direction
`(-1 + (r2 % 101) / 100 * 2, -1 + (r3 % 101) / 100 * 2)` of their third and fourth random
draw to `glm::normalize`. This direction is the zero vector exactly when both draws are
`50` modulo `101`. For every other outcome of the draws the direction is not zero and,
with an exact square root, the constructed velocity has Euclidean length exactly `1`. -/
theorem construction_unit_direction (L : Libm K)
    (hsqrt : ∀ x, 0 ≤ x → 0 ≤ L.sqrt x ∧ L.sqrt x * L.sqrt x = x) (scale : K) (color : Vec3 K)
    (r0 r1 r2 r3 : ℕ) (t0 : Mat4 K) :
    (PropObject.new L scale r0 r1 r2 r3 t0).mVelocityXZ
      = normalize2 L (Lesson3.drawnDirection K r2 r3) ∧
    (Light.new L color r0 r1 r2 r3).mVelocityXZ
      = normalize2 L (Lesson3.drawnDirection K r2 r3) ∧
    (Lesson3.drawnDirection K r2 r3 = ⟨0, 0⟩ ↔ r2 % 101 = 50 ∧ r3 % 101 = 50) ∧
    (¬ (r2 % 101 = 50 ∧ r3 % 101 = 50) →
      Lesson3.drawnDirection K r2 r3 ≠ ⟨0, 0⟩ ∧
      length2 L (PropObject.new L scale r0 r1 r2 r3 t0).mVelocityXZ = 1 ∧
      length2 L (Light.new L color r0 r1 r2 r3).mVelocityXZ = 1) := by
  refine ⟨rfl, rfl, drawnDirection_eq_zero_iff r2 r3, ?_⟩
  intro h
  have hv : Lesson3.drawnDirection K r2 r3 ≠ ⟨0, 0⟩ :=
    fun e => h ((drawnDirection_eq_zero_iff r2 r3).1 e)
  exact ⟨hv, length2_normalize2 L hsqrt _ hv, length2_normalize2 L hsqrt _ hv⟩

/-- Witness of C25 (amended) over the real numbers: the draws `100` and `50` give the
direction `(1, 0)`. -/
theorem construction_unit_direction_witness :
    ¬ (100 % 101 = 50 ∧ 50 % 101 = 50) ∧
    length2 (⟨Real.sqrt, Real.cos, Real.sin, Real.tan, Real.pi / 180⟩ : Libm ℝ)
      (PropObject.new (⟨Real.sqrt, Real.cos, Real.sin, Real.tan, Real.pi / 180⟩ : Libm ℝ)
        1 0 0 100 50 (Mat4.diag 1)).mVelocityXZ = 1 ∧
    length2 (⟨Real.sqrt, Real.cos, Real.sin, Real.tan, Real.pi / 180⟩ : Libm ℝ)
      (Light.new (⟨Real.sqrt, Real.cos, Real.sin, Real.tan, Real.pi / 180⟩ : Libm ℝ)
        ⟨10, 10, 10⟩ 0 0 100 50).mVelocityXZ = 1 :=
  ⟨by decide,
    ((construction_unit_direction
      (⟨Real.sqrt, Real.cos, Real.sin, Real.tan, Real.pi / 180⟩ : Libm ℝ) real_sqrt_spec
      1 ⟨10, 10, 10⟩ 0 0 100 50 (Mat4.diag 1)).2.2.2 (by decide)).2⟩

/-- Claim C26. Pause toggles on key release only: `ProcessInput` changes `mPaused` (to its
negation) exactly when the previous sample `mPauseKey` was pressed and the sampled key is
released, and always stores the sampled key in `mPauseKey`; the object updates of `Update`
write neither flag. Hence over any sequence of samples the number of changes of `mPaused`
is the number of pressed-to-released transitions, and while every sample is pressed
`mPaused` never changes. The same statements end `ProcessInput` of Lesson3_GeometryStage. -/
theorem pause_toggles_on_release :
    (∀ (inp : InputSample K) (m : Machine K),
      ((ProcessInput inp m).gs.mPaused ≠ m.gs.mPaused ↔
        (m.gs.mPauseKey = true ∧ inp.keyP = false)) ∧
      (ProcessInput inp m).gs.mPaused =
        (if m.gs.mPauseKey = true ∧ inp.keyP = false then !m.gs.mPaused else m.gs.mPaused) ∧
      (ProcessInput inp m).gs.mPauseKey = inp.keyP ∧
      ((ProcessInput inp m).gs.mPaused, (ProcessInput inp m).gs.mPauseKey)
        = Lesson3.ProcessInput.pauseFlags inp.keyP m.gs.mPauseKey m.gs.mPaused) ∧
    (∀ (L : Libm K) (rand : ℕ → ℕ) (env : FrameEnv K) (m : Machine K),
      (Update L rand env m).gs.mPaused = (ProcessInput env.input m).gs.mPaused ∧
      (Update L rand env m).gs.mPauseKey = (ProcessInput env.input m).gs.mPauseKey) ∧
    (∀ (samples : List (InputSample K)) (m : Machine K),
      pauseToggles samples m = releases m.gs.mPauseKey (samples.map (fun s => s.keyP))) ∧
    (∀ (samples : List (InputSample K)) (m : Machine K), (∀ s ∈ samples, s.keyP = true) →
      pauseToggles samples m = 0 ∧ (processInputs samples m).gs.mPaused = m.gs.mPaused) := by
  refine ⟨?_, Update_flags, pauseToggles_eq_releases, ?_⟩
  · intro inp m
    refine ⟨?_, ProcessInput_mPaused inp m, rfl, rfl⟩
    rw [ProcessInput_mPaused]
    cases inp.keyP <;> cases m.gs.mPauseKey <;> cases m.gs.mPaused <;> simp
  · intro samples m h
    refine ⟨?_, processInputs_held samples m h⟩
    rw [pauseToggles_eq_releases]
    apply releases_held
    intro k hk
    obtain ⟨s, hs, rfl⟩ := List.mem_map.1 hk
    exact h s hs

/-- Witness of C26: the key `P` held down during three calls of `ProcessInput`. -/
theorem pause_toggles_on_release_witness :
    (∀ s ∈ [{ noInput with keyP := true }, { noInput with keyP := true },
      { noInput with keyP := true }], s.keyP = true) ∧
    pauseToggles [{ noInput with keyP := true }, { noInput with keyP := true },
      { noInput with keyP := true }] machineAB = 0 ∧
    (processInputs [{ noInput with keyP := true }, { noInput with keyP := true },
      { noInput with keyP := true }] machineAB).gs.mPaused = machineAB.gs.mPaused :=
  ⟨by simp, pause_toggles_on_release.2.2.2 _ machineAB (by simp)⟩

/-- Claim C30. Yaw wrapping is unobservable in the orientation: when `cos` and `sin` have
the period of `360` degrees (as the real functions have, with `glm::radians` the exact
conversion), then for every accumulated yaw `y` and pitch `p` the rotation
`rotateY( mod( y, 360 ) ) * rotateX( p )` equals `rotateY( y ) * rotateX( p )`, and the
camera matrix, the view matrix, the projection matrix and the position that
`Camera::Update` computes from the wrapped yaw are those that the same statements compute
from the accumulated yaw without the wrap. -/
theorem yaw_wrapping_unobservable (L : Libm K)
    (hcos : ∀ (a : K) (n : ℤ), L.cos (a - n * (360 * L.radPerDeg)) = L.cos a)
    (hsin : ∀ (a : K) (n : ℤ), L.sin (a - n * (360 * L.radPerDeg)) = L.sin a) :
    (∀ y p : K,
      (rotate L (Mat4.diag 1) (radians L (glmMod y 360)) ⟨0, 1, 0⟩).mul
          (rotate L (Mat4.diag 1) (radians L p) ⟨1, 0, 0⟩)
        = (rotate L (Mat4.diag 1) (radians L y) ⟨0, 1, 0⟩).mul
          (rotate L (Mat4.diag 1) (radians L p) ⟨1, 0, 0⟩)) ∧
    (∀ y p : K, cameraOrientation L ⟨glmMod y 360, p⟩ = cameraOrientation L ⟨y, p⟩) ∧
    (∀ (wd ht : ℤ) (buttonMask : ℕ) (prevMousePos curMousePos : Vec2 K) (deltaTime : K)
      (c : Camera K),
      Camera.Update L wd ht buttonMask prevMousePos curMousePos deltaTime c =
        Camera.Update.compose L wd ht buttonMask deltaTime c
          ⟨glmMod (Camera.accumulatedYaw wd ht prevMousePos curMousePos c) 360,
           glmClamp (Camera.accumulatedPitch wd ht prevMousePos curMousePos c) (-90) 90⟩ ∧
      Camera.Update L wd ht buttonMask prevMousePos curMousePos deltaTime c =
        { Camera.Update.compose L wd ht buttonMask deltaTime c
            ⟨Camera.accumulatedYaw wd ht prevMousePos curMousePos c,
             glmClamp (Camera.accumulatedPitch wd ht prevMousePos curMousePos c) (-90) 90⟩ with
          camera :=
            { (Camera.Update.compose L wd ht buttonMask deltaTime c
                ⟨Camera.accumulatedYaw wd ht prevMousePos curMousePos c,
                 glmClamp (Camera.accumulatedPitch wd ht prevMousePos curMousePos c) (-90)
                   90⟩).camera with
              mPitchYaw :=
                ⟨glmMod (Camera.accumulatedYaw wd ht prevMousePos curMousePos c) 360,
                 glmClamp (Camera.accumulatedPitch wd ht prevMousePos curMousePos c) (-90)
                   90⟩ } }) := by
  have key := rotate_glmMod L hcos hsin
  refine ⟨fun y p => by rw [key], fun y p => ?_, ?_⟩
  · unfold cameraOrientation
    simp only [key]
  · intro wd ht buttonMask prevMousePos curMousePos deltaTime c
    refine ⟨rfl, ?_⟩
    rw [Camera_Update_eq_compose]
    unfold Camera.Update.compose
    simp only [key]

/-- Witness of C30 over the real numbers: the accumulated yaw `400` degrees and the pitch
`10` degrees. -/
theorem yaw_wrapping_unobservable_witness :
    cameraOrientation (⟨Real.sqrt, Real.cos, Real.sin, Real.tan, Real.pi / 180⟩ : Libm ℝ)
        ⟨glmMod 400 360, 10⟩
      = cameraOrientation (⟨Real.sqrt, Real.cos, Real.sin, Real.tan, Real.pi / 180⟩ : Libm ℝ)
        ⟨400, 10⟩ :=
  (yaw_wrapping_unobservable (⟨Real.sqrt, Real.cos, Real.sin, Real.tan, Real.pi / 180⟩ : Libm ℝ)
    (fun a n => by
      have e : (360 : ℝ) * (Real.pi / 180) = 2 * Real.pi := by ring
      show Real.cos (a - n * (360 * (Real.pi / 180))) = Real.cos a
      rw [e]
      exact Real.cos_sub_int_mul_two_pi a n)
    (fun a n => by
      have e : (360 : ℝ) * (Real.pi / 180) = 2 * Real.pi := by ring
      show Real.sin (a - n * (360 * (Real.pi / 180))) = Real.sin a
      rw [e]
      exact Real.sin_sub_int_mul_two_pi a n)).2.1 400 10

/-- Claim C22. Wall test and its precedence, for `Prop::Update` on a not yet updated prop
`A` in an unpaused scene. The wall flag is true exactly when a component of the candidate
position is strictly below `-FLOOR_HALF_SIZE = -25` or strictly above `25`. A candidate
with all components in `[-25, 25]`, the boundary included, is not a wall collision: the
candidate is then committed whenever the call selects no collision partner. When the wall
flag is true the peer scan does not run (no distance test is evaluated, `prop` stays
`nullptr`, no partner is selected), so no other object is modified whatever lies around
the candidate, the prop turns round and stays where it is, and its cooldown is
`max( old cooldown - 2.5 * deltaTime, 0 )`, not `0.5`. -/
theorem wall_test_precedence (L : Libm K) (deltaTime : K) (self : ℕ) (gs : GameState K)
    (A : PropObject K) (hA : propAt gs.mObjects self = some A) (hp : gs.mPaused = false)
    (hfresh : A.mUpdateFrame ≠ gs.mFrame) :
    (FLOOR_HALF_SIZE K = 25 ∧
      (hitsWall (A.candidate deltaTime) = true ↔
        ((A.candidate deltaTime).x < -FLOOR_HALF_SIZE K ∨
         (A.candidate deltaTime).x > FLOOR_HALF_SIZE K ∨
         (A.candidate deltaTime).y < -FLOOR_HALF_SIZE K ∨
         (A.candidate deltaTime).y > FLOOR_HALF_SIZE K))) ∧
    (InFloor (A.candidate deltaTime) →
      hitsWall (A.candidate deltaTime) = false ∧
      (PropUpdate.partner L deltaTime self gs = none →
        (propAt (PropUpdate L deltaTime self gs).mObjects self).map (fun p => p.mPosXZ)
          = some (A.candidate deltaTime))) ∧
    (hitsWall (A.candidate deltaTime) = true →
      PropUpdate.scan L deltaTime self A gs = ⟨true, none, false⟩ ∧
      PropUpdate.tested L deltaTime self gs = [] ∧
      PropUpdate.partner L deltaTime self gs = none ∧
      (∀ k, k ≠ self → (PropUpdate L deltaTime self gs).mObjects[k]? = gs.mObjects[k]?) ∧
      (propAt (PropUpdate L deltaTime self gs).mObjects self).map (fun p => p.mOverrideDist)
        = some (max (A.mOverrideDist - 5 / 2 * deltaTime) 0) ∧
      (propAt (PropUpdate L deltaTime self gs).mObjects self).map
        (fun p => (p.mPosXZ, p.mVelocityXZ)) = some (A.mPosXZ, A.mVelocityXZ.neg)) := by
  refine ⟨⟨FLOOR_HALF_SIZE_eq, ?_⟩, ?_, ?_⟩
  · unfold hitsWall
    rw [decide_eq_true_iff]
  · intro hin
    refine ⟨(hitsWall_eq_false_iff _).2 hin, fun hpar => ?_⟩
    have hfree : A.cooled deltaTime ≠ 0 ∨
        ∀ k, ¬ IsPeer L gs.mFrame self (A.candidate deltaTime) gs.mObjects k := by
      by_contra hcon
      rw [not_or, not_not, not_forall] at hcon
      obtain ⟨hod, hex⟩ := hcon
      simp only [not_not] at hex
      obtain ⟨j, hj, hfirst⟩ := exists_first_peer L _ _ _ _ hex
      rw [partner_of_peer L deltaTime self gs A hA hp hfresh hin hod j hj hfirst] at hpar
      cases hpar
    rw [PropUpdate_free L deltaTime self gs A hA hp hfresh hin hfree, propAt_modifyProp,
      if_pos rfl, hA]
    rfl
  · intro hwall
    have hout : ¬ InFloor (A.candidate deltaTime) := (hitsWall_eq_true_iff _).1 hwall
    have hpar : PropUpdate.partner L deltaTime self gs = none := by
      apply partner_eq_none
      intro j hj
      obtain ⟨A', hA', _, _, hin', _⟩ := partner_some L deltaTime self gs j hj
      rw [hA] at hA'
      cases hA'
      exact hout hin'
    have hscan : PropUpdate.scan L deltaTime self A gs = ⟨true, none, false⟩ := by
      rcases scan_cases L deltaTime self A gs with ⟨_, e⟩ | ⟨hw, _⟩ | ⟨hw, _⟩
      · exact e
      · rw [hwall] at hw
        cases hw
      · rw [hwall] at hw
        cases hw
    have htest : PropUpdate.tested L deltaTime self gs = [] := by
      rw [tested_eq L deltaTime self gs A hA hp hfresh, if_neg]
      rw [hwall]
      simp
    have hmax : A.cooled deltaTime = max (A.mOverrideDist - 5 / 2 * deltaTime) 0 := by
      unfold PropObject.cooled glmMax
      rw [mul_comm deltaTime (5 / 2)]
      split_ifs with h
      · exact (max_eq_right (le_of_lt h)).symm
      · exact (max_eq_left (not_lt.1 h)).symm
    refine ⟨hscan, htest, hpar, ?_, ?_, ?_⟩
    · intro k hk
      exact PropUpdate_getElem?_other L deltaTime self gs k hk (by rw [hpar]; simp)
    · rw [PropUpdate_wall L deltaTime self gs A hA hp hfresh hout, propAt_modifyProp,
        if_pos rfl, hA, ← hmax]
      rfl
    · rw [PropUpdate_wall L deltaTime self gs A hA hp hfresh hout, propAt_modifyProp,
        if_pos rfl, hA]
      rfl

/-- Witness of C22: the prop at `(24.9, 0)` heading `(1, 0)` alone in the scene. With
`deltaTime = 0.04` the candidate `(25, 0)` lies exactly on the boundary and is committed;
with `deltaTime = 0.1` the candidate `(25.15, 0)` is a wall collision. -/
theorem wall_test_precedence_witness :
    (propNearWall.candidate (1 / 25) = ⟨25, 0⟩ ∧
      hitsWall (propNearWall.candidate (1 / 25)) = false ∧
      (propAt (PropUpdate ratLibm (1 / 25) 0 sceneWall).mObjects 0).map (fun p => p.mPosXZ)
        = some (propNearWall.candidate (1 / 25))) ∧
    (hitsWall (propNearWall.candidate (1 / 10)) = true ∧
      PropUpdate.tested ratLibm (1 / 10) 0 sceneWall = [] ∧
      (propAt (PropUpdate ratLibm (1 / 10) 0 sceneWall).mObjects 0).map
        (fun p => p.mOverrideDist) = some (max (propNearWall.mOverrideDist - 5 / 2 * (1 / 10)) 0)) := by
  have hc : propNearWall.candidate (1 / 25) = ⟨25, 0⟩ := by
    simp only [PropObject.candidate, propNearWall, mkProp, Vec2.add, Vec2.smul]
    norm_num
  have hin : InFloor (propNearWall.candidate (1 / 25)) := by
    rw [hc]
    unfold InFloor
    norm_num
  have hw : hitsWall (propNearWall.candidate (1 / 10)) = true :=
    (hitsWall_eq_true_iff _).2 propNearWall_out
  have h1 := (wall_test_precedence ratLibm (1 / 25) 0 sceneWall propNearWall rfl rfl
    (by decide)).2.1 hin
  have h2 := (wall_test_precedence ratLibm (1 / 10) 0 sceneWall propNearWall rfl rfl
    (by decide)).2.2 hw
  exact ⟨⟨hc, h1.1, h1.2 (sceneWall_no_partner (1 / 25))⟩, hw, h2.2.1, h2.2.2.2.2.1⟩

/-- Claim C27. Partners are always later in container order. In the object loop of `Update`
(`updateObjects`, whose state before the call on object `i` is `updatePrefix i`), whenever
the call of `Prop::Update` on the object with index `i` selects a collision partner, the
index of the partner is greater than `i`; more generally every prop against which this call
evaluates the distance test has an index greater than `i`, and no prop is tested twice in
one call. So the distance test for a pair of props is evaluated at most once in a pass, in
the call on the earlier of the two. (This holds for every state the pass starts from.) -/
theorem partners_are_later (L : Libm K) (rand : ℕ → ℕ) (wd ht : ℤ) (deltaTime : K)
    (w : GameState K × ℕ) (i : ℕ) :
    updateObjects L rand wd ht deltaTime w =
      updatePrefix L rand wd ht deltaTime w.1.mObjects.length w ∧
    updatePrefix L rand wd ht deltaTime (i + 1) w =
      ObjectUpdate L rand wd ht deltaTime i (updatePrefix L rand wd ht deltaTime i w) ∧
    (∀ j, PropUpdate.partner L deltaTime i (updatePrefix L rand wd ht deltaTime i w).1 = some j →
      i < j ∧ j ∈ PropUpdate.tested L deltaTime i (updatePrefix L rand wd ht deltaTime i w).1) ∧
    (∀ j, j ∈ PropUpdate.tested L deltaTime i (updatePrefix L rand wd ht deltaTime i w).1 →
      i < j) ∧
    (PropUpdate.tested L deltaTime i (updatePrefix L rand wd ht deltaTime i w).1).Pairwise
      (fun a b => a < b) := by
  refine ⟨rfl, updatePrefix_succ L rand wd ht deltaTime i w, ?_,
    fun j hj => tested_later L rand wd ht deltaTime w i j hj, tested_pairwise L deltaTime i _⟩
  intro j hj
  have hmem := partner_mem_tested L deltaTime i _ j hj
  exact ⟨tested_later L rand wd ht deltaTime w i j hmem, hmem⟩

/-- Witness of C27: in the scenario of the specification the call on `A` (index `0`)
selects `B` (index `1`). -/
theorem partners_are_later_witness :
    PropUpdate.partner ratLibm (1 / 25) 0
      (updatePrefix ratLibm (fun _ => 0) 800 600 (1 / 25) 0 (sceneAB, 0)).1 = some 1 ∧
    0 < 1 ∧
    1 ∈ PropUpdate.tested ratLibm (1 / 25) 0
      (updatePrefix ratLibm (fun _ => 0) 800 600 (1 / 25) 0 (sceneAB, 0)).1 :=
  ⟨sceneAB_partner,
    (partners_are_later ratLibm (fun _ => 0) 800 600 (1 / 25) (sceneAB, 0) 0).2.2.1 1
      sceneAB_partner⟩

/-- Claim C28. Rendered transforms agree with the state: at the end of every unpaused
object loop of `Update` (the objects updated in container order, from any state), the
`mTransform` of every prop is the matrix `Prop::Update` builds from the position, the
velocity and the scale the prop has at the end of the pass, which is
`translate( pos.x, 0, pos.y ) * rot( velocity ) * scale( mScale )`; this includes the props
whose velocity another prop negated during the pass. -/
theorem rendered_transforms_agree (L : Libm K) (rand : ℕ → ℕ) :
    (∀ (wd ht : ℤ) (deltaTime : K) (w : GameState K × ℕ), w.1.mPaused = false →
      AllProps (fun p => p.mTransform = p.worldTransform L ∧
          p.mTransform = ((translate (Mat4.diag 1) ⟨p.mPosXZ.x, 0, p.mPosXZ.y⟩).mul
            (PropUpdate.rot L p.mVelocityXZ)).mul
            (scale (Mat4.diag 1) ⟨p.mScale, p.mScale, p.mScale⟩))
        (updateObjects L rand wd ht deltaTime w).1.mObjects) ∧
    (∀ (env : FrameEnv K) (m : Machine K), (ProcessInput env.input m).gs.mPaused = false →
      AllProps (fun p => p.mTransform = ((translate (Mat4.diag 1) ⟨p.mPosXZ.x, 0, p.mPosXZ.y⟩).mul
            (PropUpdate.rot L p.mVelocityXZ)).mul
            (scale (Mat4.diag 1) ⟨p.mScale, p.mScale, p.mScale⟩))
        (Update L rand env m).gs.mObjects) := by
  have key : ∀ (wd ht : ℤ) (deltaTime : K) (w : GameState K × ℕ), w.1.mPaused = false →
      AllProps (fun p => p.mTransform = p.worldTransform L ∧
          p.mTransform = ((translate (Mat4.diag 1) ⟨p.mPosXZ.x, 0, p.mPosXZ.y⟩).mul
            (PropUpdate.rot L p.mVelocityXZ)).mul
            (scale (Mat4.diag 1) ⟨p.mScale, p.mScale, p.mScale⟩))
        (updateObjects L rand wd ht deltaTime w).1.mObjects := by
    intro wd ht deltaTime w hp k p hk
    rw [updateObjects_eq_updatePrefix] at hk
    obtain ⟨_, _, hlen, hmk⟩ := updatePrefix_inv L rand wd ht deltaTime w hp w.1.mObjects.length
    have hlt : k < w.1.mObjects.length := by
      rw [← hlen]
      exact propAt_lt_length _ k p hk
    have ht := (hmk k hlt p hk).2
    refine ⟨ht, ?_⟩
    rw [ht]
    unfold PropObject.worldTransform
    exact scale_eq_mul _ _
  refine ⟨key, ?_⟩
  intro env m hp k p hk
  exact (key env.wd env.ht env.deltaTime
    ((ProcessInput env.input
        { m with windowShouldClose := m.windowShouldClose || env.closeRequested }).gs,
      (ProcessInput env.input
        { m with windowShouldClose := m.windowShouldClose || env.closeRequested }).randCalls)
    hp k p hk).2

/-- Witness of C28: the pass over the scenario of the specification, in which the update
of `A` negates the velocity of `B`. -/
theorem rendered_transforms_agree_witness :
    sceneAB.mPaused = false ∧
    propAt (PropUpdate ratLibm (1 / 25) 0 sceneAB).mObjects 1
      = some { propB with mVelocityXZ := ⟨1, 0⟩ } ∧
    AllProps (fun p => p.mTransform = p.worldTransform ratLibm ∧
        p.mTransform = ((translate (Mat4.diag 1) ⟨p.mPosXZ.x, 0, p.mPosXZ.y⟩).mul
          (PropUpdate.rot ratLibm p.mVelocityXZ)).mul
          (scale (Mat4.diag 1) ⟨p.mScale, p.mScale, p.mScale⟩))
      (updateObjects ratLibm (fun _ => 0) 800 600 (1 / 25) (sceneAB, 0)).1.mObjects :=
  ⟨rfl, sceneAB_after_A_propB,
    (rendered_transforms_agree ratLibm (fun _ => 0)).1 800 600 (1 / 25) (sceneAB, 0) rfl⟩

/-- Claim C23. A collision pair is not resolved again before separation. Let the call of
`Prop::Update` on prop `A` (index `a`) select the partner `B` (index `b`) in the iteration of
the main loop that begins in state `m0` with environment `env0`. Then `B` comes after `A` in
the container, and in every later iteration (`envs` the iterations in between, `env` the
later one) the call on `B` does not select `A`. If moreover all `deltaTime` since the
collision are `≥ 0` and the distance `sum of 2.5 * deltaTime` over the iterations since the
collision, the later one included, is `< 0.5`, then the call on `A` in the later iteration
selects no partner and leaves every other object as it is. -/
theorem collision_pair_not_resolved_again (L : Libm K) (rand : ℕ → ℕ) (env0 : FrameEnv K)
    (m0 : Machine K) (a b : ℕ) (hcol : iterationPartner L rand env0 m0 a = some b) :
    a < b ∧
    (∀ (envs : List (FrameEnv K)) (env : FrameEnv K),
      iterationPartner L rand env (runIterations L rand (env0 :: envs) m0) b ≠ some a) ∧
    (∀ (envs : List (FrameEnv K)) (env : FrameEnv K),
      (∀ e ∈ envs ++ [env], 0 ≤ e.deltaTime) → travelled (envs ++ [env]) < 1 / 2 →
      iterationPartner L rand env (runIterations L rand (env0 :: envs) m0) a = none ∧
      ∀ k, k ≠ a →
        (PropUpdate L env.deltaTime a
          (beforeCall L rand env (runIterations L rand (env0 :: envs) m0) a)).mObjects[k]?
        = (beforeCall L rand env (runIterations L rand (env0 :: envs) m0) a).mObjects[k]?) := by
  have hab : a < b := iterationPartner_later L rand env0 m0 a b hcol
  refine ⟨hab, ?_, ?_⟩
  · intro envs env h
    have := iterationPartner_later L rand env _ b a h
    omega
  · intro envs env hdt hsum
    have hnone : iterationPartner L rand env (runIterations L rand (env0 :: envs) m0) a
        = none := by
      apply partner_eq_none
      intro j hj
      obtain ⟨A0, hA0, _⟩ := partner_some L env0.deltaTime a _ b hcol
      -- the prop `a` at the start of the collision iteration
      obtain ⟨Aw, hAm⟩ : ∃ Aw, propAt m0.gs.mObjects a = some Aw := by
        cases hw : propAt m0.gs.mObjects a with
        | none =>
          have hn := updatePrefix_propAt_none L rand env0.wd env0.ht env0.deltaTime
            (passStart env0 m0) a hw a
          have hs : propAt (updatePrefix L rand env0.wd env0.ht env0.deltaTime a
              (passStart env0 m0)).1.mObjects a = some A0 := hA0
          rw [hn] at hs
          cases hs
        | some Aw => exact ⟨Aw, rfl⟩
      -- after the collision iteration the cooldown of `a` is `0.5`
      obtain ⟨A1, hA1, _, h12⟩ := mainIteration_cooldown L rand env0 m0 a Aw hAm
      have hod1 : A1.mOverrideDist = 1 / 2 := h12 b hcol
      -- over the iterations in between it falls at most by the distance travelled
      obtain ⟨A2, hA2, hod2⟩ := runIterations_cooldown L rand a envs
        (mainIteration L rand env0 m0) A1 (1 / 2) hA1 (by rw [hod1]) (le_refl _)
        (fun e he => hdt e (List.mem_append_left _ he))
      -- in the later iteration it is untouched until the call on `a`
      obtain ⟨A3, hA3, hod3, _⟩ := updatePrefix_cooldown L rand env.wd env.ht env.deltaTime
        (passStart env (runIterations L rand (env0 :: envs) m0)) a A2 hA2 a
      obtain ⟨A4, hA4, _, _, _, hcool, _⟩ := partner_some L env.deltaTime a _ j hj
      have e34 : A4 = A3 := Option.some.inj (hA4.symm.trans hA3)
      rw [e34] at hcool
      have hge := cooled_ge A3 env.deltaTime
      rw [hcool, hod3 (le_refl _)] at hge
      rw [travelled_append_singleton] at hsum
      linarith
    refine ⟨hnone, fun k hk => ?_⟩
    apply PropUpdate_getElem?_other L env.deltaTime a _ k hk
    intro h
    have h' : iterationPartner L rand env (runIterations L rand (env0 :: envs) m0) a
        = some k := h
    rw [hnone] at h'
    cases h'

/-- Witness of C23: the scenario of the specification run for two iterations of `0.04`
seconds; `A` selects `B` in the first, and after a distance of `0.1` `A` selects no
partner in the second. -/
theorem collision_pair_not_resolved_again_witness :
    iterationPartner ratLibm (fun _ => 0) quietFrame machineAB 0 = some 1 ∧
    (∀ e ∈ ([] : List (FrameEnv ℚ)) ++ [quietFrame], 0 ≤ e.deltaTime) ∧
    travelled (([] : List (FrameEnv ℚ)) ++ [quietFrame]) < 1 / 2 ∧
    iterationPartner ratLibm (fun _ => 0) quietFrame
      (runIterations ratLibm (fun _ => 0) (quietFrame :: []) machineAB) 1 ≠ some 0 ∧
    iterationPartner ratLibm (fun _ => 0) quietFrame
      (runIterations ratLibm (fun _ => 0) (quietFrame :: []) machineAB) 0 = none := by
  have hdt : ∀ e ∈ ([] : List (FrameEnv ℚ)) ++ [quietFrame], 0 ≤ e.deltaTime := by
    intro e he
    simp only [List.nil_append, List.mem_singleton] at he
    rw [he]
    norm_num [quietFrame]
  have hsum : travelled (([] : List (FrameEnv ℚ)) ++ [quietFrame]) < 1 / 2 := by
    norm_num [travelled, quietFrame]
  have h := collision_pair_not_resolved_again ratLibm (fun _ => 0) quietFrame machineAB 0 1
    (machineAB_partner _)
  exact ⟨machineAB_partner _, hdt, hsum, h.2.1 [] quietFrame, (h.2.2 [] quietFrame hdt hsum).1⟩

end Claims

end RenderExamples
